import Mathlib

/-!
Konsole view management: a shallow embedding of `ViewManager.cpp`.

Pointers are natural numbers (the address is the identity), a nullable pointer is an
`Option`.  Every function of `ViewManager` that is embedded takes the manager state and
returns the new state; calls on collaborators and emitted signals are appended to a log.
A function that dereferences a pointer which is null returns `none`.
-/

namespace Konsole

/-- Address of a `TerminalDisplay` widget. -/
abbrev TerminalDisplay := Nat

/-- Address of a `Session` object (never null; a nullable one is an `Option Session`). -/
abbrev Session := Nat

/-- Identity of a `Profile::Ptr`. -/
abbrev Profile := Nat

/-- The type of `_sessionMap`, a `QHash<TerminalDisplay *, Session *>`: an association list
with the display as key and the (nullable) session pointer as value. -/
abbrev SessionMap := List (TerminalDisplay × Option Session)

namespace QHash

/-- The entry stored for key `k`, as `QHash::find` gives it: `none` when the key is absent. -/
def find (m : SessionMap) (k : TerminalDisplay) : Option (Option Session) :=
  (m.find? (fun e => e.1 == k)).map (fun e => e.2)

/-- Whether `k` is a key, `QHash::contains`. -/
def contains (m : SessionMap) (k : TerminalDisplay) : Bool :=
  m.any (fun e => e.1 == k)

/-- Removal of every item with key `k`, `QHash::remove`. -/
def remove (m : SessionMap) (k : TerminalDisplay) : SessionMap :=
  m.filter (fun e => e.1 != k)

/-- The non-const `QHash::operator[]` used as an rvalue: when the key is absent a
default-constructed value (the null pointer) is inserted for it; the stored value is
returned together with the map. -/
def index (m : SessionMap) (k : TerminalDisplay) : SessionMap × Option Session :=
  match find m k with
  | some v => (m, v)
  | none => (m ++ [(k, none)], none)

/-- The assignment `m[k] = v`: the value of an existing key is replaced, an absent key is
inserted. -/
def insert (m : SessionMap) (k : TerminalDisplay) (v : Option Session) : SessionMap :=
  if contains m k then m.map (fun e => if e.1 == k then (k, v) else e) else m ++ [(k, v)]

/-- The keys of the map, in storage order. -/
def keys (m : SessionMap) : List TerminalDisplay := m.map (fun e => e.1)

end QHash

/-- The orientation of a split, `Qt::Orientation`. -/
inductive Orientation
  | Horizontal
  | Vertical
deriving DecidableEq, Repr

/-- Modelled from the spec: the class MultiTerminalDisplay (its header is not part of the
sources): a tree node, either a leaf wrapping one TerminalDisplay or an internal split node
with an orientation and child nodes. -/
inductive MultiTerminalDisplay
  | leaf (td : TerminalDisplay)
  | split (o : Orientation) (first second : MultiTerminalDisplay)
deriving DecidableEq, Repr

/-- The terminal displays at the leaves of a pane tree, from left to right. -/
def MultiTerminalDisplay.leaves : MultiTerminalDisplay → List TerminalDisplay
  | .leaf td => [td]
  | .split _ a b => a.leaves ++ b.leaves

/-- A `QWidget *` that is not null, by dynamic type.  A MultiTerminalDisplay is not a
TerminalDisplay, so a `qobject_cast` between the two gives the null pointer. -/
inductive QWidget
  | terminalDisplay (td : TerminalDisplay)
  | multiTerminalDisplay (mtd : MultiTerminalDisplay)
deriving DecidableEq, Repr

/-- The cast `qobject_cast<TerminalDisplay *>(w)`. -/
def castTerminalDisplay : Option QWidget → Option TerminalDisplay
  | some (.terminalDisplay td) => some td
  | _ => none

/-- The cast `qobject_cast<MultiTerminalDisplay *>(w)`. -/
def castMultiTerminalDisplay : Option QWidget → Option MultiTerminalDisplay
  | some (.multiTerminalDisplay mtd) => some mtd
  | _ => none

/-- Modelled from the spec: `MultiTerminalDisplayManager::getTerminalDisplaysOfContainer`
(the manager of the pane trees is not part of the sources): the set of the terminal displays
of a pane tree, enumerated without repetition. -/
def getTerminalDisplaysOfContainer (mtd : MultiTerminalDisplay) : List TerminalDisplay :=
  mtd.leaves.dedup

/-- A `SessionController`: the session it controls (a `QPointer<Session>`) and its view. -/
structure SessionController where
  session : Option Session
  view : TerminalDisplay
deriving DecidableEq, Repr

/-- Modelled from the spec: the class TabbedViewContainer (not part of the sources), an
ordered sequence of tab entries with one current entry.  The current index is `-1` exactly
when there is no tab, as for a `QTabWidget`. -/
structure TabbedViewContainer where
  tabs : List QWidget := []
  currentIndex : Int := -1
deriving DecidableEq, Repr

namespace TabbedViewContainer

/-- The number of tabs, `count()`. -/
def count (c : TabbedViewContainer) : Nat := c.tabs.length

/-- The widget of tab `i`, `widget(i)`; null when `i` is out of range. -/
def widget (c : TabbedViewContainer) (i : Int) : Option QWidget :=
  if 0 ≤ i then c.tabs.get? i.toNat else none

/-- The widget of the current tab, `currentWidget()`. -/
def currentWidget (c : TabbedViewContainer) : Option QWidget := c.widget c.currentIndex

/-- Modelled from the spec: `addView(view, properties, index)`: the view becomes a tab at
`index`, or the last tab when `index` is `-1` or out of range; the first tab added becomes
the current one, and a tab inserted at or before the current one shifts the current index. -/
def addView (c : TabbedViewContainer) (view : QWidget) (index : Int) : TabbedViewContainer :=
  let pos : Nat := if index < 0 ∨ (c.tabs.length : Int) < index then c.tabs.length else index.toNat
  { tabs := c.tabs.take pos ++ view :: c.tabs.drop pos
    currentIndex :=
      if c.tabs.length = 0 then 0
      else if (pos : Int) ≤ c.currentIndex then c.currentIndex + 1 else c.currentIndex }

/-- Modelled from the spec: `setCurrentWidget(view)`: the tab of `view` becomes the current
one; nothing happens when `view` is not a tab of the container. -/
def setCurrentWidget (c : TabbedViewContainer) (view : QWidget) : TabbedViewContainer :=
  if view ∈ c.tabs then { c with currentIndex := (c.tabs.indexOf view : Int) } else c

/-- Modelled from the spec: `removeView(view)`: the tab of `view` is removed; the current
index follows the tab to the right of a removed current tab. -/
def removeView (c : TabbedViewContainer) (view : QWidget) : TabbedViewContainer :=
  if view ∈ c.tabs then
    let i := c.tabs.indexOf view
    let tabs := c.tabs.eraseIdx i
    { tabs := tabs
      currentIndex :=
        if (i : Int) < c.currentIndex then c.currentIndex - 1
        else min c.currentIndex ((tabs.length : Int) - 1) }
  else c

end TabbedViewContainer

/-- Modelled from the spec: the class ViewSplitter (not part of the sources): the ordered
containers with the index of the active one, together with the terminal displays that are
descendants of the splitter widget (the result of `findChildren<TerminalDisplay *>()`) and
the orientation of the dividers, which is uniform as the splitting is not recursive. -/
structure ViewSplitter where
  containers : List TabbedViewContainer := []
  active : Nat := 0
  terminalDisplays : List TerminalDisplay := []
  orientation : Orientation := Orientation.Horizontal
deriving DecidableEq, Repr

namespace ViewSplitter

/-- The active container, `activeContainer()`; null when there is none. -/
def activeContainer (vs : ViewSplitter) : Option TabbedViewContainer := vs.containers.get? vs.active

/-- Modelled from the spec: `addContainer(container, orientation)`: the container is added
after the existing ones, the dividers take the given orientation; the first container added
is the active one. -/
def addContainer (vs : ViewSplitter) (c : TabbedViewContainer) (orientation : Orientation) :
    ViewSplitter :=
  { vs with containers := vs.containers ++ [c]
            active := if vs.containers.length = 0 then 0 else vs.active
            orientation := orientation }

end ViewSplitter

/-- Modelled from the spec: the part of the session registry (SessionManager, Session and
ProfileManager are not part of the sources) that the view manager consumes: the sessions a
restore id resolves to, the address and the profile of each session created, the running
sessions, and the views attached to each session. -/
structure SessionManager where
  restoreIds : List (Int × Session) := []
  nextSession : Session := 0
  created : List (Session × Profile) := []
  running : List Session := []
  views : List (Session × TerminalDisplay) := []
  defaultProfile : Profile := 0
  environment : List (Session × String) := []
  initialWorkingDirectory : List (Session × String) := []
deriving DecidableEq, Repr

namespace SessionManager

/-- The session of a restore id, `idToSession(id)`; null for an id that is not known. -/
def idToSession (sm : SessionManager) (id : Int) : Option Session :=
  (sm.restoreIds.find? (fun e => e.1 == id)).map (fun e => e.2)

/-- A new session with the given profile, `createSession(profile)`. -/
def createSession (sm : SessionManager) (p : Profile) : Session × SessionManager :=
  (sm.nextSession,
   { sm with nextSession := sm.nextSession + 1, created := sm.created ++ [(sm.nextSession, p)] })

/-- The views attached to a session, `session->views()`. -/
def viewsOf (sm : SessionManager) (s : Session) : List TerminalDisplay :=
  (sm.views.filter (fun e => e.1 == s)).map (fun e => e.2)

/-- Attaching a view, `session->addView(display)`. -/
def addView (sm : SessionManager) (s : Session) (d : TerminalDisplay) : SessionManager :=
  { sm with views := sm.views ++ [(s, d)] }

/-- Whether the session runs, `session->isRunning()`. -/
def isRunning (sm : SessionManager) (s : Session) : Bool := sm.running.contains s

/-- Starting the session, `session->run()`. -/
def run (sm : SessionManager) (s : Session) : SessionManager :=
  { sm with running := sm.running ++ [s] }

/-- Modelled from the spec: what a session does when one of its views is destroyed (Session
is not part of the sources): the display is detached from the session it was attached to. -/
def viewDestroyed (sm : SessionManager) (d : TerminalDisplay) : SessionManager :=
  { sm with views := sm.views.filter (fun e => e.2 != d) }

end SessionManager

/-- A `ViewProperties *` that is not null. -/
abbrev ViewProperties := Nat

/-- A `KActionCollection *` that is not null; the actions it holds are looked up through a
parameter where they are read. -/
abbrev KActionCollection := Nat

/-- The calls on collaborators and the signals emitted, in the order they happen.  The record
`removeContainer` is written by `removeContainerLogged` only: it keeps the target of a call
of `removeContainer` and the number of containers the splitter had at the call. -/
inductive Effect
  | deleteLater (view : TerminalDisplay)
  | deleteLaterWidget (view : QWidget)
  | close (session : Session)
  | run (session : Session)
  | viewDetached (session : Session)
  | unplugController (controller : SessionController)
  | activeViewChanged (controller : SessionController)
  | qInfoCreateView (session : Session)
  | qWarningUnableToLoad (id : Int)
  | qCriticalCannotCast
  | splitViewToggle (split : Bool)
  | updateWindowIcon
  | blurSettingChanged (blur : Bool)
  | removeContainer (container : Nat) (containers : Nat)
  | registerObject (path : String)
  | setEnabled (action : String) (enable : Bool)
  | viewPropertiesChanged (list : List ViewProperties)
deriving DecidableEq, Repr

/-- Modelled from the spec: the enumeration `ViewManager::NavigationMethod` (the header is not
part of the sources): a row of tabs, or no navigation widget. -/
inductive NavigationMethod
  | TabbedNavigation
  | NoNavigation
deriving DecidableEq, Repr

/-- The enumeration `ViewManager::NewTabBehavior`. -/
inductive NewTabBehavior
  | PutNewTabAtTheEnd
  | PutNewTabAfterCurrentTab
deriving DecidableEq, Repr

/-- The state of a `ViewManager`: its members, the address the next `new TerminalDisplay`
gets, the session registry it talks to, and the log of effects. -/
structure ViewManager where
  viewSplitter : Option ViewSplitter := some {}
  pluggedController : Option SessionController := none
  sessionMap : SessionMap := []
  newTabBehavior : NewTabBehavior := .PutNewTabAtTheEnd
  managerId : Int := 0
  nextDisplay : TerminalDisplay := 0
  sessionManager : SessionManager := {}
  log : List Effect := []
  actionCollection : Option KActionCollection := none
  navigationMethod : NavigationMethod := .NoNavigation
deriving DecidableEq, Repr

/-- A persisted `KConfigGroup`, as far as session restoring reads it: the entry "Sessions"
and the entry "Active", each absent or present. -/
structure KConfigGroup where
  sessions : Option (List Int) := none
  active : Option Int := none
deriving DecidableEq, Repr

namespace ViewManager

/-- One step of the loop of `sessionFinished` over the displays under the splitter: the
lookup `_sessionMap[view]` (which inserts a null entry for an absent key), and for a display
of the finished session the removal of its entry and `view->deleteLater()`. -/
def sessionFinishedStep (session : Option Session) (vm : ViewManager) (view : TerminalDisplay) :
    ViewManager :=
  let r := QHash.index vm.sessionMap view
  if r.2 = session then
    { vm with sessionMap := QHash.remove r.1 view, log := vm.log ++ [Effect.deleteLater view] }
  else
    { vm with sessionMap := r.1 }

/-- The slot `ViewManager::sessionFinished()`; `session` is `qobject_cast<Session *>(sender())`,
which the release build does not check for null. -/
def sessionFinished (vm : ViewManager) (session : Option Session) : ViewManager :=
  match vm.viewSplitter with
  | none => vm
  | some vs =>
    let vm1 := vs.terminalDisplays.foldl (sessionFinishedStep session) vm
    match vm1.pluggedController with
    | some c =>
      if c.session = session then { vm1 with log := vm1.log ++ [Effect.unplugController c] }
      else vm1
    | none => vm1

/-- The slot `ViewManager::viewDestroyed(QWidget *view)`; the address is reinterpreted as a
`TerminalDisplay *`.  The final `updateDetachViewState()` only enables or disables an action
and is left out. -/
def viewDestroyed (vm : ViewManager) (display : TerminalDisplay) : ViewManager :=
  let r := QHash.index vm.sessionMap display
  let vm1 := { vm with sessionMap := QHash.remove r.1 display }
  match r.2 with
  | some session =>
    if (vm1.sessionManager.viewsOf session).length = 0 then
      { vm1 with log := vm1.log ++ [Effect.close session] }
    else vm1
  | none => vm1

/-- The body of `ViewManager::removeContainer(container)` is compiled out (`#if 0`): the call
does nothing. -/
def removeContainer (vm : ViewManager) (_container : Nat) : ViewManager := vm

/-- The loop of `detachView` over the terminal displays of the pane: the lookup
`_sessionMap[td]`, the `return` out of the whole function when the session is null, otherwise
the signal `viewDetached` and the removal of the entry.  The flag tells whether the loop ran
to its end (`true`) or the function returned from inside it (`false`). -/
def detachViewLoop : List TerminalDisplay → ViewManager → ViewManager × Bool
  | [], vm => (vm, true)
  | td :: tds, vm =>
    let r := QHash.index vm.sessionMap td
    match r.2 with
    | none => ({ vm with sessionMap := r.1 }, false)
    | some sessionToDetach =>
      detachViewLoop tds
        { vm with sessionMap := QHash.remove r.1 td
                  log := vm.log ++ [Effect.viewDetached sessionToDetach] }

/-- The slot `ViewManager::detachView(container, view)`.  `enableDetaching` says whether the
build defines `ENABLE_DETACHING`; the container is given by its position in the splitter.
The signals that the container emits while the view is removed are not followed. -/
def detachView (enableDetaching : Bool) (vm : ViewManager) (container : Nat)
    (view : Option QWidget) : Option ViewManager :=
  if !enableDetaching then some vm
  else
    match castMultiTerminalDisplay view with
    | none => some vm
    | some viewToDetach =>
      let r := detachViewLoop (getTerminalDisplaysOfContainer viewToDetach) vm
      if !r.2 then some r.1
      else do
        let vs ← r.1.viewSplitter
        let c ← vs.containers.get? container
        let c1 := c.removeView (QWidget.multiTerminalDisplay viewToDetach)
        let vs1 := { vs with containers := vs.containers.set container c1 }
        let vm2 := { r.1 with
          viewSplitter := some vs1
          log := r.1.log ++ [Effect.deleteLaterWidget (QWidget.multiTerminalDisplay viewToDetach)] }
        if 1 < vs1.containers.length ∧ c1.count = 0 then some (removeContainer vm2 container)
        else some vm2

/-- The slot `ViewManager::controllerChanged(controller)`; setting the focus proxy
dereferences the splitter. -/
def controllerChanged (vm : ViewManager) (controller : SessionController) :
    Option ViewManager :=
  if some controller = vm.pluggedController then some vm
  else
    match vm.viewSplitter with
    | none => none
    | some _ =>
      some { vm with pluggedController := some controller
                     log := vm.log ++ [Effect.activeViewChanged controller] }

/-- The function `ViewManager::createController(session, view)`: the new controller becomes
the plugged one when there was none. -/
def createController (vm : ViewManager) (session : Session) (view : TerminalDisplay) :
    Option (SessionController × ViewManager) :=
  let controller : SessionController := { session := some session, view := view }
  match vm.pluggedController with
  | none => (controllerChanged vm controller).map (fun vm1 => (controller, vm1))
  | some _ => some (controller, vm)

/-- The function `ViewManager::createContainer()`: a new container without tabs. -/
def createContainer : TabbedViewContainer := {}

/-- The overload `ViewManager::createView(session, container, index)`; the container is given
by its position in the splitter.  The new display gets the next free address and becomes a
descendant of the splitter; applying the profile and the preferred size only touch the
rendering state of the display, and `updateDetachViewState()` only an action. -/
def createViewIn (vm : ViewManager) (session : Session) (container : Nat) (index : Int) :
    Option ViewManager := do
  let display := vm.nextDisplay
  let vm1 := { vm with nextDisplay := vm.nextDisplay + 1 }
  let multiTerminalDisplay := QWidget.multiTerminalDisplay (MultiTerminalDisplay.leaf display)
  let r ← createController vm1 session display
  let vm2 := { r.2 with sessionMap := QHash.insert r.2.sessionMap display (some session) }
  let vs ← vm2.viewSplitter
  let c ← vs.containers.get? container
  let c1 := c.addView multiTerminalDisplay index
  let c2 := if container = vs.active then c1.setCurrentWidget multiTerminalDisplay else c1
  some { vm2 with
    viewSplitter := some { vs with containers := vs.containers.set container c2
                                   terminalDisplays := vs.terminalDisplays ++ [display] }
    sessionManager := vm2.sessionManager.addView session display }

/-- The overload `ViewManager::createView(session)`: a first container is created when the
splitter has none, the tab index is chosen, and a view is created in every container. -/
def createView (vm : ViewManager) (session : Session) : Option ViewManager := do
  let vm0 := { vm with log := vm.log ++ [Effect.qInfoCreateView session] }
  let vs ← vm0.viewSplitter
  let vs1 :=
    if vs.containers.length = 0 then vs.addContainer createContainer Orientation.Vertical else vs
  let vm1 := { vm0 with viewSplitter := some vs1 }
  let index ←
    if vm1.newTabBehavior = NewTabBehavior.PutNewTabAfterCurrentTab then
      vs1.activeContainer.map (fun c => c.currentIndex + 1)
    else some (-1)
  (List.range vs1.containers.length).foldlM (fun v c => createViewIn v session c index) vm1

/-- The function `ViewManager::activeView()`: the current widget of the active container,
null when there is no active container. -/
def activeView (vm : ViewManager) : Option (Option QWidget) := do
  let vs ← vm.viewSplitter
  match vs.activeContainer with
  | some container => some container.currentWidget
  | none => some none

/-- The statement `if (!session->isRunning()) session->run();`. -/
def runIfNotRunning (vm : ViewManager) (session : Session) : ViewManager :=
  if vm.sessionManager.isRunning session then vm
  else { vm with sessionManager := vm.sessionManager.run session
                 log := vm.log ++ [Effect.run session] }

/-- The `foreach` loop of `restoreSessions` over (a copy of) the stored ids; `tab` counts
from 1.  The result carries the display picked for the active tab and whether the list was
cleared because an id did not resolve. -/
def restoreSessionsLoop (activeTab : Int) :
    List Int → Int → Option TerminalDisplay → ViewManager →
      Option (ViewManager × Option TerminalDisplay × Bool)
  | [], _, display, vm => some (vm, display, false)
  | id :: ids, tab, display, vm =>
    match vm.sessionManager.idToSession id with
    | none => some ({ vm with log := vm.log ++ [Effect.qWarningUnableToLoad id] }, display, true)
    | some session => do
      let vm1 ← createView vm session
      let vm2 := runIfNotRunning vm1 session
      let display1 ←
        if tab = activeTab then (activeView vm2).map castTerminalDisplay else some display
      restoreSessionsLoop activeTab ids (tab + 1) display1 vm2

/-- The statement `if (display != nullptr) { ... }` of `restoreSessions`: the display picked
in the loop becomes the current widget of the active container. -/
def refocusRestored (vm : ViewManager) : Option TerminalDisplay → Option ViewManager
  | some display => do
    let vs ← vm.viewSplitter
    let c ← vs.activeContainer
    let c1 := c.setCurrentWidget (QWidget.terminalDisplay display)
    some { vm with viewSplitter := some { vs with containers := vs.containers.set vs.active c1 } }
  | none => some vm

/-- The block of `restoreSessions` under `if (ids.isEmpty())`: a session with the default
profile is created, gets a view, and is run unless it runs already. -/
def startDefaultProfile (vm : ViewManager) : Option ViewManager := do
  let profile := vm.sessionManager.defaultProfile
  let sp := vm.sessionManager.createSession profile
  let vm1 ← createView { vm with sessionManager := sp.2 } sp.1
  some (runIfNotRunning vm1 sp.1)

/-- The function `ViewManager::restoreSessions(group)`. -/
def restoreSessions (vm : ViewManager) (group : KConfigGroup) : Option ViewManager := do
  let ids := group.sessions.getD []
  let activeTab := group.active.getD 0
  let r ← restoreSessionsLoop activeTab ids 1 none vm
  let vm1 ← refocusRestored r.1 r.2.1
  if r.2.2 || ids.isEmpty then startDefaultProfile vm1 else some vm1

/-- The value that an `int` holds after an arithmetic result `x`: 32 bits in two's
complement.  Signed overflow is undefined in C++; the model wraps around, as the hardware
does. -/
def toInt32 (x : Int) : Int := (x + 2147483648) % 4294967296 - 2147483648

/-- The DBus object path of the manager with the given id:
`QLatin1String("/Windows/") + QString::number(_managerId)`. -/
def objectPath (managerId : Int) : String := "/Windows/" ++ toString managerId

/-- The constructor `ViewManager::ViewManager(parent, collection)`: a splitter without
containers, no plugged controller, an empty session map, the given action collection, no
navigation, new tabs at the end, and the next manager id, under which the object is
registered on the session bus.  `setupActions()` only adds actions to the collection and to
the splitter.  The second component is the new value of the static `lastManagerId`. -/
def construct (lastManagerId : Int) (nextDisplay : TerminalDisplay) (sm : SessionManager)
    (collection : Option KActionCollection) : ViewManager × Int :=
  ({ viewSplitter := some {}
     pluggedController := none
     sessionMap := []
     newTabBehavior := NewTabBehavior.PutNewTabAtTheEnd
     managerId := toInt32 (lastManagerId + 1)
     nextDisplay := nextDisplay
     sessionManager := sm
     log := [Effect.registerObject (objectPath (toInt32 (lastManagerId + 1)))]
     actionCollection := collection
     navigationMethod := NavigationMethod.NoNavigation },
   toInt32 (lastManagerId + 1))

/-- The sessions `createView(session)` was called with, in call order. -/
def createViewCalls (log : List Effect) : List Session :=
  log.filterMap (fun e => match e with | Effect.qInfoCreateView s => some s | _ => none)

/-- The sessions `run()` was called on, in call order. -/
def runCalls (log : List Effect) : List Session :=
  log.filterMap (fun e => match e with | Effect.run s => some s | _ => none)

/-- The sessions `close()` was called on, in call order. -/
def closeCalls (log : List Effect) : List Session :=
  log.filterMap (fun e => match e with | Effect.close s => some s | _ => none)

/-- The sessions carried by the `viewDetached` signals, in emission order. -/
def viewDetachedSignals (log : List Effect) : List Session :=
  log.filterMap (fun e => match e with | Effect.viewDetached s => some s | _ => none)

/-- An event of the teardown of views: a session reports that it finished, or a display has
been destroyed. -/
inductive TeardownEvent
  | sessionFinished (sender : Option Session)
  | viewDestroyed (display : TerminalDisplay)
deriving DecidableEq, Repr

/-- Modelled from the spec: the delivery of a teardown event (the signal wiring inside
Session and the containers is not part of the sources).  A destroyed display has left the
widget tree and the views of its session before `viewDestroyed` runs for it. -/
def deliver (vm : ViewManager) : TeardownEvent → ViewManager
  | .sessionFinished sender => sessionFinished vm sender
  | .viewDestroyed display =>
    viewDestroyed
      { vm with
        sessionManager := vm.sessionManager.viewDestroyed display
        viewSplitter := vm.viewSplitter.map (fun vs =>
          { vs with terminalDisplays := vs.terminalDisplays.filter (fun d => d != display) }) }
      display

/-- The state after a sequence of teardown events. -/
def deliverAll (vm : ViewManager) (events : List TeardownEvent) : ViewManager :=
  events.foldl deliver vm

/-- Every display that the session map sends to `s` is among the views attached to `s`. -/
def Attached (vm : ViewManager) (s : Session) : Prop :=
  ∀ d, QHash.find vm.sessionMap d = some (some s) → d ∈ vm.sessionManager.viewsOf s

/-- No display is mapped to `s`. -/
def Gone (vm : ViewManager) (s : Session) : Prop :=
  ∀ d, QHash.find vm.sessionMap d ≠ some (some s)

/-- A manager with two displays under the splitter, each mapped to its own session. -/
def twoSessions : ViewManager :=
  { viewSplitter := some { terminalDisplays := [1, 2] }
    sessionMap := [(1, some 10), (2, some 20)]
    sessionManager := { views := [(10, 1), (20, 2)] } }

/-- A manager whose session map holds a display that is not under the splitter (as a display
is between `createAndSetupTerminalDisplay` and its placement in a pane tree). -/
def displayOutsideSplitter : ViewManager :=
  { viewSplitter := some { terminalDisplays := [] }
    sessionMap := [(1, some 10)] }

/-- A manager with one session shown by two displays, one in each of two containers. -/
def oneSessionTwoDisplays : ViewManager :=
  { viewSplitter := some
      { containers :=
          [{ tabs := [QWidget.multiTerminalDisplay (MultiTerminalDisplay.leaf 1)], currentIndex := 0 },
           { tabs := [QWidget.multiTerminalDisplay (MultiTerminalDisplay.leaf 2)], currentIndex := 0 }]
        terminalDisplays := [1, 2] }
    sessionMap := [(1, some 10), (2, some 10)]
    sessionManager := { views := [(10, 1), (10, 2)] } }

/-- A pane tree with the two displays 1 and 2 side by side. -/
def twoPanes : MultiTerminalDisplay :=
  MultiTerminalDisplay.split Orientation.Horizontal (MultiTerminalDisplay.leaf 1)
    (MultiTerminalDisplay.leaf 2)

/-- A manager with one container whose only tab is `twoPanes`; the displays 1, 2 and 3 are
mapped to sessions. -/
def twoPanesMapped : ViewManager :=
  { viewSplitter := some
      { containers := [{ tabs := [QWidget.multiTerminalDisplay twoPanes], currentIndex := 0 }]
        terminalDisplays := [1, 2] }
    sessionMap := [(1, some 10), (2, some 20), (3, some 10)] }

/-- The manager `twoPanesMapped` without the entry of display 1. -/
def twoPanesUnmapped : ViewManager :=
  { twoPanesMapped with sessionMap := [(2, some 20), (3, some 10)] }

/-- The splitter is alive and its active index points at one of its containers. -/
def ActiveReady (vm : ViewManager) : Prop :=
  ∃ vs, vm.viewSplitter = some vs ∧ vs.active < vs.containers.length

/-- The splitter is alive and, unless it has no container yet, its active index points at
one of its containers: the state in which `createView(session)` dereferences no null
pointer. -/
def SplitterReady (vm : ViewManager) : Prop :=
  ∃ vs, vm.viewSplitter = some vs ∧ (vs.containers.length = 0 ∨ vs.active < vs.containers.length)

/-- The tab that `createView` makes for the `i`-th display allocated after address `d0`. -/
def rootTab (d0 : TerminalDisplay) (i : Nat) : QWidget :=
  QWidget.multiTerminalDisplay (MultiTerminalDisplay.leaf (d0 + i))

/-- The manager shows exactly one tab per session of `ss`, in that order, in a single
container, the `i`-th tab being the root pane of display `d0 + i` and that display being
mapped to the `i`-th session; the last tab is the current one, and new tabs go to the end. -/
def ShowsTabs (d0 : TerminalDisplay) (ss : List Session) (vm : ViewManager) : Prop :=
  vm.viewSplitter = some
    (if ss.length = 0 then {}
     else { containers := [{ tabs := (List.range ss.length).map (rootTab d0)
                             currentIndex := (ss.length : Int) - 1 }]
            active := 0
            terminalDisplays := (List.range ss.length).map (fun i => d0 + i)
            orientation := Orientation.Vertical }) ∧
  vm.sessionMap = List.zipWith (fun i s => (d0 + i, some s)) (List.range ss.length) ss ∧
  vm.nextDisplay = d0 + ss.length ∧
  vm.newTabBehavior = NewTabBehavior.PutNewTabAtTheEnd

/-- A session registry that knows the restore ids 1 and 2. -/
def twoStoredSessions : SessionManager :=
  { restoreIds := [(1, 100), (2, 200)], nextSession := 300, defaultProfile := 7 }

/-- A freshly constructed manager over `twoStoredSessions`, without action collection. -/
def freshManager : ViewManager := (construct 0 50 twoStoredSessions none).1

/-- The sessions of `ss` on which `run()` is called when the statement
`if (!session->isRunning()) session->run();` is executed for each of them in turn, `running`
being the sessions that run at the start. -/
def runsNeeded (running : List Session) : List Session → List Session
  | [] => []
  | s :: ss =>
    if running.contains s then runsNeeded running ss else s :: runsNeeded (running ++ [s]) ss

/-- A manager that shows the sessions 100 and 200 in two tabs of one container. -/
def twoTabs : ViewManager :=
  { viewSplitter := some
      { containers := [{ tabs := [rootTab 50 0, rootTab 50 1], currentIndex := 1 }]
        active := 0
        terminalDisplays := [50, 51]
        orientation := Orientation.Vertical }
    pluggedController := some { session := some 100, view := 50 }
    sessionMap := [(50, some 100), (51, some 200)]
    nextDisplay := 52
    sessionManager := { twoStoredSessions with running := [100, 200], views := [(100, 50), (200, 51)] } }

end ViewManager

end Konsole

namespace Konsole

/-- What the view manager reads of a `ColorScheme`: its name, whether it asks for blur, and
whether its background is dark. -/
structure ColorScheme where
  name : String
  blur : Bool := false
  hasDarkBackground : Bool := false
deriving DecidableEq, Repr

/-- Modelled from the spec: the ColorSchemeManager (not part of the sources): the colour
schemes that are registered, looked up by name, and the default scheme (null when there is
none). -/
structure ColorSchemeManager where
  colorSchemes : List ColorScheme := []
  defaultColorScheme : Option ColorScheme := none
deriving DecidableEq, Repr

/-- The scheme registered under `name`, `findColorScheme(name)`; null when there is none. -/
def ColorSchemeManager.findColorScheme (m : ColorSchemeManager) (name : String) :
    Option ColorScheme :=
  m.colorSchemes.find? (fun c => c.name == name)

/-- What the view manager reads of a profile behind a `Profile::Ptr`: its name and the name of
its colour scheme. -/
structure ProfileInfo where
  name : String
  colorScheme : String
deriving DecidableEq, Repr

namespace ViewSplitter

/-- Modelled from the spec: `activateNextContainer()`: the container after the active one
becomes the active one, the first container following the last one; nothing happens when
there is no active container. -/
def activateNextContainer (vs : ViewSplitter) : ViewSplitter :=
  if vs.active < vs.containers.length then
    { vs with active := if vs.active + 1 = vs.containers.length then 0 else vs.active + 1 }
  else vs

end ViewSplitter

namespace SessionManager

/-- Adding an entry to the environment of a session, `session->addEnvironmentEntry(entry)`. -/
def addEnvironmentEntry (sm : SessionManager) (s : Session) (entry : String) : SessionManager :=
  { sm with environment := sm.environment ++ [(s, entry)] }

/-- Setting the directory a session starts in, `session->setInitialWorkingDirectory(dir)`. -/
def setInitialWorkingDirectory (sm : SessionManager) (s : Session) (dir : String) :
    SessionManager :=
  { sm with initialWorkingDirectory := sm.initialWorkingDirectory ++ [(s, dir)] }

end SessionManager

namespace ViewManager

/-- The number of containers of the splitter, `_viewSplitter->containers().count()`; a
destroyed splitter has none. -/
def containerCount (vm : ViewManager) : Nat :=
  match vm.viewSplitter with
  | some vs => vs.containers.length
  | none => 0

/-- The function `ViewManager::sessionCount()`. -/
def sessionCount (vm : ViewManager) : Nat := vm.sessionMap.length

/-- The function `ViewManager::activeViewController()`. -/
def activeViewController (vm : ViewManager) : Option SessionController := vm.pluggedController

/-- The controllers carried by the `unplugController` signals, in emission order. -/
def unplugSignals (log : List Effect) : List SessionController :=
  log.filterMap (fun e => match e with | Effect.unplugController c => some c | _ => none)

/-- The controllers carried by the `activeViewChanged` signals, in emission order. -/
def activeViewChangedSignals (log : List Effect) : List SessionController :=
  log.filterMap (fun e => match e with | Effect.activeViewChanged c => some c | _ => none)

/-- The function `ViewManager::colorSchemeForProfile(profile)`; the assertion on the result
is compiled out in a release build. -/
def colorSchemeForProfile (csm : ColorSchemeManager) (profile : ProfileInfo) :
    Option ColorScheme :=
  match csm.findColorScheme profile.colorScheme with
  | some colorScheme => some colorScheme
  | none => csm.defaultColorScheme

/-- The function `ViewManager::profileHasBlurEnabled(profile)`: the scheme pointer is
dereferenced. -/
def profileHasBlurEnabled (csm : ColorSchemeManager) (profile : ProfileInfo) : Option Bool :=
  (colorSchemeForProfile csm profile).map (fun colorScheme => colorScheme.blur)

/-- The function `ViewManager::applyProfileToView(view, profile)`, as far as signals go: the
scheme pointer is dereferenced to load the colour table; the setters called on the view only
touch its rendering state. -/
def applyProfileToView (vm : ViewManager) (csm : ColorSchemeManager) (_view : TerminalDisplay)
    (profile : ProfileInfo) : Option ViewManager :=
  let vm1 := { vm with log := vm.log ++ [Effect.updateWindowIcon] }
  match colorSchemeForProfile csm profile with
  | none => none
  | some colorScheme =>
    some { vm1 with log := vm1.log ++ [Effect.blurSettingChanged colorScheme.blur] }

/-- The loop of `newSession(profile)` over the profile list (pointer and name of each
profile): the first profile with the given name replaces the default one. -/
def profileNamed : List (Profile × String) → String → Profile → Profile
  | [], _, profileptr => profileptr
  | i :: profilelist, profile, profileptr =>
    if i.2 = profile then i.1 else profileNamed profilelist profile profileptr

/-- The entry `KONSOLE_DBUS_WINDOW=/Windows/<managerId>` that is given to new sessions. -/
def dbusWindowEntry (vm : ViewManager) : String :=
  "KONSOLE_DBUS_WINDOW=/Windows/" ++ toString vm.managerId

/-- The common end of the `newSession` overloads: the environment entry, the view, the
(unconditional) `run()`, and the session id as the result. -/
def startNewSession (vm : ViewManager) (sessionId : Session → Int) (session : Session) :
    Option (Int × ViewManager) := do
  let vm1 := { vm with
    sessionManager := vm.sessionManager.addEnvironmentEntry session (dbusWindowEntry vm) }
  let vm2 ← createView vm1 session
  let vm3 := { vm2 with sessionManager := vm2.sessionManager.run session
                        log := vm2.log ++ [Effect.run session] }
  some (sessionId session, vm3)

/-- The overload `ViewManager::newSession()`; `sessionId` gives the id of each session. -/
def newSession (vm : ViewManager) (sessionId : Session → Int) : Option (Int × ViewManager) :=
  let profile := vm.sessionManager.defaultProfile
  let sp := vm.sessionManager.createSession profile
  startNewSession { vm with sessionManager := sp.2 } sessionId sp.1

/-- The overload `ViewManager::newSession(profile)`; `allProfiles` is the profile list of the
profile manager. -/
def newSessionWithProfile (vm : ViewManager) (allProfiles : List (Profile × String))
    (sessionId : Session → Int) (profile : String) : Option (Int × ViewManager) :=
  let profileptr := profileNamed allProfiles profile vm.sessionManager.defaultProfile
  let sp := vm.sessionManager.createSession profileptr
  startNewSession { vm with sessionManager := sp.2 } sessionId sp.1

/-- The overload `ViewManager::newSession(profile, directory)`. -/
def newSessionInDirectory (vm : ViewManager) (allProfiles : List (Profile × String))
    (sessionId : Session → Int) (profile : String) (directory : String) :
    Option (Int × ViewManager) :=
  let profileptr := profileNamed allProfiles profile vm.sessionManager.defaultProfile
  let sp := vm.sessionManager.createSession profileptr
  startNewSession
    { vm with sessionManager := sp.2.setInitialWorkingDirectory sp.1 directory } sessionId sp.1

/-- The loop of `currentSession()` over the session map: the id of the session of the first
visible display; the session pointer is dereferenced without a check. -/
def currentSessionLoop (isVisible : TerminalDisplay → Bool) (sessionId : Session → Int) :
    SessionMap → Option Int
  | [] => some (-1)
  | i :: rest =>
    if isVisible i.1 then i.2.map sessionId
    else currentSessionLoop isVisible sessionId rest

/-- The function `ViewManager::currentSession()`; `isVisible` tells which displays are
visible. -/
def currentSession (vm : ViewManager) (isVisible : TerminalDisplay → Bool)
    (sessionId : Session → Int) : Option Int :=
  currentSessionLoop isVisible sessionId vm.sessionMap

/-- The function `ViewManager::createAndSetupTerminalDisplay(session)`: null for a null
session; otherwise a new display with a controller, registered in the session map and
attached to the session.  The display is not yet placed in a pane tree. -/
def createAndSetupTerminalDisplay (vm : ViewManager) (session : Option Session) :
    Option (Option TerminalDisplay × ViewManager) :=
  match session with
  | none => some (none, vm)
  | some s => do
    let td := vm.nextDisplay
    let vm1 := { vm with nextDisplay := vm.nextDisplay + 1 }
    let r ← createController vm1 s td
    some (some td,
      { r.2 with sessionMap := QHash.insert r.2.sessionMap td (some s)
                 sessionManager := r.2.sessionManager.addView s td })

/-- Modelled from the spec: the structural clone of a pane tree that `cloneMtd` makes (the
manager of the pane trees is not part of the sources): the same splits, and for each leaf a
new display of the same session, set up by `createAndSetupTerminalDisplay` and placed under
the splitter.  A leaf without session gives a null display, which is not followed. -/
def cloneTree (vm : ViewManager) : MultiTerminalDisplay → Option (MultiTerminalDisplay × ViewManager)
  | .leaf td => do
    let r ← createAndSetupTerminalDisplay vm ((QHash.find vm.sessionMap td).getD none)
    let d ← r.1
    some (MultiTerminalDisplay.leaf d,
      { r.2 with viewSplitter := r.2.viewSplitter.map (fun vs =>
          { vs with terminalDisplays := vs.terminalDisplays ++ [d] }) })
  | .split o first second => do
    let r1 ← cloneTree vm first
    let r2 ← cloneTree r1.2 second
    some (MultiTerminalDisplay.split o r1.1 r2.1, r2.2)

/-- Modelled from the spec: `MultiTerminalDisplayManager::cloneMtd(mtd, container)`: the
clone of the pane tree becomes the last tab of `container`; the tree `mtd` and its container
are left as they are. -/
def cloneMtd (vm : ViewManager) (mtd : MultiTerminalDisplay) (container : TabbedViewContainer) :
    Option (TabbedViewContainer × ViewManager) := do
  let r ← cloneTree vm mtd
  some (container.addView (QWidget.multiTerminalDisplay r.1) (-1), r.2)

/-- The loop of `splitView` over the tabs of the active container, filling the new container;
the result is null when the function returned from inside the loop. -/
def splitViewLoop :
    List QWidget → TabbedViewContainer → ViewManager →
      Option (Option TabbedViewContainer × ViewManager)
  | [], container, vm => some (some container, vm)
  | w :: ws, container, vm =>
    match castMultiTerminalDisplay (some w) with
    | none => some (none, { vm with log := vm.log ++ [Effect.qCriticalCannotCast] })
    | some mtd => do
      let r ← cloneMtd vm mtd container
      splitViewLoop ws r.1 r.2

/-- The function `ViewManager::splitView(orientation)`.  Focusing the current widget of the
new container dereferences that widget and makes the new container the active one; the
final focusing of the active view is guarded against null and changes nothing more. -/
def splitView (vm : ViewManager) (orientation : Orientation) : Option ViewManager := do
  let container := createContainer
  let vs ← vm.viewSplitter
  let activeContainer ← vs.activeContainer
  let r ← splitViewLoop activeContainer.tabs container vm
  match r.1 with
  | none => some r.2
  | some container1 => do
    let vs1 ← r.2.viewSplitter
    let vs2 := vs1.addContainer container1 orientation
    let log1 := r.2.log ++ [Effect.splitViewToggle (decide (0 < vs2.containers.length))]
    let _ ← container1.currentWidget
    some { r.2 with
      viewSplitter := some { vs2 with active := vs2.containers.length - 1 }
      log := log1 }

/-- The slot `ViewManager::nextContainer()`. -/
def nextContainer (vm : ViewManager) : Option ViewManager := do
  let vs ← vm.viewSplitter
  some { vm with viewSplitter := some vs.activateNextContainer }

/-- The slot `ViewManager::closeActiveContainer()`, with the function that is called as
`removeContainer` as a parameter, so that its calls can be observed. -/
def closeActiveContainerWith (rc : ViewManager → Nat → ViewManager) (vm : ViewManager) :
    Option ViewManager := do
  let vs ← vm.viewSplitter
  if 1 < vs.containers.length then nextContainer (rc vm vs.active)
  else some vm

/-- The slot `ViewManager::closeActiveContainer()`. -/
def closeActiveContainer (vm : ViewManager) : Option ViewManager :=
  closeActiveContainerWith removeContainer vm

/-- The slot `ViewManager::closeOtherContainers()`, with the function that is called as
`removeContainer` as a parameter.  A container differs from the active one when its position
is not the active one or when there is no active container. -/
def closeOtherContainersWith (rc : ViewManager → Nat → ViewManager) (vm : ViewManager) :
    Option ViewManager := do
  let vs ← vm.viewSplitter
  let active := vs.activeContainer
  some ((List.range vs.containers.length).foldl
    (fun v container => if active.isNone ∨ container ≠ vs.active then rc v container else v) vm)

/-- The slot `ViewManager::closeOtherContainers()`. -/
def closeOtherContainers (vm : ViewManager) : Option ViewManager :=
  closeOtherContainersWith removeContainer vm

/-- The slot `ViewManager::detachView(container, view)` as in `detachView`, with the function
that is called as `removeContainer` as a parameter. -/
def detachViewWith (rc : ViewManager → Nat → ViewManager) (enableDetaching : Bool)
    (vm : ViewManager) (container : Nat) (view : Option QWidget) : Option ViewManager :=
  if !enableDetaching then some vm
  else
    match castMultiTerminalDisplay view with
    | none => some vm
    | some viewToDetach =>
      let r := detachViewLoop (getTerminalDisplaysOfContainer viewToDetach) vm
      if !r.2 then some r.1
      else do
        let vs ← r.1.viewSplitter
        let c ← vs.containers.get? container
        let c1 := c.removeView (QWidget.multiTerminalDisplay viewToDetach)
        let vs1 := { vs with containers := vs.containers.set container c1 }
        let vm2 := { r.1 with
          viewSplitter := some vs1
          log := r.1.log ++ [Effect.deleteLaterWidget (QWidget.multiTerminalDisplay viewToDetach)] }
        if 1 < vs1.containers.length ∧ c1.count = 0 then some (rc vm2 container)
        else some vm2

/-- The function `removeContainer` with a record of the call in the log: the target and the
number of containers of the splitter at the moment of the call. -/
def removeContainerLogged (vm : ViewManager) (container : Nat) : ViewManager :=
  let vm1 := removeContainer vm container
  { vm1 with log := vm1.log ++ [Effect.removeContainer container (containerCount vm)] }

/-- The recorded calls of `removeContainer`: target and container count at the call. -/
def removeContainerCalls (log : List Effect) : List (Nat × Nat) :=
  log.filterMap (fun e => match e with | Effect.removeContainer c n => some (c, n) | _ => none)

/-- A splitter of three containers with one tab each, the second being the active one. -/
def threeContainersSplitter : ViewSplitter :=
  { containers := [{ tabs := [rootTab 50 0], currentIndex := 0 },
                   { tabs := [rootTab 50 1], currentIndex := 0 },
                   { tabs := [rootTab 50 2], currentIndex := 0 }]
    active := 1
    terminalDisplays := [50, 51, 52] }

/-- A manager over `threeContainersSplitter`, all displays showing session 100. -/
def threeContainers : ViewManager :=
  { viewSplitter := some threeContainersSplitter
    sessionMap := [(50, some 100), (51, some 100), (52, some 100)]
    nextDisplay := 53 }

/-- The sessions shown by a pane tree: the splits of the tree, with the session in place of
each display. -/
inductive SessionTree
  | leaf (session : Option Session)
  | split (o : Orientation) (first second : SessionTree)
deriving DecidableEq, Repr

/-- The sessions that the panes of a tree show according to the session map `m` (null for a
display without entry). -/
def sessionsOfTree (m : SessionMap) : MultiTerminalDisplay → SessionTree
  | .leaf td => SessionTree.leaf ((QHash.find m td).getD none)
  | .split o first second =>
    SessionTree.split o (sessionsOfTree m first) (sessionsOfTree m second)

/-- The pane trees of the two tabs of `panesAndTab`. -/
def panesAndTabTrees : List MultiTerminalDisplay :=
  [MultiTerminalDisplay.split Orientation.Horizontal (MultiTerminalDisplay.leaf 50)
     (MultiTerminalDisplay.leaf 51),
   MultiTerminalDisplay.leaf 52]

/-- The only container of `panesAndTab`. -/
def panesAndTabContainer : TabbedViewContainer :=
  { tabs := panesAndTabTrees.map QWidget.multiTerminalDisplay, currentIndex := 1 }

/-- The splitter of `panesAndTab`. -/
def panesAndTabSplitter : ViewSplitter :=
  { containers := [panesAndTabContainer], active := 0, terminalDisplays := [50, 51, 52] }

/-- A manager with one container of two tabs: two panes side by side showing the sessions
100 and 200, and a single pane showing session 100. -/
def panesAndTab : ViewManager :=
  { viewSplitter := some panesAndTabSplitter
    pluggedController := some { session := some 100, view := 50 }
    sessionMap := [(50, some 100), (51, some 200), (52, some 100)]
    nextDisplay := 53 }

/-- The allocator invariant: every key of the session map lies below the address that the
next new display gets, so that new displays are not yet keys. -/
def AddressesFresh (vm : ViewManager) : Prop :=
  ∀ k ∈ QHash.keys vm.sessionMap, k < vm.nextDisplay

/-- A manager split into two containers, each showing session 100 in one tab. -/
def splitManager : ViewManager :=
  { viewSplitter := some
      { containers := [{ tabs := [rootTab 50 0], currentIndex := 0 },
                       { tabs := [rootTab 50 1], currentIndex := 0 }]
        active := 1
        terminalDisplays := [50, 51] }
    pluggedController := some { session := some 100, view := 50 }
    sessionMap := [(50, some 100), (51, some 100)]
    nextDisplay := 52
    sessionManager := { twoStoredSessions with running := [100], views := [(100, 50), (100, 51)] } }

/-- A manager whose only container has no tab. -/
def emptyContainer : ViewManager :=
  { viewSplitter := some { containers := [{}] } }

/-- An operation on the views of a manager. -/
inductive Operation
  | createView (session : Session)
  | splitView (orientation : Orientation)
  | closeActiveContainer
  | closeOtherContainers
  | detachView (container : Nat) (view : Option QWidget)
  | sessionFinished (sender : Option Session)
  | viewDestroyed (display : TerminalDisplay)
deriving DecidableEq, Repr

/-- The state after one operation; `none` when the operation dereferences a null pointer. -/
def perform (enableDetaching : Bool) (vm : ViewManager) : Operation → Option ViewManager
  | .createView session => createView vm session
  | .splitView orientation => splitView vm orientation
  | .closeActiveContainer => closeActiveContainer vm
  | .closeOtherContainers => closeOtherContainers vm
  | .detachView container view => detachView enableDetaching vm container view
  | .sessionFinished sender => some (sessionFinished vm sender)
  | .viewDestroyed display => some (viewDestroyed vm display)

/-- The state after a sequence of operations. -/
def performAll (enableDetaching : Bool) (vm : ViewManager) (ops : List Operation) :
    Option ViewManager :=
  ops.foldlM (perform enableDetaching) vm

end ViewManager

end Konsole

namespace Konsole

namespace TabbedViewContainer

/-- Modelled from the spec: `activateNextView()`: the tab after the current one becomes the
current one, the first tab following the last one. -/
def activateNextView (c : TabbedViewContainer) : TabbedViewContainer :=
  if c.tabs.length = 0 then c
  else { c with
    currentIndex := if c.currentIndex + 1 < c.tabs.length then c.currentIndex + 1 else 0 }

/-- Modelled from the spec: `activatePreviousView()`: the tab before the current one becomes
the current one, the last tab preceding the first one. -/
def activatePreviousView (c : TabbedViewContainer) : TabbedViewContainer :=
  if c.tabs.length = 0 then c
  else { c with
    currentIndex := if 0 < c.currentIndex then c.currentIndex - 1 else (c.tabs.length : Int) - 1 }

/-- Modelled from the spec: `activateLastView()`: the last tab becomes the current one. -/
def activateLastView (c : TabbedViewContainer) : TabbedViewContainer :=
  if c.tabs.length = 0 then c else { c with currentIndex := (c.tabs.length : Int) - 1 }

/-- Modelled from the spec: `setCurrentIndex(index)` as for a `QTabWidget`: the tab at
`index` becomes the current one; an index that is out of range is ignored. -/
def setCurrentIndex (c : TabbedViewContainer) (index : Int) : TabbedViewContainer :=
  if 0 ≤ index ∧ index < c.tabs.length then { c with currentIndex := index } else c

/-- The enumeration `TabbedViewContainer::MoveDirection`. -/
inductive MoveDirection
  | MoveViewLeft
  | MoveViewRight
deriving DecidableEq, Repr

/-- Modelled from the spec: `moveActiveView(direction)`: the current tab moves one place to
that side and stays the current one, with wraparound at the ends; with fewer than two tabs
nothing moves. -/
def moveActiveView (c : TabbedViewContainer) (direction : MoveDirection) : TabbedViewContainer :=
  if c.tabs.length < 2 ∨ c.currentIndex < 0 ∨ (c.tabs.length : Int) ≤ c.currentIndex then c
  else
    let i := c.currentIndex.toNat
    let j :=
      match direction with
      | MoveDirection.MoveViewLeft => if i = 0 then c.tabs.length - 1 else i - 1
      | MoveDirection.MoveViewRight => if i + 1 = c.tabs.length then 0 else i + 1
    match c.tabs.get? i with
    | some w =>
      { tabs := (c.tabs.eraseIdx i).take j ++ w :: (c.tabs.eraseIdx i).drop j
        currentIndex := (j : Int) }
    | none => c

end TabbedViewContainer

namespace MultiTerminalDisplay

/-- Modelled from the spec: `addTerminalDisplay(display, session, mtd, orientation)` of the
manager of the pane trees: the focused leaf (the pane of display `focused`) is split into
two children, the old display and the new one, with the given orientation. -/
def addTerminalDisplay (focused display : TerminalDisplay) (orientation : Orientation) :
    MultiTerminalDisplay → MultiTerminalDisplay
  | .leaf td =>
    if td = focused then .split orientation (.leaf td) (.leaf display) else .leaf td
  | .split o first second =>
    .split o (addTerminalDisplay focused display orientation first)
      (addTerminalDisplay focused display orientation second)

end MultiTerminalDisplay

namespace ViewManager

/-- The managers that a process constructs one after the other, `lastManagerId` being the
value of the static counter before the first construction; each construction is given the
address of its next display, its session registry and its action collection.  The second
component is the value of the counter afterwards. -/
def constructAll (lastManagerId : Int) :
    List (TerminalDisplay × SessionManager × Option KActionCollection) →
      List ViewManager × Int
  | [] => ([], lastManagerId)
  | a :: rest =>
    let r := construct lastManagerId a.1 a.2.1 a.2.2
    let rs := constructAll r.2 rest
    (r.1 :: rs.1, rs.2)

/-- The paths of the `registerObject` calls, in call order. -/
def registeredObjects (log : List Effect) : List String :=
  log.filterMap (fun e => match e with | Effect.registerObject path => some path | _ => none)

/-- The common shape of the slots that call one method on the active container: the
container pointer is dereferenced without a check (`Q_ASSERT` is compiled out in a release
build). -/
def onActiveContainer (vm : ViewManager) (f : TabbedViewContainer → TabbedViewContainer) :
    Option ViewManager := do
  let vs ← vm.viewSplitter
  let container ← vs.activeContainer
  some { vm with viewSplitter := some { vs with containers := vs.containers.set vs.active (f container) } }

/-- The slot `ViewManager::switchToView(index)`. -/
def switchToView (vm : ViewManager) (index : Int) : Option ViewManager :=
  onActiveContainer vm (fun container => container.setCurrentIndex index)

/-- The slot `ViewManager::moveActiveViewLeft()`. -/
def moveActiveViewLeft (vm : ViewManager) : Option ViewManager :=
  onActiveContainer vm (fun container =>
    container.moveActiveView TabbedViewContainer.MoveDirection.MoveViewLeft)

/-- The slot `ViewManager::moveActiveViewRight()`. -/
def moveActiveViewRight (vm : ViewManager) : Option ViewManager :=
  onActiveContainer vm (fun container =>
    container.moveActiveView TabbedViewContainer.MoveDirection.MoveViewRight)

/-- The slot `ViewManager::nextView()`. -/
def nextView (vm : ViewManager) : Option ViewManager :=
  onActiveContainer vm (fun container => container.activateNextView)

/-- The slot `ViewManager::previousView()`. -/
def previousView (vm : ViewManager) : Option ViewManager :=
  onActiveContainer vm (fun container => container.activatePreviousView)

/-- The slot `ViewManager::lastView()`. -/
def lastView (vm : ViewManager) : Option ViewManager :=
  onActiveContainer vm (fun container => container.activateLastView)

/-- The slot `ViewManager::detachActiveView()`: the current widget of the active container
is read through the unchecked container pointer and handed to `detachView`. -/
def detachActiveView (enableDetaching : Bool) (vm : ViewManager) : Option ViewManager := do
  let vs ← vm.viewSplitter
  let container ← vs.activeContainer
  detachView enableDetaching vm vs.active container.currentWidget

/-- A manager whose splitter has been destroyed while entries and a plugged controller are
still there. -/
def splitterDestroyed : ViewManager :=
  { twoTabs with viewSplitter := none }

/-- The function `ViewManager::createMultiTerminalView(orientation)`.  `currentDir` gives the
current directory of a controller and `startInCurrentSessionDir` the setting of a profile.
The plugged controller and the active container are dereferenced without a check.  The new
display gets the next free address; as in `createViewIn`, applying the profile only touches
the rendering state of the display and `updateDetachViewState()` only an action.  Modelled
from the spec: the focused pane is the pane of the view of the plugged controller, and
`addTerminalDisplay` splits it inside the current tab of the active container when that tab
is a pane tree. -/
def createMultiTerminalView (vm : ViewManager) (currentDir : SessionController → String)
    (startInCurrentSessionDir : Profile → Bool) (orientation : Orientation) :
    Option ViewManager := do
  let controller ← activeViewController vm
  let currentWorkingDir := currentDir controller
  let defaultProfile := vm.sessionManager.defaultProfile
  let sp := vm.sessionManager.createSession defaultProfile
  let session := sp.1
  let sm1 :=
    if !currentWorkingDir.isEmpty && startInCurrentSessionDir defaultProfile then
      sp.2.setInitialWorkingDirectory session currentWorkingDir
    else sp.2
  let sm2 := sm1.addEnvironmentEntry session (dbusWindowEntry vm)
  let display := vm.nextDisplay
  let vm1 := { vm with
    sessionManager := sm2.addView session display
    nextDisplay := vm.nextDisplay + 1
    sessionMap := QHash.insert vm.sessionMap display (some session) }
  let r ← createController vm1 session display
  let vs ← r.2.viewSplitter
  let container ← vs.activeContainer
  match castMultiTerminalDisplay container.currentWidget with
  | none => some r.2
  | some containerMtd =>
    let mtd := containerMtd.addTerminalDisplay controller.view display orientation
    let container1 : TabbedViewContainer :=
      { container with
        tabs := container.tabs.map (fun w =>
          if w = QWidget.multiTerminalDisplay containerMtd then QWidget.multiTerminalDisplay mtd
          else w) }
    some { r.2 with
      viewSplitter := some { vs with
        containers := vs.containers.set vs.active container1
        terminalDisplays := vs.terminalDisplays ++ [display] } }

/-- The names of the actions that `setNavigationMethod` enables or disables, in call
order. -/
def navigationActions : List String :=
  ["next-view", "previous-view", "last-tab", "split-view-left-right", "split-view-top-bottom",
   "rename-session", "move-view-left", "move-view-right", "multi-terminal"]

/-- The function `ViewManager::setNavigationMethod(method)`; `action` tells for which names
the collection holds an action.  `Q_ASSERT` is compiled out in a release build, where a null
collection makes the function return before the member is assigned. -/
def setNavigationMethod (vm : ViewManager) (action : String → Bool) (method : NavigationMethod) :
    ViewManager :=
  match vm.actionCollection with
  | none => vm
  | some _ =>
    let enable := decide (method ≠ NavigationMethod.NoNavigation)
    { vm with
      navigationMethod := method
      log := vm.log ++
        (navigationActions.filter action).map (fun actionName =>
          Effect.setEnabled actionName enable) }

/-- The function `ViewManager::viewProperties()`: after the null check on the active
container the list is only reserved; the loop that fills it is compiled out (`#if 0`). -/
def viewProperties (vm : ViewManager) : Option (List ViewProperties) := do
  let list : List ViewProperties := []
  let vs ← vm.viewSplitter
  match vs.activeContainer with
  | none => some []
  | some _ => some list

/-- The slot `ViewManager::containerViewsChanged(container)`; the container is given by its
position in the splitter, and equals the active container when there is one at that
position. -/
def containerViewsChanged (vm : ViewManager) (container : Nat) : Option ViewManager :=
  match vm.viewSplitter with
  | none => some vm
  | some vs =>
    if vs.activeContainer.isSome ∧ container = vs.active then do
      let list ← viewProperties vm
      some { vm with log := vm.log ++ [Effect.viewPropertiesChanged list] }
    else some vm

/-- The lists carried by the `viewPropertiesChanged` signals, in emission order. -/
def viewPropertiesChangedSignals (log : List Effect) : List (List ViewProperties) :=
  log.filterMap (fun e => match e with | Effect.viewPropertiesChanged l => some l | _ => none)

/-- The cast `static_cast<NewTabBehavior>(behavior)`: the enumerators have the values 0 and
1 in declaration order.  Any other integer gives a value that differs from both; it stands
as `PutNewTabAtTheEnd`, from which the only test on the member (`== PutNewTabAfterCurrentTab`)
does not tell it apart. -/
def castNewTabBehavior (behavior : Int) : NewTabBehavior :=
  if behavior = 1 then NewTabBehavior.PutNewTabAfterCurrentTab
  else NewTabBehavior.PutNewTabAtTheEnd

/-- The splitter of `firstTabCurrent`. -/
def firstTabCurrentSplitter : ViewSplitter :=
  { containers := [{ tabs := [rootTab 50 0, rootTab 50 1], currentIndex := 0 }]
    active := 0
    terminalDisplays := [50, 51]
    orientation := Orientation.Vertical }

/-- The manager `twoTabs` with the first tab as the current one. -/
def firstTabCurrent : ViewManager :=
  { twoTabs with viewSplitter := some firstTabCurrentSplitter }

/-- The function `ViewManager::setNavigationBehavior(behavior)`. -/
def setNavigationBehavior (vm : ViewManager) (behavior : Int) : ViewManager :=
  { vm with newTabBehavior := castNewTabBehavior behavior }

end ViewManager

/-- A `QString`, as the sequence of its characters. -/
abbrev QString := List Char

namespace QString

/-- Modelled from the documentation of Qt 3: `find(c)`, the position of the first occurrence
of the character, `-1` when there is none. -/
def find (str : QString) (c : Char) : Int :=
  if c ∈ str then (str.indexOf c : Int) else -1

/-- Modelled from the documentation of Qt 3: `remove(index, len)`. -/
def remove (str : QString) (index len : Nat) : QString :=
  str.take index ++ str.drop (index + len)

/-- Modelled from the documentation of Qt 3: `startsWith(s)`. -/
def startsWith (str s : QString) : Bool := decide (str.take s.length = s)

/-- Modelled from the documentation of Qt 3: `replace(index, len, after)`. -/
def replace (str : QString) (index len : Nat) (after : QString) : QString :=
  str.take index ++ after ++ str.drop (index + len)

end QString

namespace KWrited

/-- The carriage-return character. -/
def carriageReturn : Char := Char.ofNat 13

/-- Modelled from the documentation of Qt 3: the constructor `QCString(str, maxsize)`, as the
byte array it allocates: a copy of the bytes of `str` that come before the first zero byte
among its first `maxsize - 1` bytes, followed by the terminating zero byte. -/
def qCString (str : List Nat) (maxsize : Nat) : List Nat :=
  (str.take (maxsize - 1)).takeWhile (fun b => b != 0) ++ [0]

/-- Modelled from the documentation of Qt 3: the assignment `text[index] = c` on the byte
array of a `QCString`.  An index inside the array is written.  For an index outside the
array a library built with range checks warns and writes index 0 instead; a library built
without them (a release build) writes outside the array, which is `none` here. -/
def setAt (rangeChecked : Bool) (text : List Nat) (index : Nat) (c : Nat) :
    Option (List Nat) :=
  if index < text.length then some (text.set index c)
  else if rangeChecked then some (text.set 0 c)
  else none

/-- The zero-terminated string that a `const char *` reader sees in a byte array: the bytes
before the first zero byte. -/
def cString (text : List Nat) : List Nat := text.takeWhile (fun b => b != 0)

/-- The loop `while ((i = str.find(CR)) != -1) str.remove(i, 1);`, run for at most `fuel`
evaluations of its condition; `none` when they do not suffice. -/
def removeCarriageReturns : Nat → QString → Option QString
  | 0, _ => none
  | fuel + 1, str =>
    let i := QString.find str carriageReturn
    if i ≠ -1 then removeCarriageReturns fuel (QString.remove str i.toNat 1) else some str

/-- The message window, as far as `block_in` goes: the texts inserted so far and whether the
window is shown. -/
structure Window where
  inserted : List QString := []
  shown : Bool := false
deriving DecidableEq, Repr

/-- The slot `KWrited::block_in(fd)`.  `chunk` is what `read` delivered: `none` for a
negative result, otherwise the `len` bytes read into `buf`; `rangeChecked` tells how the Qt
library was built, see `setAt`; `fromLocal8Bit` is the decoder of the locale, which reads
`text` as a zero-terminated string. -/
def block_in (fromLocal8Bit : List Nat → QString) (rangeChecked : Bool) (fuel : Nat)
    (chunk : Option (List Nat)) (wid : Window) : Option Window :=
  match chunk with
  | none => some wid
  | some buf => do
    let len := buf.length
    let text ← setAt rangeChecked (qCString buf (len + 1)) len 0
    let str := fromLocal8Bit (cString text)
    (removeCarriageReturns fuel str).map (fun str1 =>
      { inserted := wid.inserted ++ [str1], shown := true })

/-- The decoder of a Latin-1 locale: one character per byte. -/
def latin1 (text : List Nat) : QString := text.map Char.ofNat

end KWrited

namespace KonsoleBookmarkHandler

/-- What `currentTitle` reads of a `KURL`. -/
structure KURL where
  isLocalFile : Bool
  path : QString
  prettyURL : QString
deriving DecidableEq, Repr

/-- The function `KonsoleBookmarkHandler::currentTitle()`; `baseURL` is
`m_konsole->baseURL()` and `homeDirPath` is `QDir::homeDirPath()`. -/
def currentTitle (baseURL : KURL) (homeDirPath : QString) : QString :=
  if baseURL.isLocalFile then
    let path := baseURL.path
    let home := homeDirPath
    if QString.startsWith path home then QString.replace path 0 home.length "~".toList
    else path
  else baseURL.prettyURL

end KonsoleBookmarkHandler

end Konsole

namespace Konsole
namespace ViewManager

/-- The state `vm1` differs from the state `vm` by the views that `createView(s)` makes: a
first container when there was none, and per container one new display mapped to `s`,
attached to `s`, and shown in one new tab, all tabs inserted at the same index. -/
def ViewCreated (vm : ViewManager) (s : Session) (vm1 : ViewManager) : Prop :=
  ∃ (vs vs1 : ViewSplitter) (index : Int),
    vm.viewSplitter = some vs ∧ vm1.viewSplitter = some vs1 ∧
    vs1.containers.length = max 1 vs.containers.length ∧
    vm1.nextDisplay = vm.nextDisplay + max 1 vs.containers.length ∧
    vm1.sessionMap =
      vm.sessionMap ++
        (List.range (max 1 vs.containers.length)).map (fun j => (vm.nextDisplay + j, some s)) ∧
    vm1.sessionManager.views =
      vm.sessionManager.views ++
        (List.range (max 1 vs.containers.length)).map (fun j => (s, vm.nextDisplay + j)) ∧
    (∀ j c, vs.containers.get? j = some c →
      ∃ c1, vs1.containers.get? j = some c1 ∧
        c1.tabs = (c.addView (rootTab vm.nextDisplay j) index).tabs ∧
        c1.tabs.length = c.tabs.length + 1) ∧
    (vs.containers = [] →
      ∃ c1, vs1.containers = [c1] ∧ c1.tabs = [rootTab vm.nextDisplay 0])

end ViewManager
end Konsole

/-! Theorems. -/

namespace Konsole

namespace QHash

theorem find_nil (k : TerminalDisplay) : find [] k = none := rfl

theorem find_cons (e : TerminalDisplay × Option Session) (m : SessionMap) (k : TerminalDisplay) :
    find (e :: m) k = if e.1 = k then some e.2 else find m k := by
  unfold find
  by_cases h : e.1 = k
  · simp [List.find?_cons, h]
  · simp [List.find?_cons, h]

theorem find_append_single (m : SessionMap) (k k' : TerminalDisplay) (v : Option Session) :
    find (m ++ [(k, v)]) k' =
      match find m k' with
      | some x => some x
      | none => if k = k' then some v else none := by
  induction m with
  | nil => simp [find_cons, find_nil]
  | cons e m ih =>
    rw [List.cons_append, find_cons, find_cons, ih]
    by_cases h : e.1 = k' <;> simp [h]

theorem find_remove (m : SessionMap) (k k' : TerminalDisplay) :
    find (remove m k) k' = if k' = k then none else find m k' := by
  induction m with
  | nil => simp [remove, find_nil]
  | cons e m ih =>
    unfold remove at ih ⊢
    by_cases h : e.1 = k
    · have : (e.1 != k) = false := by simp [h]
      rw [List.filter_cons_of_neg (by simp [h]), ih, find_cons]
      by_cases h2 : k' = k
      · simp [h2]
      · have : ¬ e.1 = k' := by rw [h]; exact fun h3 => h2 h3.symm
        simp [h2, this]
    · rw [List.filter_cons_of_pos (by simp [h]), find_cons, find_cons, ih]
      by_cases h2 : k' = k
      · have : ¬ e.1 = k' := by rw [h2]; exact h
        simp [h2, h]
      · simp [h2]

theorem find_index (m : SessionMap) (k k' : TerminalDisplay) :
    find (index m k).1 k' =
      if k' = k then some (index m k).2 else find m k' := by
  unfold index
  cases h : find m k with
  | some v =>
    by_cases h2 : k' = k
    · simp [h2, h]
    · simp [h2]
  | none =>
    simp only [find_append_single]
    by_cases h2 : k' = k
    · subst h2; simp [h]
    · have h3 : ¬ k = k' := fun h3 => h2 h3.symm
      cases h4 : find m k' <;> simp [h2, h3]

theorem index_snd (m : SessionMap) (k : TerminalDisplay) :
    (index m k).2 = (find m k).getD none := by
  unfold index
  cases h : find m k <;> simp

end QHash
end Konsole

namespace Konsole
namespace ViewManager
open QHash

theorem sessionFinishedStep_find (s : Option Session) (vm : ViewManager) (d k : TerminalDisplay) :
    find (sessionFinishedStep s vm d).sessionMap k =
      if k = d then
        (if (find vm.sessionMap d).getD none = s then none
         else some ((find vm.sessionMap d).getD none))
      else find vm.sessionMap k := by
  unfold sessionFinishedStep
  simp only [index_snd]
  by_cases hs : (find vm.sessionMap d).getD none = s
  · simp only [hs, if_true, find_remove, find_index]
    by_cases hk : k = d <;> simp [hk]
  · simp only [hs, if_false, find_index, index_snd]

theorem sessionFinishedStep_log (s : Option Session) (vm : ViewManager) (d : TerminalDisplay) :
    (sessionFinishedStep s vm d).log =
      vm.log ++ (if (find vm.sessionMap d).getD none = s then [Effect.deleteLater d] else []) := by
  unfold sessionFinishedStep
  simp only [index_snd]
  by_cases hs : (find vm.sessionMap d).getD none = s <;> simp [hs]

theorem sessionFinishedStep_frame (s : Option Session) (vm : ViewManager) (d : TerminalDisplay) :
    (sessionFinishedStep s vm d).viewSplitter = vm.viewSplitter ∧
    (sessionFinishedStep s vm d).pluggedController = vm.pluggedController ∧
    (sessionFinishedStep s vm d).sessionManager = vm.sessionManager := by
  unfold sessionFinishedStep
  simp only
  split <;> simp

theorem sessionFinishedLoop_frame (s : Option Session) (ds : List TerminalDisplay) (vm : ViewManager) :
    (ds.foldl (sessionFinishedStep s) vm).viewSplitter = vm.viewSplitter ∧
    (ds.foldl (sessionFinishedStep s) vm).pluggedController = vm.pluggedController ∧
    (ds.foldl (sessionFinishedStep s) vm).sessionManager = vm.sessionManager := by
  induction ds generalizing vm with
  | nil => simp
  | cons d ds ih =>
    obtain ⟨h1, h2, h3⟩ := sessionFinishedStep_frame s vm d
    obtain ⟨i1, i2, i3⟩ := ih (sessionFinishedStep s vm d)
    simp only [List.foldl_cons]
    exact ⟨i1.trans h1, i2.trans h2, i3.trans h3⟩

theorem sessionFinishedLoop_find_of_not_mem (s : Option Session) (ds : List TerminalDisplay)
    (vm : ViewManager) (k : TerminalDisplay) (hk : k ∉ ds) :
    find (ds.foldl (sessionFinishedStep s) vm).sessionMap k = find vm.sessionMap k := by
  induction ds generalizing vm with
  | nil => rfl
  | cons d ds ih =>
    simp only [List.mem_cons, not_or] at hk
    simp only [List.foldl_cons]
    rw [ih _ hk.2, sessionFinishedStep_find, if_neg hk.1]

theorem sessionFinishedLoop_find_ne_keep (s : Option Session) (ds : List TerminalDisplay)
    (vm : ViewManager) (k : TerminalDisplay) (h : find vm.sessionMap k ≠ some s) :
    find (ds.foldl (sessionFinishedStep s) vm).sessionMap k ≠ some s := by
  induction ds generalizing vm with
  | nil => exact h
  | cons d ds ih =>
    simp only [List.foldl_cons]
    apply ih
    rw [sessionFinishedStep_find]
    by_cases hk : k = d
    · subst hk
      simp only [if_true]
      split
      · simp
      · rename_i hne
        intro heq
        exact hne (Option.some.inj heq)
    · simpa [hk] using h

theorem sessionFinishedLoop_find_ne (s : Option Session) (ds : List TerminalDisplay)
    (vm : ViewManager) (k : TerminalDisplay) (hk : k ∈ ds) :
    find (ds.foldl (sessionFinishedStep s) vm).sessionMap k ≠ some s := by
  induction ds generalizing vm with
  | nil => simp at hk
  | cons d ds ih =>
    simp only [List.foldl_cons]
    by_cases hd : k = d
    · subst hd
      apply sessionFinishedLoop_find_ne_keep
      rw [sessionFinishedStep_find]
      simp only [if_true]
      split
      · simp
      · rename_i hne
        intro heq
        exact hne (Option.some.inj heq)
    · rcases List.mem_cons.mp hk with h | h
      · exact absurd h hd
      · exact ih _ h

theorem sessionFinishedLoop_log_mono (s : Option Session) (ds : List TerminalDisplay)
    (vm : ViewManager) (e : Effect) (h : e ∈ vm.log) :
    e ∈ (ds.foldl (sessionFinishedStep s) vm).log := by
  induction ds generalizing vm with
  | nil => exact h
  | cons d ds ih =>
    simp only [List.foldl_cons]
    apply ih
    rw [sessionFinishedStep_log]
    exact List.mem_append_left _ h

theorem sessionFinishedLoop_deleteLater (s : Option Session) (ds : List TerminalDisplay)
    (vm : ViewManager) (k : TerminalDisplay) (hk : k ∈ ds) (h : find vm.sessionMap k = some s) :
    Effect.deleteLater k ∈ (ds.foldl (sessionFinishedStep s) vm).log := by
  induction ds generalizing vm with
  | nil => simp at hk
  | cons d ds ih =>
    simp only [List.foldl_cons]
    by_cases hd : k = d
    · subst hd
      apply sessionFinishedLoop_log_mono
      rw [sessionFinishedStep_log]
      simp [h]
    · rcases List.mem_cons.mp hk with h1 | h1
      · exact absurd h1 hd
      · apply ih _ h1
        rw [sessionFinishedStep_find, if_neg hd]
        exact h

theorem sessionFinishedLoop_removed (s : Option Session) (ds : List TerminalDisplay)
    (vm : ViewManager) (k : TerminalDisplay) (hnd : ds.Nodup) (hk : k ∈ ds)
    (h : find vm.sessionMap k = some s) :
    find (ds.foldl (sessionFinishedStep s) vm).sessionMap k = none := by
  induction ds generalizing vm with
  | nil => simp at hk
  | cons d ds ih =>
    simp only [List.foldl_cons]
    rw [List.nodup_cons] at hnd
    by_cases hd : k = d
    · subst hd
      rw [sessionFinishedLoop_find_of_not_mem _ _ _ _ hnd.1, sessionFinishedStep_find]
      simp [h]
    · rcases List.mem_cons.mp hk with h1 | h1
      · exact absurd h1 hd
      · apply ih _ hnd.2 h1
        rw [sessionFinishedStep_find, if_neg hd]
        exact h

theorem sessionFinishedLoop_other_session (s : Option Session) (ds : List TerminalDisplay)
    (vm : ViewManager) (k : TerminalDisplay) (v : Option Session) (hv : v ≠ s)
    (h : find vm.sessionMap k = some v) :
    find (ds.foldl (sessionFinishedStep s) vm).sessionMap k = some v := by
  induction ds generalizing vm with
  | nil => exact h
  | cons d ds ih =>
    simp only [List.foldl_cons]
    apply ih
    rw [sessionFinishedStep_find]
    by_cases hd : k = d
    · subst hd
      simp [h, hv]
    · simp [hd, h]

theorem sessionFinished_sessionMap (vm : ViewManager) (vs : ViewSplitter) (s : Option Session)
    (h : vm.viewSplitter = some vs) :
    (sessionFinished vm s).sessionMap =
      (vs.terminalDisplays.foldl (sessionFinishedStep s) vm).sessionMap := by
  unfold sessionFinished
  rw [h]
  simp only
  split
  · split <;> rfl
  · rfl

theorem sessionFinished_log_mem (vm : ViewManager) (vs : ViewSplitter) (s : Option Session)
    (h : vm.viewSplitter = some vs) (e : Effect)
    (he : e ∈ (vs.terminalDisplays.foldl (sessionFinishedStep s) vm).log) :
    e ∈ (sessionFinished vm s).log := by
  unfold sessionFinished
  rw [h]
  simp only
  split
  · split
    · exact List.mem_append_left _ he
    · exact he
  · exact he

end ViewManager
end Konsole

namespace Konsole
namespace QHash

theorem remove_index (m : SessionMap) (k : TerminalDisplay) :
    remove (index m k).1 k = remove m k := by
  unfold index
  cases h : find m k with
  | some v => rfl
  | none => simp [remove, List.filter_append]

theorem find_eq_none_of_not_mem_keys (m : SessionMap) (k : TerminalDisplay) (h : k ∉ keys m) :
    find m k = none := by
  induction m with
  | nil => rfl
  | cons e m ih =>
    simp only [keys, List.map_cons, List.mem_cons, not_or] at h
    rw [find_cons, if_neg (fun h2 => h.1 h2.symm)]
    exact ih h.2

theorem mem_keys_of_find (m : SessionMap) (k : TerminalDisplay) (v : Option Session)
    (h : find m k = some v) : k ∈ keys m := by
  by_contra hk
  rw [find_eq_none_of_not_mem_keys m k hk] at h
  exact Option.noConfusion h

end QHash

namespace ViewManager
open QHash

theorem viewDestroyed_sessionMap (vm : ViewManager) (d : TerminalDisplay) :
    (viewDestroyed vm d).sessionMap = remove vm.sessionMap d := by
  unfold viewDestroyed
  simp only [remove_index]
  split
  · split <;> rfl
  · rfl

theorem viewDestroyed_log (vm : ViewManager) (d : TerminalDisplay) :
    (viewDestroyed vm d).log =
      vm.log ++
        (match find vm.sessionMap d with
         | some (some s) =>
           if (vm.sessionManager.viewsOf s).length = 0 then [Effect.close s] else []
         | _ => []) := by
  unfold viewDestroyed
  simp only [index_snd]
  cases h : find vm.sessionMap d with
  | none => simp
  | some v =>
    cases v with
    | none => simp
    | some s =>
      simp only [Option.getD_some]
      split <;> simp

theorem viewDestroyed_frame (vm : ViewManager) (d : TerminalDisplay) :
    (viewDestroyed vm d).sessionManager = vm.sessionManager ∧
    (viewDestroyed vm d).viewSplitter = vm.viewSplitter := by
  unfold viewDestroyed
  simp only
  split
  · split <;> simp
  · simp

theorem closeCalls_append (l₁ l₂ : List Effect) :
    closeCalls (l₁ ++ l₂) = closeCalls l₁ ++ closeCalls l₂ := by
  simp [closeCalls, List.filterMap_append]

theorem sessionFinishedStep_closeCalls (s : Option Session) (vm : ViewManager)
    (d : TerminalDisplay) :
    closeCalls (sessionFinishedStep s vm d).log = closeCalls vm.log := by
  rw [sessionFinishedStep_log, closeCalls_append]
  split <;> simp [closeCalls]

theorem sessionFinishedLoop_closeCalls (s : Option Session) (ds : List TerminalDisplay)
    (vm : ViewManager) :
    closeCalls (ds.foldl (sessionFinishedStep s) vm).log = closeCalls vm.log := by
  induction ds generalizing vm with
  | nil => rfl
  | cons d ds ih =>
    simp only [List.foldl_cons]
    rw [ih, sessionFinishedStep_closeCalls]

theorem sessionFinished_closeCalls (vm : ViewManager) (s : Option Session) :
    closeCalls (sessionFinished vm s).log = closeCalls vm.log := by
  unfold sessionFinished
  split
  · rfl
  · simp only
    split
    · split
      · simp only [closeCalls_append, sessionFinishedLoop_closeCalls]
        simp [closeCalls]
      · exact sessionFinishedLoop_closeCalls _ _ _
    · exact sessionFinishedLoop_closeCalls _ _ _

theorem sessionFinished_sessionManager (vm : ViewManager) (s : Option Session) :
    (sessionFinished vm s).sessionManager = vm.sessionManager := by
  unfold sessionFinished
  split
  · rfl
  · simp only
    split
    · split
      · exact (sessionFinishedLoop_frame _ _ _).2.2
      · exact (sessionFinishedLoop_frame _ _ _).2.2
    · exact (sessionFinishedLoop_frame _ _ _).2.2

theorem sessionFinishedLoop_find_some (s : Option Session) (ds : List TerminalDisplay)
    (vm : ViewManager) (k : TerminalDisplay) (v : Session)
    (h : find (ds.foldl (sessionFinishedStep s) vm).sessionMap k = some (some v)) :
    find vm.sessionMap k = some (some v) := by
  induction ds generalizing vm with
  | nil => exact h
  | cons d ds ih =>
    simp only [List.foldl_cons] at h
    have h1 := ih _ h
    rw [sessionFinishedStep_find] at h1
    by_cases hk : k = d
    · subst hk
      simp only [if_true] at h1
      split at h1
      · exact Option.noConfusion h1
      · cases hf : find vm.sessionMap k with
        | none => rw [hf] at h1; simp at h1
        | some x => rw [hf] at h1; simpa using h1
    · simpa [hk] using h1

theorem sessionFinished_find_some (vm : ViewManager) (s : Option Session) (k : TerminalDisplay)
    (v : Session) (h : find (sessionFinished vm s).sessionMap k = some (some v)) :
    find vm.sessionMap k = some (some v) := by
  cases hvs : vm.viewSplitter with
  | none =>
    have : sessionFinished vm s = vm := by
      unfold sessionFinished
      rw [hvs]
    rw [this] at h
    exact h
  | some vs =>
    rw [sessionFinished_sessionMap vm vs s hvs] at h
    exact sessionFinishedLoop_find_some _ _ _ _ _ h

theorem mem_viewsOf (sm : SessionManager) (s : Session) (d : TerminalDisplay) :
    d ∈ sm.viewsOf s ↔ (s, d) ∈ sm.views := by
  unfold SessionManager.viewsOf
  simp only [List.mem_map, List.mem_filter]
  constructor
  · rintro ⟨⟨a, b⟩, ⟨h1, h2⟩, h3⟩
    simp only [beq_iff_eq] at h2
    simp only at h3
    subst h2; subst h3
    exact h1
  · intro h
    exact ⟨(s, d), ⟨h, by simp⟩, rfl⟩

theorem mem_viewsOf_viewDestroyed (sm : SessionManager) (s : Session) (d k : TerminalDisplay) :
    k ∈ (sm.viewDestroyed d).viewsOf s ↔ k ∈ sm.viewsOf s ∧ k ≠ d := by
  rw [mem_viewsOf, mem_viewsOf]
  unfold SessionManager.viewDestroyed
  simp [List.mem_filter]

theorem deliver_gone (vm : ViewManager) (s : Session) (e : TeardownEvent) (h : Gone vm s) :
    Gone (deliver vm e) s ∧ closeCalls (deliver vm e).log = closeCalls vm.log ∨
    Gone (deliver vm e) s ∧
      (closeCalls (deliver vm e).log).count s = (closeCalls vm.log).count s := by
  cases e with
  | sessionFinished sender =>
    left
    refine ⟨?_, sessionFinished_closeCalls vm sender⟩
    intro d hd
    exact h d (sessionFinished_find_some vm sender d s hd)
  | viewDestroyed d =>
    right
    unfold deliver
    simp only
    constructor
    · intro k hk
      rw [viewDestroyed_sessionMap, find_remove] at hk
      by_cases hkd : k = d
      · simp [hkd] at hk
      · simp only [hkd, if_false] at hk
        exact h k hk
    · rw [viewDestroyed_log, closeCalls_append]
      simp only
      cases hf : find vm.sessionMap d with
      | none => simp [closeCalls]
      | some v =>
        cases v with
        | none => simp [closeCalls]
        | some s' =>
          have hne : s' ≠ s := by
            intro heq
            rw [heq] at hf
            exact h d hf
          simp only
          split
          · simp [closeCalls, List.count_cons, hne]
          · simp [closeCalls]

theorem deliver_attached (vm : ViewManager) (s : Session) (e : TeardownEvent)
    (h : Attached vm s) :
    (Attached (deliver vm e) s ∧
      (closeCalls (deliver vm e).log).count s = (closeCalls vm.log).count s) ∨
    (Gone (deliver vm e) s ∧
      (closeCalls (deliver vm e).log).count s = (closeCalls vm.log).count s + 1) := by
  cases e with
  | sessionFinished sender =>
    left
    constructor
    · intro d hd
      have := h d (sessionFinished_find_some vm sender d s hd)
      simp only [deliver]
      rw [sessionFinished_sessionManager]
      exact this
    · simp only [deliver]
      rw [sessionFinished_closeCalls]
  | viewDestroyed d =>
    unfold deliver
    simp only
    have hkeep : ∀ k, find (remove vm.sessionMap d) k = some (some s) →
        k ∈ (vm.sessionManager.viewDestroyed d).viewsOf s := by
      intro k hk
      rw [find_remove] at hk
      by_cases hkd : k = d
      · simp [hkd] at hk
      · simp only [hkd, if_false] at hk
        exact (mem_viewsOf_viewDestroyed _ _ _ _).mpr ⟨h k hk, hkd⟩
    rw [viewDestroyed_log, closeCalls_append]
    simp only
    cases hf : find vm.sessionMap d with
    | none =>
      left
      refine ⟨?_, by simp [closeCalls]⟩
      intro k hk
      rw [viewDestroyed_sessionMap] at hk
      rw [(viewDestroyed_frame _ _).1]
      exact hkeep k hk
    | some v =>
      cases v with
      | none =>
        left
        refine ⟨?_, by simp [closeCalls]⟩
        intro k hk
        rw [viewDestroyed_sessionMap] at hk
        rw [(viewDestroyed_frame _ _).1]
        exact hkeep k hk
      | some s' =>
        simp only
        by_cases hz : ((vm.sessionManager.viewDestroyed d).viewsOf s').length = 0
        · by_cases hs : s' = s
          · right
            subst hs
            constructor
            · intro k hk
              rw [viewDestroyed_sessionMap] at hk
              have := hkeep k hk
              rw [List.length_eq_zero] at hz
              rw [hz] at this
              simp at this
            · simp [hz, closeCalls]
          · left
            constructor
            · intro k hk
              rw [viewDestroyed_sessionMap] at hk
              rw [(viewDestroyed_frame _ _).1]
              exact hkeep k hk
            · simp [hz, closeCalls, List.count_cons, hs]
        · left
          constructor
          · intro k hk
            rw [viewDestroyed_sessionMap] at hk
            rw [(viewDestroyed_frame _ _).1]
            exact hkeep k hk
          · simp [hz, closeCalls]

theorem deliverAll_gone (events : List TeardownEvent) (vm : ViewManager) (s : Session)
    (h : Gone vm s) :
    Gone (deliverAll vm events) s ∧
      (closeCalls (deliverAll vm events).log).count s = (closeCalls vm.log).count s := by
  induction events generalizing vm with
  | nil => exact ⟨h, rfl⟩
  | cons e es ih =>
    have hstep : Gone (deliver vm e) s ∧
        (closeCalls (deliver vm e).log).count s = (closeCalls vm.log).count s := by
      rcases deliver_gone vm s e h with ⟨h1, h2⟩ | ⟨h1, h2⟩
      · exact ⟨h1, by rw [h2]⟩
      · exact ⟨h1, h2⟩
    obtain ⟨i1, i2⟩ := ih (deliver vm e) hstep.1
    simp only [deliverAll, List.foldl_cons] at i1 i2 ⊢
    exact ⟨i1, i2.trans hstep.2⟩

theorem deliverAll_attached (events : List TeardownEvent) (vm : ViewManager) (s : Session)
    (h : Attached vm s) :
    (closeCalls (deliverAll vm events).log).count s ≤ (closeCalls vm.log).count s + 1 := by
  induction events generalizing vm with
  | nil => simp [deliverAll]
  | cons e es ih =>
    rcases deliver_attached vm s e h with ⟨h1, h2⟩ | ⟨h1, h2⟩
    · have := ih (deliver vm e) h1
      simp only [deliverAll, List.foldl_cons] at this ⊢
      omega
    · have := (deliverAll_gone es (deliver vm e) s h1).2
      simp only [deliverAll, List.foldl_cons] at this ⊢
      omega

theorem index_of_find_some (m : SessionMap) (k : TerminalDisplay) (v : Option Session)
    (h : find m k = some v) : index m k = (m, v) := by
  unfold index
  rw [h]

theorem detachViewLoop_mapped (tds : List TerminalDisplay) (vm : ViewManager)
    (hnd : tds.Nodup)
    (h : ∀ td ∈ tds, ∃ s, find vm.sessionMap td = some (some s)) :
    ∃ sessions : List Session,
      List.Forall₂ (fun td s => find vm.sessionMap td = some (some s)) tds sessions ∧
      detachViewLoop tds vm =
        ({ vm with sessionMap := vm.sessionMap.filter (fun e => !tds.contains e.1)
                   log := vm.log ++ sessions.map Effect.viewDetached }, true) := by
  induction tds generalizing vm with
  | nil =>
    refine ⟨[], List.Forall₂.nil, ?_⟩
    simp [detachViewLoop]
  | cons td tds ih =>
    obtain ⟨s, hs⟩ := h td (List.mem_cons_self _ _)
    rw [List.nodup_cons] at hnd
    have hrest : ∀ td' ∈ tds, ∃ s', find (remove vm.sessionMap td) td' = some (some s') := by
      intro td' hmem
      obtain ⟨s', hs'⟩ := h td' (List.mem_cons_of_mem _ hmem)
      refine ⟨s', ?_⟩
      rw [find_remove]
      have : td' ≠ td := fun heq => hnd.1 (heq ▸ hmem)
      simp [this, hs']
    obtain ⟨sessions, hf, hloop⟩ := ih
      { vm with sessionMap := remove vm.sessionMap td
                log := vm.log ++ [Effect.viewDetached s] } hnd.2 hrest
    refine ⟨s :: sessions, List.Forall₂.cons hs ?_, ?_⟩
    · refine hf.imp ?_
      intro a b hab
      simp only at hab
      rw [find_remove] at hab
      by_cases ha : a = td
      · simp [ha] at hab
      · simpa [ha] using hab
    · unfold detachViewLoop
      simp only [index_of_find_some _ _ _ hs]
      rw [hloop]
      simp only [remove, List.filter_filter, List.map_cons, List.append_assoc,
        List.singleton_append, Prod.mk.injEq, and_true]
      congr 1
      apply List.filter_congr
      intro e _
      by_cases he : e.1 = td
      · simp [he]
      · have : ¬ td = e.1 := fun h2 => he h2.symm
        simp [he, this, List.contains_cons]

theorem length_filter_keys (m : SessionMap) (tds : List TerminalDisplay)
    (hm : (keys m).Nodup) (hnd : tds.Nodup) (h : ∀ td ∈ tds, td ∈ keys m) :
    (m.filter (fun e => !tds.contains e.1)).length + tds.length = m.length := by
  have hsplit := List.length_eq_countP_add_countP (fun e => tds.contains e.1) m
  rw [List.countP_eq_length_filter, List.countP_eq_length_filter] at hsplit
  have hperm : ((m.filter (fun e => tds.contains e.1)).map (fun e => e.1)).Perm tds := by
    apply (List.perm_ext_iff_of_nodup ?_ hnd).mpr
    · intro a
      simp only [List.mem_map, List.mem_filter]
      constructor
      · rintro ⟨e, ⟨_, h2⟩, h3⟩
        rw [← h3]
        simpa using h2
      · intro ha
        have := h a ha
        simp only [keys, List.mem_map] at this
        obtain ⟨e, he1, he2⟩ := this
        exact ⟨e, ⟨he1, by simpa [he2] using ha⟩, he2⟩
    · exact (List.Nodup.sublist (List.Sublist.map _ (List.filter_sublist _)) hm)
  have hlen := hperm.length_eq
  rw [List.length_map] at hlen
  have hfun : (fun e : TerminalDisplay × Option Session => !tds.contains e.1) =
      (fun e => decide (¬ (tds.contains e.1) = true)) := by
    funext e
    cases tds.contains e.1 <;> simp
  rw [hfun]
  omega

/-- C1 (as stated, refuted): in `displayOutsideSplitter` the splitter is alive and display 1
is mapped to session 10 without being under the splitter; after `sessionFinished` for
session 10 the session map still maps display 1 to session 10. -/
theorem sessionFinished_keeps_entry_outside_splitter :
    displayOutsideSplitter.viewSplitter.isSome = true ∧
    find (sessionFinished displayOutsideSplitter (some 10)).sessionMap 1 = some (some 10) := by
  decide

/-- C1 (amended): with the splitter alive, after `sessionFinished` for session `s` no display
found under the splitter is mapped to `s`, each such display that was mapped to `s` is
scheduled for deletion and (the displays under the splitter being distinct) has no entry
left, and the entry of a display that is not under the splitter is untouched; hence when
every display mapped to `s` is under the splitter, no entry with value `s` remains. -/
theorem sessionFinished_removes_displays_under_splitter (vm : ViewManager) (vs : ViewSplitter)
    (s : Session) (hvs : vm.viewSplitter = some vs) :
    (∀ d ∈ vs.terminalDisplays,
        find (sessionFinished vm (some s)).sessionMap d ≠ some (some s)) ∧
    (∀ d ∈ vs.terminalDisplays, find vm.sessionMap d = some (some s) →
        Effect.deleteLater d ∈ (sessionFinished vm (some s)).log) ∧
    (vs.terminalDisplays.Nodup →
      ∀ d ∈ vs.terminalDisplays, find vm.sessionMap d = some (some s) →
        find (sessionFinished vm (some s)).sessionMap d = none) ∧
    (∀ d, d ∉ vs.terminalDisplays →
        find (sessionFinished vm (some s)).sessionMap d = find vm.sessionMap d) ∧
    ((∀ d, find vm.sessionMap d = some (some s) → d ∈ vs.terminalDisplays) →
        ∀ d, find (sessionFinished vm (some s)).sessionMap d ≠ some (some s)) := by
  have hmap := sessionFinished_sessionMap vm vs (some s) hvs
  have h1 : ∀ d ∈ vs.terminalDisplays,
      find (sessionFinished vm (some s)).sessionMap d ≠ some (some s) := by
    intro d hd
    rw [hmap]
    exact sessionFinishedLoop_find_ne (some s) _ vm d hd
  have h4 : ∀ d, d ∉ vs.terminalDisplays →
      find (sessionFinished vm (some s)).sessionMap d = find vm.sessionMap d := by
    intro d hd
    rw [hmap]
    exact sessionFinishedLoop_find_of_not_mem (some s) _ vm d hd
  refine ⟨h1, ?_, ?_, h4, ?_⟩
  · intro d hd hf
    exact sessionFinished_log_mem vm vs (some s) hvs _
      (sessionFinishedLoop_deleteLater (some s) _ vm d hd hf)
  · intro hnd d hd hf
    rw [hmap]
    exact sessionFinishedLoop_removed (some s) _ vm d hnd hd hf
  · intro hall d
    by_cases hd : d ∈ vs.terminalDisplays
    · exact h1 d hd
    · rw [h4 d hd]
      intro hf
      exact hd (hall d hf)

/-- C1 (amended), at a concrete state: in `twoSessions` display 1, under the splitter, is
mapped to session 10; after `sessionFinished` for session 10 it has no entry and is
scheduled for deletion. -/
theorem sessionFinished_removes_displays_under_splitter_witness :
    twoSessions.viewSplitter = some { terminalDisplays := [1, 2] } ∧
    find (sessionFinished twoSessions (some 10)).sessionMap 1 = none ∧
    Effect.deleteLater 1 ∈ (sessionFinished twoSessions (some 10)).log :=
  have h := sessionFinished_removes_displays_under_splitter twoSessions
    { terminalDisplays := [1, 2] } 10 rfl
  ⟨rfl, h.2.2.1 (by decide) 1 (by decide) (by decide), h.2.1 1 (by decide) (by decide)⟩

/-- C2 (the defect, evaluated): in `twoSessions` no entry is null.  `sessionFinished` for
session 10 removes the entry of display 1, which stays under the splitter until its deferred
deletion; `sessionFinished` for session 20, arriving before that, looks display 1 up with
`operator[]` and leaves the new entry `1 -> null` in the session map. -/
theorem sessionFinished_inserts_null_entry :
    (∀ e ∈ twoSessions.sessionMap, e.2 ≠ none) ∧
    (sessionFinished twoSessions (some 10)).sessionMap = [(2, some 20)] ∧
    (sessionFinished (sessionFinished twoSessions (some 10)) (some 20)).sessionMap =
      [(1, none)] := by
  decide

/-- C3: `viewDestroyed(d)` removes the entry of `d` from the session map and changes no other
entry, and it calls `close` on the session `d` was mapped to exactly when that session is not
null and has no attached view; nothing else is appended to the log, so no other session is
closed. -/
theorem viewDestroyed_closes_session_without_views (vm : ViewManager) (d : TerminalDisplay) :
    (viewDestroyed vm d).sessionMap = remove vm.sessionMap d ∧
    find (viewDestroyed vm d).sessionMap d = none ∧
    (∀ k, k ≠ d → find (viewDestroyed vm d).sessionMap k = find vm.sessionMap k) ∧
    (viewDestroyed vm d).log =
      vm.log ++
        (match find vm.sessionMap d with
         | some (some s) =>
           if (vm.sessionManager.viewsOf s).length = 0 then [Effect.close s] else []
         | _ => []) := by
  refine ⟨viewDestroyed_sessionMap vm d, ?_, ?_, viewDestroyed_log vm d⟩
  · rw [viewDestroyed_sessionMap, find_remove]
    simp
  · intro k hk
    rw [viewDestroyed_sessionMap, find_remove]
    simp [hk]

/-- C4 (as stated, refuted): session 10 has the displays 1 and 2.  Display 1 is destroyed
(display 2 is still attached, so the session is not closed); the event that comes second,
`sessionFinished` for session 10, finds display 2 still mapped to session 10 and changes the
session map: it is not a no-op. -/
theorem second_event_finds_session_in_map :
    find (deliver oneSessionTwoDisplays (TeardownEvent.viewDestroyed 1)).sessionMap 2 =
      some (some 10) ∧
    (deliverAll oneSessionTwoDisplays
        [TeardownEvent.viewDestroyed 1, TeardownEvent.sessionFinished (some 10)]).sessionMap ≠
      (deliver oneSessionTwoDisplays (TeardownEvent.viewDestroyed 1)).sessionMap := by
  decide

/-- C4 (amended): when every display mapped to `s` is attached to `s`, every sequence of
`sessionFinished` and `viewDestroyed` events calls `close` on `s` at most once; and once no
display is mapped to `s`, later events call no `close` on `s` and leave it without entries. -/
theorem session_closed_at_most_once (vm : ViewManager) (s : Session)
    (events : List TeardownEvent) (h : Attached vm s) :
    (closeCalls (deliverAll vm events).log).count s ≤ (closeCalls vm.log).count s + 1 ∧
    (Gone vm s →
      Gone (deliverAll vm events) s ∧
      (closeCalls (deliverAll vm events).log).count s = (closeCalls vm.log).count s) :=
  ⟨deliverAll_attached events vm s h, fun hg => deliverAll_gone events vm s hg⟩

theorem attached_oneSessionTwoDisplays : Attached oneSessionTwoDisplays 10 := by
  intro d hd
  have hk := mem_keys_of_find _ _ _ hd
  have : d = 1 ∨ d = 2 := by
    simpa [keys, oneSessionTwoDisplays] using hk
  rcases this with h | h <;> subst h <;> decide

/-- C4 (amended), at a concrete state: the two displays of session 10 are destroyed one
after the other and then the session reports that it finished; `close` is called on
session 10 exactly once. -/
theorem session_closed_at_most_once_witness :
    Attached oneSessionTwoDisplays 10 ∧
    (closeCalls (deliverAll oneSessionTwoDisplays
      [TeardownEvent.viewDestroyed 1, TeardownEvent.viewDestroyed 2,
       TeardownEvent.sessionFinished (some 10)]).log).count 10 ≤ 0 + 1 :=
  ⟨attached_oneSessionTwoDisplays,
   (session_closed_at_most_once oneSessionTwoDisplays 10 _ attached_oneSessionTwoDisplays).1⟩

theorem removeView_tabs (c : TabbedViewContainer) (w : QWidget) :
    (c.removeView w).tabs = c.tabs.erase w := by
  unfold TabbedViewContainer.removeView
  by_cases h : w ∈ c.tabs
  · simp only [h, if_true]
    exact List.eraseIdx_indexOf_eq_erase _ _
  · simp only [h, if_false]
    exact (List.erase_of_not_mem h).symm

/-- C5 (as stated, refuted): the only tab of `twoPanesUnmapped` is a pane with the displays
1 and 2, of which display 1 has no entry in the session map.  `detachView` returns from
inside its loop: it adds the entry `1 -> null`, removes no entry, emits no `viewDetached`
and leaves the pane in its container. -/
theorem detachView_returns_early_on_unmapped_display :
    detachView true twoPanesUnmapped 0 (some (QWidget.multiTerminalDisplay twoPanes)) =
      some { twoPanesUnmapped with sessionMap := [(2, some 20), (3, some 10), (1, none)] } := by
  decide

/-- C5 (amended): with detaching compiled in, for a pane view of a container all of whose
terminal displays are mapped to a (non-null) session, `detachView` removes from the session
map exactly the entries of the displays of that pane (one per display, the keys being
distinct) and adds none, emits exactly one `viewDetached` per such display, carrying that
display's session, followed by the deferred deletion of the pane, and removes the pane view
from its container, the other containers being unchanged. -/
theorem detachView_removes_one_entry_per_display (vm : ViewManager) (vs : ViewSplitter)
    (container : Nat) (c : TabbedViewContainer) (mtd : MultiTerminalDisplay)
    (hvs : vm.viewSplitter = some vs) (hc : vs.containers.get? container = some c)
    (hview : QWidget.multiTerminalDisplay mtd ∈ c.tabs)
    (hmapped : ∀ td ∈ getTerminalDisplaysOfContainer mtd,
      ∃ s, find vm.sessionMap td = some (some s)) :
    ∃ (vm1 : ViewManager) (sessions : List Session),
      detachView true vm container (some (QWidget.multiTerminalDisplay mtd)) = some vm1 ∧
      vm1.sessionMap =
        vm.sessionMap.filter (fun e => !(getTerminalDisplaysOfContainer mtd).contains e.1) ∧
      ((keys vm.sessionMap).Nodup →
        vm1.sessionMap.length + (getTerminalDisplaysOfContainer mtd).length =
          vm.sessionMap.length) ∧
      List.Forall₂ (fun td s => find vm.sessionMap td = some (some s))
        (getTerminalDisplaysOfContainer mtd) sessions ∧
      vm1.log = vm.log ++ sessions.map Effect.viewDetached ++
        [Effect.deleteLaterWidget (QWidget.multiTerminalDisplay mtd)] ∧
      vm1.viewSplitter = some { vs with
        containers := vs.containers.set container
          (c.removeView (QWidget.multiTerminalDisplay mtd)) } ∧
      (c.removeView (QWidget.multiTerminalDisplay mtd)).tabs =
        c.tabs.erase (QWidget.multiTerminalDisplay mtd) ∧
      (c.removeView (QWidget.multiTerminalDisplay mtd)).tabs.length + 1 = c.tabs.length := by
  have hnd : (getTerminalDisplaysOfContainer mtd).Nodup := List.nodup_dedup _
  obtain ⟨sessions, hf, hloop⟩ :=
    detachViewLoop_mapped (getTerminalDisplaysOfContainer mtd) vm hnd hmapped
  have htabs := removeView_tabs c (QWidget.multiTerminalDisplay mtd)
  have hlen : (c.removeView (QWidget.multiTerminalDisplay mtd)).tabs.length + 1 =
      c.tabs.length := by
    rw [htabs, List.length_erase_of_mem hview]
    have : 0 < c.tabs.length := List.length_pos_of_mem hview
    omega
  refine ⟨{ vm with
      sessionMap :=
        vm.sessionMap.filter (fun e => !(getTerminalDisplaysOfContainer mtd).contains e.1)
      viewSplitter := some { vs with
        containers := vs.containers.set container
          (c.removeView (QWidget.multiTerminalDisplay mtd)) }
      log := vm.log ++ sessions.map Effect.viewDetached ++
        [Effect.deleteLaterWidget (QWidget.multiTerminalDisplay mtd)] },
    sessions, ?_, ?_, ?_, hf, ?_, ?_, htabs, hlen⟩
  · unfold detachView
    simp only [Bool.not_true, Bool.false_eq_true, if_false, castMultiTerminalDisplay, hloop,
      hvs, removeContainer, Option.bind_eq_bind, Option.some_bind, hc, ite_self]
  · rfl
  · intro hk
    exact length_filter_keys vm.sessionMap _ hk hnd
      (fun td htd => by
        obtain ⟨s, hs⟩ := hmapped td htd
        exact mem_keys_of_find _ _ _ hs)
  · rfl
  · rfl

/-- C5 (amended), at a concrete state: detaching the pane with the displays 1 and 2 of
`twoPanesMapped`, both mapped, is covered by the theorem; afterwards two of the three
entries are gone. -/
theorem detachView_removes_one_entry_per_display_witness :
    twoPanesMapped.viewSplitter =
      some { containers := [{ tabs := [QWidget.multiTerminalDisplay twoPanes], currentIndex := 0 }]
             terminalDisplays := [1, 2] } ∧
    ∃ (vm1 : ViewManager),
      detachView true twoPanesMapped 0 (some (QWidget.multiTerminalDisplay twoPanes)) = some vm1 ∧
      vm1.sessionMap.length + 2 = 3 := by
  refine ⟨rfl, ?_⟩
  obtain ⟨vm1, sessions, h1, _, h3, _⟩ :=
    detachView_removes_one_entry_per_display twoPanesMapped
      { containers := [{ tabs := [QWidget.multiTerminalDisplay twoPanes], currentIndex := 0 }]
        terminalDisplays := [1, 2] }
      0 { tabs := [QWidget.multiTerminalDisplay twoPanes], currentIndex := 0 } twoPanes
      rfl rfl (by decide)
      (by
        have hL : getTerminalDisplaysOfContainer twoPanes = [1, 2] := by decide
        intro td htd
        rw [hL] at htd
        have h12 : td = 1 ∨ td = 2 := by simpa using htd
        rcases h12 with h | h
        · subst h; exact ⟨10, by decide⟩
        · subst h; exact ⟨20, by decide⟩)
  exact ⟨vm1, h1, h3 (by decide)⟩

theorem createViewCalls_append (l₁ l₂ : List Effect) :
    createViewCalls (l₁ ++ l₂) = createViewCalls l₁ ++ createViewCalls l₂ := by
  simp [createViewCalls, List.filterMap_append]

theorem runCalls_append (l₁ l₂ : List Effect) :
    runCalls (l₁ ++ l₂) = runCalls l₁ ++ runCalls l₂ := by
  simp [runCalls, List.filterMap_append]

/-- What `createView(session, container, index)` leaves as it was. -/
theorem createViewIn_frame (vm : ViewManager) (vs : ViewSplitter) (s : Session) (container : Nat)
    (index : Int) (hvs : vm.viewSplitter = some vs) (hc : container < vs.containers.length) :
    ∃ vm1 vs1, createViewIn vm s container index = some vm1 ∧
      vm1.viewSplitter = some vs1 ∧
      vs1.containers.length = vs.containers.length ∧ vs1.active = vs.active ∧
      createViewCalls vm1.log = createViewCalls vm.log ∧
      runCalls vm1.log = runCalls vm.log ∧
      vm1.newTabBehavior = vm.newTabBehavior ∧
      vm1.sessionManager = { vm.sessionManager with views := vm1.sessionManager.views } := by
  obtain ⟨c, hcget⟩ : ∃ c, vs.containers.get? container = some c := by
    rw [List.get?_eq_get hc]
    exact ⟨_, rfl⟩
  unfold createViewIn createController controllerChanged
  cases hp : vm.pluggedController with
  | none =>
    simp only [hp, hvs, Option.map_some', Option.bind_eq_bind, Option.some_bind, hcget,
      reduceCtorEq, if_false]
    refine ⟨_, _, rfl, rfl, ?_, rfl, ?_, ?_, rfl, ?_⟩
    · simp
    · simp [createViewCalls_append, createViewCalls]
    · simp [runCalls_append, runCalls]
    · simp [SessionManager.addView]
  | some pc =>
    simp only [hp, hvs, Option.bind_eq_bind, Option.some_bind, hcget]
    refine ⟨_, _, rfl, rfl, ?_, rfl, rfl, rfl, rfl, ?_⟩
    · simp
    · simp [SessionManager.addView]

theorem createViewLoop_frame (s : Session) (index : Int) (cs : List Nat) (vm : ViewManager)
    (vs : ViewSplitter) (hvs : vm.viewSplitter = some vs)
    (hcs : ∀ c ∈ cs, c < vs.containers.length) :
    ∃ vm1 vs1, cs.foldlM (fun v c => createViewIn v s c index) vm = some vm1 ∧
      vm1.viewSplitter = some vs1 ∧
      vs1.containers.length = vs.containers.length ∧ vs1.active = vs.active ∧
      createViewCalls vm1.log = createViewCalls vm.log ∧
      runCalls vm1.log = runCalls vm.log ∧
      vm1.newTabBehavior = vm.newTabBehavior ∧
      vm1.sessionManager = { vm.sessionManager with views := vm1.sessionManager.views } := by
  induction cs generalizing vm vs with
  | nil => exact ⟨vm, vs, rfl, hvs, rfl, rfl, rfl, rfl, rfl, rfl⟩
  | cons c cs ih =>
    obtain ⟨vm1, vs1, h1, h2, h3, h4, h5, h6, h7, h8⟩ :=
      createViewIn_frame vm vs s c index hvs (hcs c (List.mem_cons_self _ _))
    obtain ⟨vm2, vs2, i1, i2, i3, i4, i5, i6, i7, i8⟩ :=
      ih vm1 vs1 h2 (fun c' hc' => by rw [h3]; exact hcs c' (List.mem_cons_of_mem _ hc'))
    refine ⟨vm2, vs2, ?_, i2, i3.trans h3, i4.trans h4, i5.trans h5, i6.trans h6,
      i7.trans h7, ?_⟩
    · simp only [List.foldlM_cons, Option.bind_eq_bind, h1, Option.some_bind]
      exact i1
    · rw [i8, h8]

/-- The overload `createView(session)` returns in every state in which the splitter is ready;
it logs one call, starts no session and creates none, and leaves the splitter with an active
container. -/
theorem createView_frame (vm : ViewManager) (s : Session) (h : SplitterReady vm) :
    ∃ vm1, createView vm s = some vm1 ∧ ActiveReady vm1 ∧
      createViewCalls vm1.log = createViewCalls vm.log ++ [s] ∧
      runCalls vm1.log = runCalls vm.log ∧
      vm1.newTabBehavior = vm.newTabBehavior ∧
      vm1.sessionManager = { vm.sessionManager with views := vm1.sessionManager.views } := by
  obtain ⟨vs, hvs, hact⟩ := h
  have key : ∀ (vs0 : ViewSplitter) (index : Int), vs0.active < vs0.containers.length →
      ∃ vm1, (List.range vs0.containers.length).foldlM (fun v c => createViewIn v s c index)
          { vm with log := vm.log ++ [Effect.qInfoCreateView s]
                    viewSplitter := some vs0 } = some vm1 ∧
        ActiveReady vm1 ∧
        createViewCalls vm1.log = createViewCalls vm.log ++ [s] ∧
        runCalls vm1.log = runCalls vm.log ∧
        vm1.newTabBehavior = vm.newTabBehavior ∧
        vm1.sessionManager = { vm.sessionManager with views := vm1.sessionManager.views } := by
    intro vs0 index hlt
    obtain ⟨vm1, vs1, h1, h2, h3, h4, h5, h6, h7, h8⟩ :=
      createViewLoop_frame s index (List.range vs0.containers.length)
        { vm with log := vm.log ++ [Effect.qInfoCreateView s]
                  viewSplitter := some vs0 }
        vs0 rfl (fun c hc => List.mem_range.mp hc)
    refine ⟨vm1, h1, ⟨vs1, h2, ?_⟩, ?_, ?_, h7, h8⟩
    · rw [h3, h4]
      exact hlt
    · rw [h5]
      simp [createViewCalls_append, createViewCalls]
    · rw [h6]
      simp [runCalls_append, runCalls]
  unfold createView
  simp only [hvs, Option.bind_eq_bind, Option.some_bind]
  by_cases hz : vs.containers.length = 0
  · have hnil : vs.containers = [] := List.length_eq_zero.mp hz
    have hlt : (vs.addContainer createContainer Orientation.Vertical).active <
        (vs.addContainer createContainer Orientation.Vertical).containers.length := by
      simp [ViewSplitter.addContainer, hnil]
    have hac : (vs.addContainer createContainer Orientation.Vertical).activeContainer = some createContainer := by
      simp [ViewSplitter.addContainer, ViewSplitter.activeContainer, hnil]
    simp only [hz, if_true, hac, Option.map_some', Option.some_bind]
    split
    · exact key _ _ hlt
    · exact key _ _ hlt
  · have hlt : vs.active < vs.containers.length := by
      rcases hact with h | h
      · exact absurd h hz
      · exact h
    have hac : vs.activeContainer = some (vs.containers.get ⟨vs.active, hlt⟩) := by
      unfold ViewSplitter.activeContainer
      rw [List.get?_eq_get hlt]
    simp only [hz, if_false, hac, Option.map_some', Option.some_bind]
    split
    · exact key _ _ hlt
    · exact key _ _ hlt

theorem contains_zipWith_fresh (d0 : TerminalDisplay) (ss : List Session) :
    contains (List.zipWith (fun i s => (d0 + i, some s)) (List.range ss.length) ss)
      (d0 + ss.length) = false := by
  unfold contains
  rw [Bool.eq_false_iff]
  intro h
  rw [List.any_eq_true] at h
  obtain ⟨e, he, hk⟩ := h
  obtain ⟨i, hi, hget⟩ := List.getElem_of_mem he
  simp only [List.getElem_zipWith, List.getElem_range] at hget
  have hi2 : i < ss.length := by simpa using hi
  rw [← hget] at hk
  have hk2 : d0 + i = d0 + ss.length := by simpa using hk
  have hk3 : i = ss.length := Nat.add_left_cancel hk2
  omega

theorem rootTab_not_mem (d0 : TerminalDisplay) (n : Nat) :
    rootTab d0 n ∉ (List.range n).map (rootTab d0) := by
  intro h
  rw [List.mem_map] at h
  obtain ⟨i, hi, heq⟩ := h
  rw [List.mem_range] at hi
  have h2 : d0 + i = d0 + n := by simpa [rootTab] using heq
  have h3 : i = n := Nat.add_left_cancel h2
  omega

/-- In a manager that shows one tab per session of `ss`, `createView(session)` appends the
tab of the new session and makes it the current one. -/
theorem createView_showsTabs (d0 : TerminalDisplay) (ss : List Session) (vm : ViewManager)
    (s : Session) (h : ShowsTabs d0 ss vm) :
    ∃ vm1, createView vm s = some vm1 ∧ ShowsTabs d0 (ss ++ [s]) vm1 := by
  obtain ⟨hvs, hmap, hnext, hbeh⟩ := h
  have hfresh := contains_zipWith_fresh d0 ss
  by_cases hz : ss.length = 0
  · have hnil : ss = [] := List.length_eq_zero.mp hz
    subst hnil
    simp only [List.length_nil, if_true] at hvs
    simp only [List.length_nil, List.range_zero, List.zipWith_nil_left] at hmap
    unfold createView createViewIn createController controllerChanged
    cases hp : vm.pluggedController <;>
      simp [hvs, hbeh, hmap, hnext, ViewSplitter.addContainer, createContainer,
        ShowsTabs, QHash.insert, QHash.contains, TabbedViewContainer.addView,
        TabbedViewContainer.setCurrentWidget, rootTab, List.range_succ]
  · simp only [hz, if_false] at hvs
    have hnm := rootTab_not_mem d0 ss.length
    unfold createView createViewIn createController controllerChanged
    cases hp : vm.pluggedController <;>
      simp [hvs, hbeh, hmap, hnext, hz, hfresh, ShowsTabs, QHash.insert,
        TabbedViewContainer.addView, TabbedViewContainer.setCurrentWidget, List.range_succ,
        List.zipWith_append, List.indexOf_append_of_not_mem, hnm] <;>
      exact ⟨⟨rfl, by
        have key : List.indexOf (rootTab d0 ss.length)
            ((List.range ss.length).map (rootTab d0) ++ [rootTab d0 ss.length]) =
              ((List.range ss.length).map (rootTab d0)).length +
                List.indexOf (rootTab d0 ss.length) [rootTab d0 ss.length] :=
          List.indexOf_append_of_not_mem hnm
        simpa [rootTab] using key⟩, Nat.add_assoc _ _ _⟩

theorem activeReady_splitterReady (vm : ViewManager) (h : ActiveReady vm) : SplitterReady vm := by
  obtain ⟨vs, h1, h2⟩ := h
  exact ⟨vs, h1, Or.inr h2⟩

theorem mem_runsNeeded (ss running : List Session) (s : Session) :
    s ∈ runsNeeded running ss ↔ s ∈ ss ∧ s ∉ running := by
  induction ss generalizing running with
  | nil => simp [runsNeeded]
  | cons a ss ih =>
    unfold runsNeeded
    by_cases ha : running.contains a = true
    · have ha2 : a ∈ running := by simpa using ha
      simp only [ha, if_true, ih, List.mem_cons]
      constructor
      · rintro ⟨h1, h2⟩
        exact ⟨Or.inr h1, h2⟩
      · rintro ⟨h1 | h1, h2⟩
        · subst h1; exact absurd ha2 h2
        · exact ⟨h1, h2⟩
    · have ha2 : a ∉ running := by simpa using ha
      simp only [ha, if_false, List.mem_cons, ih, List.mem_append, List.mem_singleton, not_or,
        Bool.false_eq_true]
      constructor
      · rintro (h1 | ⟨h1, h2, _, _⟩)
        · subst h1; exact ⟨Or.inl rfl, ha2⟩
        · exact ⟨Or.inr h1, h2⟩
      · rintro ⟨h1 | h1, h2⟩
        · exact Or.inl h1
        · by_cases hsa : s = a
          · exact Or.inl hsa
          · exact Or.inr ⟨h1, h2, hsa, by simp⟩

theorem nodup_runsNeeded (ss running : List Session) : (runsNeeded running ss).Nodup := by
  induction ss generalizing running with
  | nil => simp [runsNeeded]
  | cons a ss ih =>
    unfold runsNeeded
    by_cases ha : running.contains a = true
    · simp only [ha, if_true]
      exact ih running
    · simp only [ha, if_false, List.nodup_cons, Bool.false_eq_true]
      refine ⟨?_, ih _⟩
      rw [mem_runsNeeded]
      simp

theorem runIfNotRunning_spec (vm : ViewManager) (s : Session) :
    (runIfNotRunning vm s).viewSplitter = vm.viewSplitter ∧
    (runIfNotRunning vm s).sessionMap = vm.sessionMap ∧
    (runIfNotRunning vm s).nextDisplay = vm.nextDisplay ∧
    (runIfNotRunning vm s).newTabBehavior = vm.newTabBehavior ∧
    createViewCalls (runIfNotRunning vm s).log = createViewCalls vm.log ∧
    runCalls (runIfNotRunning vm s).log =
      runCalls vm.log ++ runsNeeded vm.sessionManager.running [s] ∧
    (runIfNotRunning vm s).sessionManager =
      { vm.sessionManager with
        running := vm.sessionManager.running ++ runsNeeded vm.sessionManager.running [s] } := by
  unfold runIfNotRunning SessionManager.isRunning
  by_cases h : s ∈ vm.sessionManager.running
  · simp [h, runsNeeded]
  · simp [h, runsNeeded, createViewCalls_append, runCalls_append, createViewCalls, runCalls,
      SessionManager.run]

theorem runsNeeded_cons (running : List Session) (s : Session) (ss : List Session) :
    runsNeeded running (s :: ss) =
      runsNeeded running [s] ++ runsNeeded (running ++ runsNeeded running [s]) ss := by
  by_cases h : s ∈ running
  · simp [runsNeeded, h]
  · simp [runsNeeded, h]

theorem showsTabs_congr (d0 : TerminalDisplay) (ss : List Session) (vm vm1 : ViewManager)
    (h : ShowsTabs d0 ss vm) (h1 : vm1.viewSplitter = vm.viewSplitter)
    (h2 : vm1.sessionMap = vm.sessionMap) (h3 : vm1.nextDisplay = vm.nextDisplay)
    (h4 : vm1.newTabBehavior = vm.newTabBehavior) : ShowsTabs d0 ss vm1 := by
  unfold ShowsTabs at h ⊢
  rw [h1, h2, h3, h4]
  exact h

theorem showsTabs_splitterReady (d0 : TerminalDisplay) (ss : List Session) (vm : ViewManager)
    (h : ShowsTabs d0 ss vm) : SplitterReady vm := by
  obtain ⟨hvs, _⟩ := h
  refine ⟨_, hvs, ?_⟩
  by_cases hz : ss.length = 0
  · simp [hz]
  · right
    simp [hz]

theorem showsTabs_activeView (d0 : TerminalDisplay) (ss : List Session) (vm : ViewManager)
    (h : ShowsTabs d0 ss vm) (hne : ss ≠ []) :
    activeView vm = some (some (rootTab d0 (ss.length - 1))) := by
  obtain ⟨hvs, _⟩ := h
  have hz : ss.length ≠ 0 := fun h0 => hne (List.length_eq_zero.mp h0)
  have hpos : 0 < ss.length := Nat.pos_of_ne_zero hz
  unfold activeView
  simp only [hvs, hz, if_false, Option.bind_eq_bind, Option.some_bind,
    ViewSplitter.activeContainer, List.get?_cons_zero, TabbedViewContainer.currentWidget,
    TabbedViewContainer.widget]
  have h1 : (0 : Int) ≤ (ss.length : Int) - 1 := by omega
  have h2 : ((ss.length : Int) - 1).toNat = ss.length - 1 := by omega
  simp only [h1, if_true, h2]
  rw [List.get?_eq_getElem?, List.getElem?_map, List.getElem?_range (by omega)]
  rfl

theorem castTerminalDisplay_rootTab (d0 : TerminalDisplay) (i : Nat) :
    castTerminalDisplay (some (rootTab d0 i)) = none := rfl

theorem activeView_of_activeReady (vm : ViewManager) (h : ActiveReady vm) :
    ∃ w, activeView vm = some w := by
  obtain ⟨vs, hvs, _⟩ := h
  unfold activeView
  simp only [hvs, Option.bind_eq_bind, Option.some_bind]
  split
  · exact ⟨_, rfl⟩
  · exact ⟨_, rfl⟩

theorem activeReady_congr (vm vm1 : ViewManager) (h : ActiveReady vm)
    (h1 : vm1.viewSplitter = vm.viewSplitter) : ActiveReady vm1 := by
  unfold ActiveReady at h ⊢
  rw [h1]
  exact h

/-- One round of the loop of `restoreSessions` for an id that resolves to `s`. -/
theorem restoreSessionsLoop_cons (activeTab : Int) (id : Int) (ids : List Int) (tab : Int)
    (display : Option TerminalDisplay) (vm vm1 : ViewManager) (s : Session)
    (hs : vm.sessionManager.idToSession id = some s) (hcv : createView vm s = some vm1)
    (w : Option QWidget) (hw : activeView (runIfNotRunning vm1 s) = some w) :
    restoreSessionsLoop activeTab (id :: ids) tab display vm =
      restoreSessionsLoop activeTab ids (tab + 1)
        (if tab = activeTab then castTerminalDisplay w else display) (runIfNotRunning vm1 s) := by
  rw [restoreSessionsLoop]
  simp only [hs, hcv, Option.bind_eq_bind, Option.some_bind, hw, Option.map_some']
  by_cases ht : tab = activeTab
  · simp [ht]
  · simp [ht]

theorem restoreSessionsLoop_resolved (activeTab : Int) (ids : List Int) (tab : Int)
    (display : Option TerminalDisplay) (vm : ViewManager) (hready : SplitterReady vm)
    (hres : ∀ id ∈ ids, ∃ s, vm.sessionManager.idToSession id = some s) :
    ∃ vm1 display1,
      restoreSessionsLoop activeTab ids tab display vm = some (vm1, display1, false) ∧
      SplitterReady vm1 ∧ (ids ≠ [] → ActiveReady vm1) ∧ (ids = [] → display1 = display) ∧
      createViewCalls vm1.log =
        createViewCalls vm.log ++ ids.filterMap vm.sessionManager.idToSession ∧
      runCalls vm1.log =
        runCalls vm.log ++
          runsNeeded vm.sessionManager.running (ids.filterMap vm.sessionManager.idToSession) ∧
      vm1.sessionManager =
        { vm.sessionManager with
          views := vm1.sessionManager.views
          running := vm.sessionManager.running ++
            runsNeeded vm.sessionManager.running
              (ids.filterMap vm.sessionManager.idToSession) } ∧
      vm1.newTabBehavior = vm.newTabBehavior := by
  induction ids generalizing vm tab display with
  | nil =>
    refine ⟨vm, display, rfl, hready, fun h => absurd rfl h, fun _ => rfl, ?_, ?_, ?_, rfl⟩
    · simp
    · simp [runsNeeded]
    · simp [runsNeeded]
  | cons id ids ih =>
    obtain ⟨s, hs⟩ := hres id (List.mem_cons_self _ _)
    obtain ⟨vm1, hcv, hact, hcalls, hruns, hbeh, hsm⟩ := createView_frame vm s hready
    obtain ⟨r1, r2, r3, r4, r5, r6, r7⟩ := runIfNotRunning_spec vm1 s
    have hact2 : ActiveReady (runIfNotRunning vm1 s) := activeReady_congr _ _ hact r1
    obtain ⟨w, hw⟩ := activeView_of_activeReady _ hact2
    have hsm2 : (runIfNotRunning vm1 s).sessionManager =
        { vm.sessionManager with
          views := vm1.sessionManager.views
          running := vm.sessionManager.running ++ runsNeeded vm.sessionManager.running [s] } := by
      rw [r7, hsm]
    have hid : (runIfNotRunning vm1 s).sessionManager.idToSession =
        vm.sessionManager.idToSession := by
      funext i
      rw [hsm2]
      rfl
    have hrun : (runIfNotRunning vm1 s).sessionManager.running =
        vm.sessionManager.running ++ runsNeeded vm.sessionManager.running [s] := by
      rw [hsm2]
    have hrun1 : vm1.sessionManager.running = vm.sessionManager.running := by
      rw [hsm]
    obtain ⟨vm3, display3, i1, i2, i3, _, i5, i6, i7, i8⟩ :=
      ih (tab + 1) (if tab = activeTab then castTerminalDisplay w else display)
        (runIfNotRunning vm1 s) (activeReady_splitterReady _ hact2)
        (fun id' hid' => by
          rw [hid]
          exact hres id' (List.mem_cons_of_mem _ hid'))
    have hAct3 : ActiveReady vm3 := by
      by_cases hnil : ids = []
      · subst hnil
        simp only [restoreSessionsLoop, Option.some.injEq, Prod.mk.injEq] at i1
        rw [← i1.1]
        exact hact2
      · exact i3 hnil
    refine ⟨vm3, display3, ?_, i2, fun _ => hAct3, fun h => absurd h (List.cons_ne_nil _ _),
      ?_, ?_, ?_, ?_⟩
    · rw [restoreSessionsLoop_cons activeTab id ids tab display vm vm1 s hs hcv w hw]
      exact i1
    · rw [i5, r5, hcalls, hid]
      simp [List.filterMap_cons, hs]
    · rw [i6, r6, hruns, hid, hrun, hrun1]
      simp only [List.filterMap_cons, hs]
      rw [runsNeeded_cons vm.sessionManager.running s
        (ids.filterMap vm.sessionManager.idToSession), List.append_assoc]
    · rw [i7, hid, hrun]
      simp only [List.filterMap_cons, hs]
      rw [runsNeeded_cons vm.sessionManager.running s
        (ids.filterMap vm.sessionManager.idToSession), hsm2]
      simp
    · rw [i8, r4, hbeh]

theorem restoreSessionsLoop_showsTabs (activeTab : Int) (ids : List Int) (tab : Int)
    (d0 : TerminalDisplay) (ss : List Session) (vm : ViewManager) (h : ShowsTabs d0 ss vm)
    (hres : ∀ id ∈ ids, ∃ s, vm.sessionManager.idToSession id = some s) :
    ∃ vm1, restoreSessionsLoop activeTab ids tab none vm = some (vm1, none, false) ∧
      ShowsTabs d0 (ss ++ ids.filterMap vm.sessionManager.idToSession) vm1 := by
  induction ids generalizing vm tab ss with
  | nil => exact ⟨vm, rfl, by simpa using h⟩
  | cons id ids ih =>
    obtain ⟨s, hs⟩ := hres id (List.mem_cons_self _ _)
    obtain ⟨vm1, hcv, htabs⟩ := createView_showsTabs d0 ss vm s h
    obtain ⟨vm1', hcv', _, _, _, _, hsm⟩ :=
      createView_frame vm s (showsTabs_splitterReady d0 ss vm h)
    rw [hcv] at hcv'
    have hvm : vm1' = vm1 := (Option.some.inj hcv').symm
    subst hvm
    obtain ⟨r1, r2, r3, r4, _, _, r7⟩ := runIfNotRunning_spec vm1' s
    have htabs2 : ShowsTabs d0 (ss ++ [s]) (runIfNotRunning vm1' s) :=
      showsTabs_congr d0 _ vm1' _ htabs r1 r2 r3 r4
    have hw := showsTabs_activeView d0 (ss ++ [s]) _ htabs2 (by simp)
    have hid : (runIfNotRunning vm1' s).sessionManager.idToSession =
        vm.sessionManager.idToSession := by
      funext i
      rw [r7, hsm]
      rfl
    obtain ⟨vm3, i1, i2⟩ := ih (tab + 1) (ss ++ [s]) (runIfNotRunning vm1' s) htabs2
      (fun id' hid' => by
        rw [hid]
        exact hres id' (List.mem_cons_of_mem _ hid'))
    refine ⟨vm3, ?_, ?_⟩
    · rw [restoreSessionsLoop_cons activeTab id ids tab none vm vm1' s hs hcv _ hw]
      rw [castTerminalDisplay_rootTab, ite_self]
      exact i1
    · rw [hid] at i2
      simpa [List.filterMap_cons, hs] using i2

theorem restoreSessionsLoop_append (activeTab : Int) (pre rest : List Int) (tab : Int)
    (display : Option TerminalDisplay) (vm : ViewManager) :
    restoreSessionsLoop activeTab (pre ++ rest) tab display vm =
      (restoreSessionsLoop activeTab pre tab display vm).bind (fun r =>
        if r.2.2 then some r
        else restoreSessionsLoop activeTab rest (tab + pre.length) r.2.1 r.1) := by
  induction pre generalizing vm tab display with
  | nil => simp [restoreSessionsLoop]
  | cons id pre ih =>
    simp only [List.cons_append, restoreSessionsLoop]
    cases hs : vm.sessionManager.idToSession id with
    | none => simp
    | some s =>
      simp only [Option.bind_eq_bind]
      cases hcv : createView vm s with
      | none => simp
      | some vm1 =>
        simp only [Option.some_bind]
        have hlen : tab + 1 + (pre.length : Int) = tab + ((pre.length : Int) + 1) := by ring
        by_cases ht : tab = activeTab
        · subst ht
          simp only [if_true]
          cases hd : Option.map castTerminalDisplay (runIfNotRunning vm1 s).activeView with
          | none => simp
          | some d1 =>
            simp only [Option.some_bind]
            rw [List.append_eq, ih]
            simp only [List.length_cons, Nat.cast_add, Nat.cast_one, hlen]
        · simp only [ht, if_false]
          rw [List.append_eq, ih]
          simp only [List.length_cons, Nat.cast_add, Nat.cast_one, hlen]

theorem refocusRestored_spec (vm : ViewManager) (display : Option TerminalDisplay)
    (h : display ≠ none → ActiveReady vm) :
    ∃ vm1, refocusRestored vm display = some vm1 ∧ vm1.log = vm.log ∧
      vm1.sessionManager = vm.sessionManager ∧ (display = none → vm1 = vm) ∧
      (SplitterReady vm → SplitterReady vm1) := by
  cases display with
  | none => exact ⟨vm, rfl, rfl, rfl, fun _ => rfl, fun h => h⟩
  | some d =>
    obtain ⟨vs, hvs, hlt⟩ := h (by simp)
    have hac : vs.activeContainer = some (vs.containers.get ⟨vs.active, hlt⟩) := by
      unfold ViewSplitter.activeContainer
      rw [List.get?_eq_get hlt]
    unfold refocusRestored
    simp only [hvs, hac, Option.bind_eq_bind, Option.some_bind]
    refine ⟨_, rfl, rfl, rfl, fun h => by simp at h, fun _ => ⟨_, rfl, Or.inr ?_⟩⟩
    simpa using hlt

theorem startDefaultProfile_spec (vm : ViewManager) (h : SplitterReady vm) :
    ∃ vm1, startDefaultProfile vm = some vm1 ∧
      vm1.sessionManager.created =
        vm.sessionManager.created ++
          [(vm.sessionManager.nextSession, vm.sessionManager.defaultProfile)] ∧
      createViewCalls vm1.log = createViewCalls vm.log ++ [vm.sessionManager.nextSession] ∧
      runCalls vm1.log =
        runCalls vm.log ++
          (if vm.sessionManager.isRunning vm.sessionManager.nextSession then []
           else [vm.sessionManager.nextSession]) ∧
      vm1.sessionManager.isRunning vm.sessionManager.nextSession = true ∧
      (∀ d0 ss, ShowsTabs d0 ss vm → ShowsTabs d0 (ss ++ [vm.sessionManager.nextSession]) vm1) := by
  have hready : SplitterReady
      { vm with sessionManager :=
          (vm.sessionManager.createSession vm.sessionManager.defaultProfile).2 } := h
  obtain ⟨vm1, hcv, _, hcalls, hruns, _, hsm⟩ :=
    createView_frame _ vm.sessionManager.nextSession hready
  obtain ⟨r1, r2, r3, r4, r5, r6, r7⟩ := runIfNotRunning_spec vm1 vm.sessionManager.nextSession
  have hsm1 : vm1.sessionManager.running = vm.sessionManager.running := by
    rw [hsm]; rfl
  refine ⟨runIfNotRunning vm1 vm.sessionManager.nextSession, ?_, ?_, ?_, ?_, ?_, ?_⟩
  · unfold startDefaultProfile
    simp only [SessionManager.createSession, Option.bind_eq_bind] at hcv ⊢
    rw [hcv]
    rfl
  · rw [r7, hsm]
    rfl
  · rw [r5, hcalls]
  · rw [r6, hruns, hsm1]
    unfold SessionManager.isRunning
    by_cases hrun : vm.sessionManager.nextSession ∈ vm.sessionManager.running
    · simp [runsNeeded, hrun]
    · simp [runsNeeded, hrun]
  · rw [r7]
    unfold SessionManager.isRunning
    simp only [hsm1]
    by_cases hrun : vm.sessionManager.nextSession ∈ vm.sessionManager.running
    · simp [runsNeeded, hrun]
    · simp [runsNeeded, hrun]
  · intro d0 ss htabs
    have htabs0 : ShowsTabs d0 ss
        { vm with sessionManager :=
            (vm.sessionManager.createSession vm.sessionManager.defaultProfile).2 } := htabs
    obtain ⟨vm1', hcv', htabs1⟩ :=
      createView_showsTabs d0 ss _ vm.sessionManager.nextSession htabs0
    rw [hcv] at hcv'
    have hvm : vm1' = vm1 := (Option.some.inj hcv').symm
    subst hvm
    exact showsTabs_congr d0 _ vm1' _ htabs1 r1 r2 r3 r4

theorem restoreSessions_of_no_ids (vm : ViewManager) (group : KConfigGroup)
    (hgroup : group.sessions = none ∨ group.sessions = some []) :
    restoreSessions vm group = startDefaultProfile vm := by
  unfold restoreSessions
  rcases hgroup with h | h <;>
    simp [h, restoreSessionsLoop, refocusRestored]

theorem restoreSessions_of_loop (vm : ViewManager) (group : KConfigGroup) (ids : List Int)
    (hgroup : group.sessions = some ids) (vm1 vm2 : ViewManager)
    (display1 : Option TerminalDisplay) (cleared : Bool)
    (hloop : restoreSessionsLoop (group.active.getD 0) ids 1 none vm =
      some (vm1, display1, cleared))
    (hfocus : refocusRestored vm1 display1 = some vm2) :
    restoreSessions vm group =
      if cleared || ids.isEmpty then startDefaultProfile vm2 else some vm2 := by
  unfold restoreSessions
  simp only [hgroup, Option.getD_some, hloop, Option.bind_eq_bind, Option.some_bind, hfocus]

theorem length_filterMap_resolved (sm : SessionManager) (ids : List Int)
    (hres : ∀ id ∈ ids, ∃ s, sm.idToSession id = some s) :
    (ids.filterMap sm.idToSession).length = ids.length := by
  induction ids with
  | nil => rfl
  | cons a l ih =>
    obtain ⟨s, hs⟩ := hres a (List.mem_cons_self _ _)
    simp only [List.filterMap_cons, hs, List.length_cons]
    rw [ih (fun id hid => hres id (List.mem_cons_of_mem _ hid))]

/-- What `restoreSessions` does with a non-empty list of ids that all resolve. -/
theorem restoreSessions_resolved (vm : ViewManager) (group : KConfigGroup) (ids : List Int)
    (hready : SplitterReady vm) (hgroup : group.sessions = some ids) (hne : ids ≠ [])
    (hres : ∀ id ∈ ids, ∃ s, vm.sessionManager.idToSession id = some s) :
    ∃ vm1, restoreSessions vm group = some vm1 ∧
      createViewCalls vm1.log =
        createViewCalls vm.log ++ ids.filterMap vm.sessionManager.idToSession ∧
      runCalls vm1.log =
        runCalls vm.log ++
          runsNeeded vm.sessionManager.running (ids.filterMap vm.sessionManager.idToSession) ∧
      vm1.sessionManager.created = vm.sessionManager.created ∧
      vm1.sessionManager.running =
        vm.sessionManager.running ++
          runsNeeded vm.sessionManager.running (ids.filterMap vm.sessionManager.idToSession) ∧
      (∀ d0, ShowsTabs d0 [] vm →
        ShowsTabs d0 (ids.filterMap vm.sessionManager.idToSession) vm1 ∧
        activeView vm1 = some (some (rootTab d0 (ids.length - 1)))) := by
  obtain ⟨vm1, display1, hloop, _, hact, _, hcalls, hruns, hsm, _⟩ :=
    restoreSessionsLoop_resolved (group.active.getD 0) ids 1 none vm hready hres
  obtain ⟨vm2, hfocus, hlog, hsm2, hsame, _⟩ :=
    refocusRestored_spec vm1 display1 (fun _ => hact hne)
  have hres2 := restoreSessions_of_loop vm group ids hgroup vm1 vm2 display1 false hloop hfocus
  have hemp : ids.isEmpty = false := by
    cases ids with
    | nil => exact absurd rfl hne
    | cons a l => rfl
  simp only [hemp, Bool.or_self, Bool.false_eq_true, if_false] at hres2
  refine ⟨vm2, hres2, ?_, ?_, ?_, ?_, ?_⟩
  · rw [hlog, hcalls]
  · rw [hlog, hruns]
  · rw [hsm2, hsm]
  · rw [hsm2, hsm]
  · intro d0 htabs
    obtain ⟨vm1', hloop', htabs'⟩ :=
      restoreSessionsLoop_showsTabs (group.active.getD 0) ids 1 d0 [] vm htabs hres
    rw [hloop] at hloop'
    simp only [Option.some.injEq, Prod.mk.injEq] at hloop'
    obtain ⟨h1, h2, _⟩ := hloop'
    subst h1
    have hvm2 : vm2 = vm1 := hsame h2
    subst hvm2
    simp only [List.nil_append] at htabs'
    have hlen := length_filterMap_resolved vm.sessionManager ids hres
    refine ⟨htabs', ?_⟩
    rw [← hlen]
    apply showsTabs_activeView d0 _ _ htabs'
    intro hnil
    rw [hnil] at hlen
    exact hne (List.length_eq_zero.mp hlen.symm)

/-- What `restoreSessions` does with a list whose first id that does not resolve comes after
the ids `pre`. -/
theorem restoreSessions_unresolved (vm : ViewManager) (group : KConfigGroup) (pre : List Int)
    (bad : Int) (post : List Int) (hready : SplitterReady vm)
    (hgroup : group.sessions = some (pre ++ bad :: post))
    (hres : ∀ id ∈ pre, ∃ s, vm.sessionManager.idToSession id = some s)
    (hbad : vm.sessionManager.idToSession bad = none) :
    ∃ vm1, restoreSessions vm group = some vm1 ∧
      createViewCalls vm1.log =
        createViewCalls vm.log ++ pre.filterMap vm.sessionManager.idToSession ++
          [vm.sessionManager.nextSession] ∧
      vm1.sessionManager.created =
        vm.sessionManager.created ++
          [(vm.sessionManager.nextSession, vm.sessionManager.defaultProfile)] ∧
      (∀ d0, ShowsTabs d0 [] vm →
        ShowsTabs d0
          (pre.filterMap vm.sessionManager.idToSession ++ [vm.sessionManager.nextSession]) vm1) := by
  obtain ⟨vm1, display1, hloop, hready1, hact, hdisp, hcalls, _, hsm, _⟩ :=
    restoreSessionsLoop_resolved (group.active.getD 0) pre 1 none vm hready hres
  have hid : vm1.sessionManager.idToSession bad = none := by
    rw [hsm]
    exact hbad
  have hloop2 : restoreSessionsLoop (group.active.getD 0) (pre ++ bad :: post) 1 none vm =
      some ({ vm1 with log := vm1.log ++ [Effect.qWarningUnableToLoad bad] }, display1, true) := by
    rw [restoreSessionsLoop_append, hloop]
    simp [restoreSessionsLoop, hid]
  have hfocusPre : display1 ≠ none →
      ActiveReady { vm1 with log := vm1.log ++ [Effect.qWarningUnableToLoad bad] } := by
    intro hd
    have hpre : pre ≠ [] := by
      intro hnil
      exact hd (hdisp hnil)
    exact hact hpre
  obtain ⟨vm2, hfocus, hlog, hsm2, hsame, hready2⟩ := refocusRestored_spec _ display1 hfocusPre
  have hres2 := restoreSessions_of_loop vm group _ hgroup _ vm2 display1 true hloop2 hfocus
  simp only [Bool.true_or, if_true] at hres2
  obtain ⟨vm3, hstart, hcreated, hcalls3, _, _, htabs3⟩ :=
    startDefaultProfile_spec vm2 (hready2 hready1)
  have hnext : vm2.sessionManager.nextSession = vm.sessionManager.nextSession := by
    rw [hsm2]
    show vm1.sessionManager.nextSession = _
    rw [hsm]
  have hdef : vm2.sessionManager.defaultProfile = vm.sessionManager.defaultProfile := by
    rw [hsm2]
    show vm1.sessionManager.defaultProfile = _
    rw [hsm]
  have hcr : vm2.sessionManager.created = vm.sessionManager.created := by
    rw [hsm2]
    show vm1.sessionManager.created = _
    rw [hsm]
  refine ⟨vm3, by rw [hres2, hstart], ?_, ?_, ?_⟩
  · rw [hcalls3, hlog, hnext]
    simp only [createViewCalls_append, hcalls]
    simp [createViewCalls]
  · rw [hcreated, hnext, hdef, hcr]
  · intro d0 htabs
    obtain ⟨vm1', hloop', htabs'⟩ :=
      restoreSessionsLoop_showsTabs (group.active.getD 0) pre 1 d0 [] vm htabs hres
    rw [hloop] at hloop'
    simp only [Option.some.injEq, Prod.mk.injEq] at hloop'
    obtain ⟨h1, h2, _⟩ := hloop'
    subst h1
    have hvm2 : vm2 = { vm1 with log := vm1.log ++ [Effect.qWarningUnableToLoad bad] } :=
      hsame h2
    simp only [List.nil_append] at htabs'
    have htabs2 : ShowsTabs d0 (pre.filterMap vm.sessionManager.idToSession) vm2 := by
      rw [hvm2]
      exact htabs'
    rw [← hnext]
    exact htabs3 d0 _ htabs2

theorem splitterReady_freshManager : SplitterReady freshManager :=
  ⟨{}, rfl, Or.inl rfl⟩

theorem showsTabs_freshManager : ShowsTabs 50 [] freshManager :=
  ⟨rfl, rfl, rfl, rfl⟩

/-- C6 (as stated, refuted): the stored list is `[1, 3]`, id 1 resolves to session 100 and
id 3 does not resolve.  After `restoreSessions` in a fresh manager the view created for the
stored id 1 is still there (display 50, mapped to session 100), next to the view of the new
default-profile session 300: `createView` ran twice, not once. -/
theorem restoreSessions_keeps_views_before_unresolved_id :
    twoStoredSessions.idToSession 3 = none ∧
    (restoreSessions freshManager { sessions := some [1, 3] }).map
        (fun vm => (vm.sessionMap, createViewCalls vm.log, vm.sessionManager.created)) =
      some ([(50, some 100), (51, some 300)], [100, 300], [(300, 7)]) := by
  decide

/-- C6 (amended): when the first id of the stored list that does not resolve comes after the
ids `pre`, `restoreSessions` creates a view for each id of `pre`, in order, skips that id and
everything after it, and then creates exactly one session, with the default profile, and one
further view for it; the views of `pre` are not discarded (in a fresh manager the tabs are
those of `pre` followed by the tab of the default session).  When the very first id does
not resolve, the default session's view is the only one created. -/
theorem restoreSessions_falls_back_after_unresolved_id (vm : ViewManager)
    (group : KConfigGroup) (pre : List Int) (bad : Int) (post : List Int)
    (hready : SplitterReady vm) (hgroup : group.sessions = some (pre ++ bad :: post))
    (hres : ∀ id ∈ pre, ∃ s, vm.sessionManager.idToSession id = some s)
    (hbad : vm.sessionManager.idToSession bad = none) :
    ∃ vm1, restoreSessions vm group = some vm1 ∧
      createViewCalls vm1.log =
        createViewCalls vm.log ++ pre.filterMap vm.sessionManager.idToSession ++
          [vm.sessionManager.nextSession] ∧
      (pre.filterMap vm.sessionManager.idToSession).length = pre.length ∧
      vm1.sessionManager.created =
        vm.sessionManager.created ++
          [(vm.sessionManager.nextSession, vm.sessionManager.defaultProfile)] ∧
      (∀ d0, ShowsTabs d0 [] vm →
        ShowsTabs d0
          (pre.filterMap vm.sessionManager.idToSession ++ [vm.sessionManager.nextSession]) vm1) := by
  obtain ⟨vm1, h1, h2, h3, h4⟩ :=
    restoreSessions_unresolved vm group pre bad post hready hgroup hres hbad
  exact ⟨vm1, h1, h2, length_filterMap_resolved vm.sessionManager pre hres, h3, h4⟩

/-- C6 (amended), at a concrete input: the stored list `[1, 3, 2]` in a fresh manager, where
id 3 does not resolve: views are created for session 100 (id 1) and for the new session
300, and none for id 2. -/
theorem restoreSessions_falls_back_after_unresolved_id_witness :
    SplitterReady freshManager ∧
    ∃ vm1, restoreSessions freshManager { sessions := some ([1] ++ 3 :: [2]) } = some vm1 ∧
      createViewCalls vm1.log = [100, 300] := by
  refine ⟨splitterReady_freshManager, ?_⟩
  obtain ⟨vm1, h1, h2, _⟩ :=
    restoreSessions_falls_back_after_unresolved_id freshManager
      { sessions := some ([1] ++ 3 :: [2]) } [1] 3 [2] splitterReady_freshManager rfl
      (fun id hid => by
        have : id = 1 := by simpa using hid
        subst this
        exact ⟨100, by decide⟩)
      (by decide)
  exact ⟨vm1, h1, h2⟩

/-- C7: when the stored entry "Sessions" is absent or the empty list, `restoreSessions`
(in a manager whose splitter is ready) returns after it created exactly one session, with
the default profile, called `createView` exactly once, for that session, and called `run` on
it exactly when it was not running; the session runs afterwards, and in a fresh manager its
tab is the only tab. -/
theorem restoreSessions_without_ids_starts_default_profile (vm : ViewManager)
    (group : KConfigGroup) (hready : SplitterReady vm)
    (hgroup : group.sessions = none ∨ group.sessions = some []) :
    ∃ vm1, restoreSessions vm group = some vm1 ∧
      vm1.sessionManager.created =
        vm.sessionManager.created ++
          [(vm.sessionManager.nextSession, vm.sessionManager.defaultProfile)] ∧
      createViewCalls vm1.log = createViewCalls vm.log ++ [vm.sessionManager.nextSession] ∧
      runCalls vm1.log =
        runCalls vm.log ++
          (if vm.sessionManager.isRunning vm.sessionManager.nextSession then []
           else [vm.sessionManager.nextSession]) ∧
      vm1.sessionManager.isRunning vm.sessionManager.nextSession = true ∧
      (∀ d0, ShowsTabs d0 [] vm → ShowsTabs d0 [vm.sessionManager.nextSession] vm1) := by
  obtain ⟨vm1, h1, h2, h3, h4, h5, h6⟩ := startDefaultProfile_spec vm hready
  refine ⟨vm1, ?_, h2, h3, h4, h5, fun d0 ht => ?_⟩
  · rw [restoreSessions_of_no_ids vm group hgroup, h1]
  · simpa using h6 d0 [] ht

/-- C7, at a concrete input: a fresh manager and a group without the entry "Sessions": the
session 300 is created with the default profile 7, gets the only view, and is run. -/
theorem restoreSessions_without_ids_starts_default_profile_witness :
    SplitterReady freshManager ∧
    ∃ vm1, restoreSessions freshManager {} = some vm1 ∧
      vm1.sessionManager.created = [(300, 7)] ∧ createViewCalls vm1.log = [300] ∧
      runCalls vm1.log = [300] := by
  refine ⟨splitterReady_freshManager, ?_⟩
  obtain ⟨vm1, h1, h2, h3, h4, _⟩ :=
    restoreSessions_without_ids_starts_default_profile freshManager {}
      splitterReady_freshManager (Or.inl rfl)
  exact ⟨vm1, h1, h2, h3, h4⟩

/-- C8: for a non-empty stored list whose ids all resolve, `restoreSessions` (in a manager
whose splitter is ready) returns after it called `createView` exactly once per id, in list
order, and created no session; `run` is called exactly on the resolved sessions that were
not running, once each, so that all of them run afterwards; in a fresh manager the tabs are
those of the ids, in list order. -/
theorem restoreSessions_recreates_tabs_in_order (vm : ViewManager) (group : KConfigGroup)
    (ids : List Int) (hready : SplitterReady vm) (hgroup : group.sessions = some ids)
    (hne : ids ≠ [])
    (hres : ∀ id ∈ ids, ∃ s, vm.sessionManager.idToSession id = some s) :
    ∃ vm1, restoreSessions vm group = some vm1 ∧
      createViewCalls vm1.log =
        createViewCalls vm.log ++ ids.filterMap vm.sessionManager.idToSession ∧
      (ids.filterMap vm.sessionManager.idToSession).length = ids.length ∧
      vm1.sessionManager.created = vm.sessionManager.created ∧
      runCalls vm1.log =
        runCalls vm.log ++
          runsNeeded vm.sessionManager.running (ids.filterMap vm.sessionManager.idToSession) ∧
      (runsNeeded vm.sessionManager.running
        (ids.filterMap vm.sessionManager.idToSession)).Nodup ∧
      (∀ s, s ∈ runsNeeded vm.sessionManager.running
              (ids.filterMap vm.sessionManager.idToSession) ↔
            s ∈ ids.filterMap vm.sessionManager.idToSession ∧
              vm.sessionManager.isRunning s = false) ∧
      (∀ s ∈ ids.filterMap vm.sessionManager.idToSession,
        vm1.sessionManager.isRunning s = true) ∧
      (∀ d0, ShowsTabs d0 [] vm →
        ShowsTabs d0 (ids.filterMap vm.sessionManager.idToSession) vm1) := by
  obtain ⟨vm1, h1, h2, h3, h4, h5, h6⟩ :=
    restoreSessions_resolved vm group ids hready hgroup hne hres
  have hmem := mem_runsNeeded (ids.filterMap vm.sessionManager.idToSession)
    vm.sessionManager.running
  refine ⟨vm1, h1, h2, length_filterMap_resolved vm.sessionManager ids hres, h4, h3,
    nodup_runsNeeded _ _, ?_, ?_, fun d0 ht => (h6 d0 ht).1⟩
  · intro s
    rw [hmem s]
    unfold SessionManager.isRunning
    simp
  · intro s hs
    unfold SessionManager.isRunning
    rw [h5]
    by_cases hrun : s ∈ vm.sessionManager.running
    · simp [hrun]
    · have : s ∈ runsNeeded vm.sessionManager.running
          (ids.filterMap vm.sessionManager.idToSession) := (hmem s).mpr ⟨hs, hrun⟩
      simp [this]

/-- C8, at a concrete input: the stored list `[1, 2]` in a fresh manager: `createView` is
called for the sessions 100 and 200 in this order and both are run. -/
theorem restoreSessions_recreates_tabs_in_order_witness :
    SplitterReady freshManager ∧
    ∃ vm1, restoreSessions freshManager { sessions := some [1, 2], active := some 1 } = some vm1 ∧
      createViewCalls vm1.log = [100, 200] ∧ runCalls vm1.log = [100, 200] ∧
      vm1.sessionManager.created = [] := by
  refine ⟨splitterReady_freshManager, ?_⟩
  obtain ⟨vm1, h1, h2, _, h4, h5, _⟩ :=
    restoreSessions_recreates_tabs_in_order freshManager
      { sessions := some [1, 2], active := some 1 } [1, 2] splitterReady_freshManager rfl
      (by decide)
      (fun id hid => by
        have : id = 1 ∨ id = 2 := by simpa using hid
        rcases this with h | h
        · subst h; exact ⟨100, by decide⟩
        · subst h; exact ⟨200, by decide⟩)
  exact ⟨vm1, h1, h2, h5, h4⟩

/-- C9 (the defect, for every input): in a fresh manager, for every non-empty stored list
whose ids all resolve and every stored "Active" index, after `restoreSessions` the current
tab of the active container is the tab created last; the tab of the `k`-th id with
`1 <= k < n` is never the current one.  The cast of the active view (a pane tree) to a
`TerminalDisplay` gives null, so the refocusing statement never runs. -/
theorem restoreSessions_leaves_last_tab_current (vm : ViewManager) (group : KConfigGroup)
    (ids : List Int) (d0 : TerminalDisplay) (htabs : ShowsTabs d0 [] vm)
    (hgroup : group.sessions = some ids) (hne : ids ≠ [])
    (hres : ∀ id ∈ ids, ∃ s, vm.sessionManager.idToSession id = some s) :
    ∃ vm1, restoreSessions vm group = some vm1 ∧
      ShowsTabs d0 (ids.filterMap vm.sessionManager.idToSession) vm1 ∧
      activeView vm1 = some (some (rootTab d0 (ids.length - 1))) ∧
      (∀ k : Nat, 1 ≤ k → k < ids.length →
        activeView vm1 ≠ some (some (rootTab d0 (k - 1)))) := by
  obtain ⟨vm1, h1, _, _, _, _, h6⟩ :=
    restoreSessions_resolved vm group ids (showsTabs_splitterReady d0 [] vm htabs) hgroup hne hres
  obtain ⟨h7, h8⟩ := h6 d0 htabs
  refine ⟨vm1, h1, h7, h8, ?_⟩
  intro k hk1 hk2 heq
  rw [h8] at heq
  have h9 : d0 + (ids.length - 1) = d0 + (k - 1) := by simpa [rootTab] using heq
  have h10 : ids.length - 1 = k - 1 := Nat.add_left_cancel h9
  omega

/-- C9 (the defect, at the failing input): the stored list `[1, 2]` with "Active" 1 in a
fresh manager: the current tab afterwards is the tab of display 51, created for id 2, and
not the tab of display 50, created for id 1. -/
theorem restoreSessions_leaves_last_tab_current_witness :
    ShowsTabs 50 [] freshManager ∧
    ∃ vm1, restoreSessions freshManager { sessions := some [1, 2], active := some 1 } = some vm1 ∧
      vm1.sessionMap = [(50, some 100), (51, some 200)] ∧
      activeView vm1 = some (some (rootTab 50 1)) ∧
      activeView vm1 ≠ some (some (rootTab 50 0)) := by
  refine ⟨showsTabs_freshManager, ?_⟩
  obtain ⟨vm1, h1, h2, h3, h4⟩ :=
    restoreSessions_leaves_last_tab_current freshManager
      { sessions := some [1, 2], active := some 1 } [1, 2] 50 showsTabs_freshManager rfl
      (by decide)
      (fun id hid => by
        have : id = 1 ∨ id = 2 := by simpa using hid
        rcases this with h | h
        · subst h; exact ⟨100, by decide⟩
        · subst h; exact ⟨200, by decide⟩)
  exact ⟨vm1, h1, h2.2.1, h3, h4 1 (by decide) (by decide)⟩

end ViewManager
end Konsole

namespace Konsole
namespace ViewManager
open QHash

/-- C16: with the splitter alive, `controllerChanged(c)` for a controller other than the
plugged one makes `c` the plugged controller and appends exactly one `activeViewChanged(c)` to
the log; for the plugged controller it returns the state as it was.  In both cases
`activeViewController()` gives `c` afterwards, and a second call with the same `c` changes
nothing, so that two calls in a row notify once. -/
theorem controllerChanged_plugs_and_notifies_once (vm : ViewManager) (vs : ViewSplitter)
    (controller : SessionController) (hvs : vm.viewSplitter = some vs) :
    (some controller ≠ vm.pluggedController →
      controllerChanged vm controller =
        some { vm with pluggedController := some controller
                       log := vm.log ++ [Effect.activeViewChanged controller] }) ∧
    (some controller = vm.pluggedController → controllerChanged vm controller = some vm) ∧
    (∃ vm1, controllerChanged vm controller = some vm1 ∧
      activeViewController vm1 = some controller ∧
      controllerChanged vm1 controller = some vm1 ∧
      (controllerChanged vm controller).bind (fun v => controllerChanged v controller) =
        controllerChanged vm controller ∧
      activeViewChangedSignals vm1.log =
        activeViewChangedSignals vm.log ++
          (if some controller = vm.pluggedController then [] else [controller])) := by
  by_cases h : some controller = vm.pluggedController
  · have h1 : controllerChanged vm controller = some vm := by
      unfold controllerChanged
      simp [h]
    refine ⟨fun hne => absurd h hne, fun _ => h1, vm, h1, h.symm, h1, ?_, ?_⟩
    · rw [h1]
      exact h1
    · simp [h]
  · have h1 : controllerChanged vm controller =
        some { vm with pluggedController := some controller
                       log := vm.log ++ [Effect.activeViewChanged controller] } := by
      unfold controllerChanged
      simp [h, hvs]
    have h2 : controllerChanged
        { vm with pluggedController := some controller
                  log := vm.log ++ [Effect.activeViewChanged controller] } controller =
        some { vm with pluggedController := some controller
                       log := vm.log ++ [Effect.activeViewChanged controller] } := by
      unfold controllerChanged
      simp
    refine ⟨fun _ => h1, fun he => absurd he h, _, h1, rfl, h2, ?_, ?_⟩
    · rw [h1]
      exact h2
    · simp [h, activeViewChangedSignals, List.filterMap_append]

/-- C16, at a concrete state: in `twoTabs` the controller of display 50 is plugged; focus
moves to the controller of display 51. -/
theorem controllerChanged_plugs_and_notifies_once_witness :
    twoTabs.viewSplitter.isSome = true ∧
    (controllerChanged twoTabs { session := some 200, view := 51 }).map
        (fun v => (activeViewController v, activeViewChangedSignals v.log)) =
      some (some { session := some 200, view := 51 }, [{ session := some 200, view := 51 }]) := by
  refine ⟨rfl, ?_⟩
  have h := (controllerChanged_plugs_and_notifies_once twoTabs _
    { session := some 200, view := 51 } rfl).1 (by decide)
  rw [h]
  decide

theorem unplugSignals_append (l₁ l₂ : List Effect) :
    unplugSignals (l₁ ++ l₂) = unplugSignals l₁ ++ unplugSignals l₂ := by
  simp [unplugSignals, List.filterMap_append]

theorem sessionFinishedLoop_unplugSignals (s : Option Session) (ds : List TerminalDisplay)
    (vm : ViewManager) :
    unplugSignals (ds.foldl (sessionFinishedStep s) vm).log = unplugSignals vm.log := by
  induction ds generalizing vm with
  | nil => rfl
  | cons d ds ih =>
    simp only [List.foldl_cons]
    rw [ih, sessionFinishedStep_log, unplugSignals_append]
    split <;> simp [unplugSignals]

/-- C17: with the splitter alive, `sessionFinished` for session `s` emits `unplugController`
exactly when a controller is plugged and its session is `s`, and then once, with that
controller; otherwise it emits none.  The plugged controller itself stays as it was. -/
theorem sessionFinished_unplugs_controller_of_session (vm : ViewManager) (vs : ViewSplitter)
    (s : Session) (hvs : vm.viewSplitter = some vs) :
    unplugSignals (sessionFinished vm (some s)).log =
      unplugSignals vm.log ++
        (match vm.pluggedController with
         | some c => if c.session = some s then [c] else []
         | none => []) ∧
    (sessionFinished vm (some s)).pluggedController = vm.pluggedController := by
  have hp := (sessionFinishedLoop_frame (some s) vs.terminalDisplays vm).2.1
  have hl := sessionFinishedLoop_unplugSignals (some s) vs.terminalDisplays vm
  cases hc : vm.pluggedController with
  | none =>
    have heq : sessionFinished vm (some s) =
        vs.terminalDisplays.foldl (sessionFinishedStep (some s)) vm := by
      unfold sessionFinished
      simp only [hvs, hp, hc]
    rw [heq]
    exact ⟨by simpa using hl, hp.trans hc⟩
  | some c =>
    by_cases hs : c.session = some s
    · have heq : sessionFinished vm (some s) =
          { vs.terminalDisplays.foldl (sessionFinishedStep (some s)) vm with
            log := (vs.terminalDisplays.foldl (sessionFinishedStep (some s)) vm).log ++
              [Effect.unplugController c] } := by
        unfold sessionFinished
        simp only [hvs, hp, hc, hs, if_true]
      rw [heq]
      refine ⟨?_, hp.trans hc⟩
      simp only [hs, if_true]
      rw [unplugSignals_append, hl]
      simp [unplugSignals]
    · have heq : sessionFinished vm (some s) =
          vs.terminalDisplays.foldl (sessionFinishedStep (some s)) vm := by
        unfold sessionFinished
        simp only [hvs, hp, hc, hs, if_false]
      rw [heq]
      exact ⟨by simpa [hs] using hl, hp.trans hc⟩

/-- C17, at a concrete state: in `twoTabs` the plugged controller belongs to session 100;
`sessionFinished` for session 100 unplugs it, `sessionFinished` for session 200 does not. -/
theorem sessionFinished_unplugs_controller_of_session_witness :
    twoTabs.viewSplitter.isSome = true ∧
    unplugSignals (sessionFinished twoTabs (some 100)).log = [{ session := some 100, view := 50 }] ∧
    unplugSignals (sessionFinished twoTabs (some 200)).log = [] :=
  ⟨rfl,
   (sessionFinished_unplugs_controller_of_session twoTabs _ 100 rfl).1,
   (sessionFinished_unplugs_controller_of_session twoTabs _ 200 rfl).1⟩

/-- C18: `colorSchemeForProfile(profile)` gives the scheme registered under the name of the
profile's colour scheme when there is one, and otherwise the default scheme; when a default
scheme exists the result is not null, and `profileHasBlurEnabled` and `applyProfileToView`
return, whatever the name. -/
theorem colorSchemeForProfile_falls_back_to_default (csm : ColorSchemeManager)
    (profile : ProfileInfo) (vm : ViewManager) (view : TerminalDisplay) :
    (∀ c, csm.findColorScheme profile.colorScheme = some c →
      colorSchemeForProfile csm profile = some c ∧ c ∈ csm.colorSchemes ∧
        c.name = profile.colorScheme) ∧
    (csm.findColorScheme profile.colorScheme = none →
      colorSchemeForProfile csm profile = csm.defaultColorScheme) ∧
    ((∀ c ∈ csm.colorSchemes, c.name ≠ profile.colorScheme) →
      colorSchemeForProfile csm profile = csm.defaultColorScheme) ∧
    (∀ d, csm.defaultColorScheme = some d →
      ∃ c, colorSchemeForProfile csm profile = some c ∧
        profileHasBlurEnabled csm profile = some c.blur ∧
        applyProfileToView vm csm view profile =
          some { vm with log := vm.log ++ [Effect.updateWindowIcon,
            Effect.blurSettingChanged c.blur] }) := by
  have hnone : csm.findColorScheme profile.colorScheme = none →
      colorSchemeForProfile csm profile = csm.defaultColorScheme := by
    intro h
    unfold colorSchemeForProfile
    rw [h]
  refine ⟨?_, hnone, ?_, ?_⟩
  · intro c hc
    refine ⟨?_, ?_, ?_⟩
    · unfold colorSchemeForProfile
      rw [hc]
    · exact List.mem_of_find?_eq_some hc
    · have := List.find?_some hc
      simpa using this
  · intro hall
    apply hnone
    unfold ColorSchemeManager.findColorScheme
    rw [List.find?_eq_none]
    intro c hc
    simpa using hall c hc
  · intro d hd
    have hex : ∃ c, colorSchemeForProfile csm profile = some c := by
      unfold colorSchemeForProfile
      cases hf : csm.findColorScheme profile.colorScheme with
      | some c => exact ⟨c, rfl⟩
      | none => exact ⟨d, hd⟩
    obtain ⟨c, hc⟩ := hex
    refine ⟨c, hc, ?_, ?_⟩
    · unfold profileHasBlurEnabled
      rw [hc]
      rfl
    · unfold applyProfileToView
      simp [hc]

end ViewManager
end Konsole

namespace Konsole
namespace ViewManager
open QHash

theorem profileNamed_first (pre : List (Profile × String)) (i : Profile × String)
    (post : List (Profile × String)) (profile : String) (profileptr : Profile)
    (hi : i.2 = profile) (hpre : ∀ j ∈ pre, j.2 ≠ profile) :
    profileNamed (pre ++ i :: post) profile profileptr = i.1 := by
  induction pre with
  | nil => simp [profileNamed, hi]
  | cons j pre ih =>
    have hj : j.2 ≠ profile := hpre j (List.mem_cons_self _ _)
    simp only [List.cons_append, profileNamed, hj, if_false]
    exact ih (fun k hk => hpre k (List.mem_cons_of_mem _ hk))

theorem profileNamed_none (allProfiles : List (Profile × String)) (profile : String)
    (profileptr : Profile) (hall : ∀ j ∈ allProfiles, j.2 ≠ profile) :
    profileNamed allProfiles profile profileptr = profileptr := by
  induction allProfiles with
  | nil => rfl
  | cons j l ih =>
    have hj : j.2 ≠ profile := hall j (List.mem_cons_self _ _)
    simp only [profileNamed, hj, if_false]
    exact ih (fun k hk => hall k (List.mem_cons_of_mem _ hk))

/-- The common end of the `newSession` overloads returns when the splitter is ready: one
`createView` call and one `run` call for the session, whose id is the result. -/
theorem startNewSession_spec (vm : ViewManager) (sessionId : Session → Int) (session : Session)
    (hready : SplitterReady vm) :
    ∃ vm1, startNewSession vm sessionId session = some (sessionId session, vm1) ∧
      createViewCalls vm1.log = createViewCalls vm.log ++ [session] ∧
      runCalls vm1.log = runCalls vm.log ++ [session] ∧
      vm1.sessionManager.created = vm.sessionManager.created ∧
      vm1.sessionManager.isRunning session = true ∧
      vm1.sessionManager.environment =
        vm.sessionManager.environment ++ [(session, dbusWindowEntry vm)] ∧
      vm1.sessionManager.initialWorkingDirectory =
        vm.sessionManager.initialWorkingDirectory := by
  have hready1 : SplitterReady { vm with
      sessionManager :=
        vm.sessionManager.addEnvironmentEntry session (dbusWindowEntry vm) } := hready
  obtain ⟨vm2, hcv, _, hcalls, hruns, _, hsm⟩ := createView_frame _ session hready1
  refine ⟨{ vm2 with sessionManager := vm2.sessionManager.run session
                     log := vm2.log ++ [Effect.run session] }, ?_, ?_, ?_, ?_, ?_, ?_, ?_⟩
  · unfold startNewSession
    simp only [Option.bind_eq_bind, hcv, Option.some_bind]
  · simp only [createViewCalls_append, hcalls]
    simp [createViewCalls]
  · simp only [runCalls_append, hruns]
    simp [runCalls]
  · show (vm2.sessionManager.run session).created = _
    rw [hsm]
    rfl
  · show (vm2.sessionManager.run session).isRunning session = true
    simp [SessionManager.isRunning, SessionManager.run]
  · show (vm2.sessionManager.run session).environment = _
    rw [hsm]
    rfl
  · show (vm2.sessionManager.run session).initialWorkingDirectory = _
    rw [hsm]
    rfl

theorem currentSessionLoop_spec (isVisible : TerminalDisplay → Bool) (sessionId : Session → Int)
    (hid : ∀ s, 0 ≤ sessionId s) (m : SessionMap)
    (hm : ∀ e ∈ m, isVisible e.1 = true → e.2 ≠ none) :
    ∃ r, currentSessionLoop isVisible sessionId m = some r ∧
      (r = -1 ↔ ∀ e ∈ m, isVisible e.1 = false) ∧
      (r ≠ -1 → ∃ d s, (d, some s) ∈ m ∧ isVisible d = true ∧ r = sessionId s) := by
  induction m with
  | nil => exact ⟨-1, rfl, by simp, fun h => absurd rfl h⟩
  | cons e m ih =>
    by_cases hv : isVisible e.1 = true
    · have hne := hm e (List.mem_cons_self _ _) hv
      obtain ⟨s, hs⟩ := Option.ne_none_iff_exists'.mp hne
      refine ⟨sessionId s, ?_, ?_, ?_⟩
      · simp [currentSessionLoop, hv, hs]
      · constructor
        · intro h
          have := hid s
          omega
        · intro h
          have := h e (List.mem_cons_self _ _)
          rw [hv] at this
          exact absurd this (by simp)
      · intro _
        refine ⟨e.1, s, ?_, hv, rfl⟩
        rw [← hs]
        exact List.mem_cons_self _ _
    · obtain ⟨r, h1, h2, h3⟩ := ih (fun e' he' => hm e' (List.mem_cons_of_mem _ he'))
      have hv2 : isVisible e.1 = false := by simpa using hv
      refine ⟨r, ?_, ?_, ?_⟩
      · simp [currentSessionLoop, hv2, h1]
      · rw [h2]
        constructor
        · intro h e' he'
          rcases List.mem_cons.mp he' with h4 | h4
          · rw [h4]; exact hv2
          · exact h e' h4
        · intro h e' he'
          exact h e' (List.mem_cons_of_mem _ he')
      · intro hr
        obtain ⟨d, s, hmem, hvis, hrs⟩ := h3 hr
        exact ⟨d, s, List.mem_cons_of_mem _ hmem, hvis, hrs⟩

theorem currentSessionLoop_null (isVisible : TerminalDisplay → Bool) (sessionId : Session → Int)
    (pre : SessionMap) (d : TerminalDisplay) (post : SessionMap)
    (hpre : ∀ e ∈ pre, isVisible e.1 = false) (hd : isVisible d = true) :
    currentSessionLoop isVisible sessionId (pre ++ (d, none) :: post) = none := by
  induction pre with
  | nil => simp [currentSessionLoop, hd]
  | cons e pre ih =>
    have he := hpre e (List.mem_cons_self _ _)
    simp only [List.cons_append, currentSessionLoop, he, Bool.false_eq_true, if_false]
    exact ih (fun e' he' => hpre e' (List.mem_cons_of_mem _ he'))

/-- C20 (what holds, and the defect): session ids being non-negative, on a session map in
which no visible display has a null session `currentSession()` returns, it returns -1
exactly when no display of the map is visible, and otherwise the id of the session of a
visible display of the map.  When the first visible display met in the map has a null
session, the null pointer is dereferenced: the function does not return. -/
theorem currentSession_dereferences_null_session (vm : ViewManager)
    (isVisible : TerminalDisplay → Bool) (sessionId : Session → Int)
    (hid : ∀ s, 0 ≤ sessionId s) :
    ((∀ e ∈ vm.sessionMap, isVisible e.1 = true → e.2 ≠ none) →
      ∃ r, currentSession vm isVisible sessionId = some r ∧
        (r = -1 ↔ ∀ e ∈ vm.sessionMap, isVisible e.1 = false) ∧
        (r ≠ -1 → ∃ d s, (d, some s) ∈ vm.sessionMap ∧ isVisible d = true ∧
          r = sessionId s)) ∧
    (∀ pre d post, vm.sessionMap = pre ++ (d, none) :: post →
      (∀ e ∈ pre, isVisible e.1 = false) → isVisible d = true →
      currentSession vm isVisible sessionId = none) := by
  constructor
  · intro hm
    exact currentSessionLoop_spec isVisible sessionId hid vm.sessionMap hm
  · intro pre d post hsplit hpre hd
    unfold currentSession
    rw [hsplit]
    exact currentSessionLoop_null isVisible sessionId pre d post hpre hd

/-- C20 (the defect, at the failing input): after the two `sessionFinished` calls on
`twoSessions` the session map is `1 -> null`; with display 1 visible, `currentSession()`
dereferences the null session instead of returning an id. -/
theorem currentSession_dereferences_null_session_witness :
    (sessionFinished (sessionFinished twoSessions (some 10)) (some 20)).sessionMap = [(1, none)] ∧
    currentSession (sessionFinished (sessionFinished twoSessions (some 10)) (some 20))
      (fun d => d == 1) (fun s => (s : Int)) = none :=
  ⟨by decide,
   (currentSession_dereferences_null_session
      (sessionFinished (sessionFinished twoSessions (some 10)) (some 20))
      (fun d => d == 1) (fun s => (s : Int)) (fun s => Int.ofNat_nonneg s)).2
      [] 1 [] (by decide) (by simp) rfl⟩

end ViewManager
end Konsole

namespace Konsole
namespace ViewManager
open QHash

theorem insert_of_not_contains (m : SessionMap) (k : TerminalDisplay) (v : Option Session)
    (h : contains m k = false) : QHash.insert m k v = m ++ [(k, v)] := by
  unfold QHash.insert
  simp [h]

theorem find_eq_none_of_not_contains (m : SessionMap) (k : TerminalDisplay)
    (h : contains m k = false) : find m k = none := by
  apply find_eq_none_of_not_mem_keys
  intro hk
  unfold keys at hk
  rw [List.mem_map] at hk
  obtain ⟨e, he, hek⟩ := hk
  have : contains m k = true := by
    unfold contains
    rw [List.any_eq_true]
    exact ⟨e, he, by simpa using hek⟩
  rw [h] at this
  exact Bool.noConfusion this

theorem viewsOf_addView (sm : SessionManager) (s : Session) (d : TerminalDisplay) :
    (sm.addView s d).viewsOf s = sm.viewsOf s ++ [d] := by
  simp [SessionManager.addView, SessionManager.viewsOf, List.filter_append]

theorem setCurrentWidget_tabs (c : TabbedViewContainer) (w : QWidget) :
    (c.setCurrentWidget w).tabs = c.tabs := by
  unfold TabbedViewContainer.setCurrentWidget
  split <;> rfl

theorem placed_tabs (c : TabbedViewContainer) (w : QWidget) (index : Int) (active : Prop)
    [Decidable active] :
    (if active then (c.addView w index).setCurrentWidget w else c.addView w index).tabs =
      (c.addView w index).tabs := by
  split
  · exact setCurrentWidget_tabs _ _
  · rfl

/-- The state that `createView(session, container, index)` produces, field by field. -/
theorem createViewIn_spec (vm : ViewManager) (vs : ViewSplitter) (s : Session)
    (container : Nat) (index : Int) (c : TabbedViewContainer)
    (hvs : vm.viewSplitter = some vs) (hc : vs.containers.get? container = some c) :
    ∃ vm1, createViewIn vm s container index = some vm1 ∧
      vm1.sessionMap = QHash.insert vm.sessionMap vm.nextDisplay (some s) ∧
      vm1.nextDisplay = vm.nextDisplay + 1 ∧
      vm1.sessionManager = vm.sessionManager.addView s vm.nextDisplay ∧
      vm1.viewSplitter = some { vs with
        containers := vs.containers.set container
          (if container = vs.active then
            (c.addView (QWidget.multiTerminalDisplay (MultiTerminalDisplay.leaf vm.nextDisplay))
              index).setCurrentWidget
                (QWidget.multiTerminalDisplay (MultiTerminalDisplay.leaf vm.nextDisplay))
           else
            c.addView (QWidget.multiTerminalDisplay (MultiTerminalDisplay.leaf vm.nextDisplay))
              index)
        terminalDisplays := vs.terminalDisplays ++ [vm.nextDisplay] } ∧
      vm1.newTabBehavior = vm.newTabBehavior := by
  unfold createViewIn createController controllerChanged
  cases hp : vm.pluggedController with
  | none =>
    simp only [hp, hvs, Option.map_some', Option.bind_eq_bind, Option.some_bind, hc,
      reduceCtorEq, if_false]
    exact ⟨_, rfl, rfl, rfl, rfl, rfl, rfl⟩
  | some pc =>
    simp only [hp, hvs, Option.bind_eq_bind, Option.some_bind, hc]
    exact ⟨_, rfl, rfl, rfl, rfl, rfl, rfl⟩

theorem addView_tabs (c : TabbedViewContainer) (w : QWidget) (index : Int) :
    (c.addView w index).tabs =
      c.tabs.take (if index < 0 ∨ (c.tabs.length : Int) < index then c.tabs.length
        else index.toNat) ++
      w :: c.tabs.drop (if index < 0 ∨ (c.tabs.length : Int) < index then c.tabs.length
        else index.toNat) := rfl

/-- C14: in a manager with a live splitter, for a container of the splitter and a display
address that is not yet a key of the session map, `createView(s, c, i)` returns after it
added exactly the entry `d -> s` for the new display `d` to the session map (every other
entry is as before and `sessionCount` grew by 1), attached `d` to `s`, and inserted exactly
one tab, the root pane of `d`, into `c`: at index `i` when `0 <= i <= count`, and at the end
when `i` is `-1` or out of range.  The other containers are untouched. -/
theorem createViewIn_adds_one_entry_and_one_tab (vm : ViewManager) (vs : ViewSplitter)
    (s : Session) (container : Nat) (index : Int) (c : TabbedViewContainer)
    (hvs : vm.viewSplitter = some vs) (hc : vs.containers.get? container = some c)
    (hfresh : contains vm.sessionMap vm.nextDisplay = false) :
    ∃ vm1 vs1 c1, createViewIn vm s container index = some vm1 ∧
      vm1.sessionMap = vm.sessionMap ++ [(vm.nextDisplay, some s)] ∧
      find vm1.sessionMap vm.nextDisplay = some (some s) ∧
      (∀ k, k ≠ vm.nextDisplay → find vm1.sessionMap k = find vm.sessionMap k) ∧
      sessionCount vm1 = sessionCount vm + 1 ∧
      vm1.sessionManager.viewsOf s = vm.sessionManager.viewsOf s ++ [vm.nextDisplay] ∧
      vm1.viewSplitter = some vs1 ∧ vs1.containers = vs.containers.set container c1 ∧
      c1.tabs.length = c.tabs.length + 1 ∧
      (0 ≤ index → index ≤ c.tabs.length →
        c1.tabs = c.tabs.take index.toNat ++
          QWidget.multiTerminalDisplay (MultiTerminalDisplay.leaf vm.nextDisplay) ::
            c.tabs.drop index.toNat ∧
        c1.tabs.get? index.toNat =
          some (QWidget.multiTerminalDisplay (MultiTerminalDisplay.leaf vm.nextDisplay))) ∧
      ((index < 0 ∨ (c.tabs.length : Int) < index) →
        c1.tabs = c.tabs ++
          [QWidget.multiTerminalDisplay (MultiTerminalDisplay.leaf vm.nextDisplay)]) := by
  obtain ⟨vm1, h1, h2, _, h4, h5, _⟩ := createViewIn_spec vm vs s container index c hvs hc
  have hmap : vm1.sessionMap = vm.sessionMap ++ [(vm.nextDisplay, some s)] := by
    rw [h2, insert_of_not_contains _ _ _ hfresh]
  have hnone := find_eq_none_of_not_contains _ _ hfresh
  refine ⟨vm1, _, _, h1, hmap, ?_, ?_, ?_, ?_, h5, rfl, ?_, ?_, ?_⟩
  · rw [hmap, find_append_single, hnone]
    simp
  · intro k hk
    rw [hmap, find_append_single]
    have hk2 : ¬ vm.nextDisplay = k := fun h => hk h.symm
    cases hf : find vm.sessionMap k <;> simp [hk2]
  · simp [sessionCount, hmap]
  · rw [h4, viewsOf_addView]
  · rw [placed_tabs, addView_tabs]
    simp only [List.length_append, List.length_cons, List.length_take, List.length_drop]
    split <;> omega
  · intro h0 hle
    have hcond : ¬ (index < 0 ∨ (c.tabs.length : Int) < index) := by omega
    have htabs : (if container = vs.active then
          (c.addView (QWidget.multiTerminalDisplay (MultiTerminalDisplay.leaf vm.nextDisplay))
            index).setCurrentWidget
              (QWidget.multiTerminalDisplay (MultiTerminalDisplay.leaf vm.nextDisplay))
         else
          c.addView (QWidget.multiTerminalDisplay (MultiTerminalDisplay.leaf vm.nextDisplay))
            index).tabs =
        c.tabs.take index.toNat ++
          QWidget.multiTerminalDisplay (MultiTerminalDisplay.leaf vm.nextDisplay) ::
            c.tabs.drop index.toNat := by
      rw [placed_tabs, addView_tabs]
      simp only [hcond, if_false]
    refine ⟨htabs, ?_⟩
    rw [htabs]
    have hlen : (c.tabs.take index.toNat).length = index.toNat := by
      rw [List.length_take]
      omega
    rw [List.get?_eq_getElem?, List.getElem?_append_right (by omega)]
    simp [hlen]
  · intro hcond
    rw [placed_tabs, addView_tabs]
    simp only [hcond, if_true, List.take_length, List.drop_length]

end ViewManager
end Konsole

namespace Konsole
namespace ViewManager
open QHash

theorem keys_append_single (m : SessionMap) (k : TerminalDisplay) (v : Option Session) :
    keys (m ++ [(k, v)]) = keys m ++ [k] := by
  simp [keys]

theorem not_contains_of_fresh (vm : ViewManager) (h : AddressesFresh vm) :
    contains vm.sessionMap vm.nextDisplay = false := by
  rw [Bool.eq_false_iff]
  intro hc
  unfold contains at hc
  rw [List.any_eq_true] at hc
  obtain ⟨e, he, hek⟩ := hc
  have hk : e.1 ∈ keys vm.sessionMap := List.mem_map_of_mem _ he
  have hlt := h e.1 hk
  have heq : e.1 = vm.nextDisplay := by simpa using hek
  rw [heq] at hlt
  exact Nat.lt_irrefl _ hlt

theorem rootTab_zero (d : TerminalDisplay) :
    rootTab d 0 = QWidget.multiTerminalDisplay (MultiTerminalDisplay.leaf d) := rfl

theorem rootTab_succ (d : TerminalDisplay) (i : Nat) : rootTab (d + 1) i = rootTab d (i + 1) := by
  unfold rootTab
  have h : d + 1 + i = d + (i + 1) := by
    rw [Nat.add_assoc, Nat.add_comm 1 i]
  rw [h]

theorem range_map_shift (d : TerminalDisplay) (s : Session) (m : Nat) :
    (d, some s) :: (List.range m).map (fun j => ((d + 1 + j : TerminalDisplay), some s)) =
      (List.range (m + 1)).map (fun j => ((d + j : TerminalDisplay), some s)) := by
  rw [List.range_succ_eq_map]
  simp only [List.map_cons, List.map_map]
  congr 1
  apply List.map_congr_left
  intro j _
  simp only [Function.comp]
  have h : d + 1 + j = d + (j + 1) := by
    rw [Nat.add_assoc, Nat.add_comm 1 j]
  rw [h]

/-- The loop of `createView(session)` over the containers `k, ..., k + m - 1`: one display,
one entry and one tab per container, in this order. -/
theorem createViewLoop_spec (s : Session) (index : Int) (m : Nat) :
    ∀ (k : Nat) (vm : ViewManager) (vs : ViewSplitter), vm.viewSplitter = some vs →
      k + m ≤ vs.containers.length → AddressesFresh vm →
      ∃ vm1 vs1, (List.range' k m).foldlM (fun v c => createViewIn v s c index) vm = some vm1 ∧
        vm1.viewSplitter = some vs1 ∧
        vs1.containers.length = vs.containers.length ∧ vs1.active = vs.active ∧
        vm1.nextDisplay = vm.nextDisplay + m ∧
        vm1.sessionMap =
          vm.sessionMap ++ (List.range m).map (fun j => (vm.nextDisplay + j, some s)) ∧
        (∀ j, j < k ∨ k + m ≤ j → vs1.containers.get? j = vs.containers.get? j) ∧
        (∀ j c, k ≤ j → j < k + m → vs.containers.get? j = some c →
          ∃ c1, vs1.containers.get? j = some c1 ∧
            c1.tabs = (c.addView (rootTab vm.nextDisplay (j - k)) index).tabs) := by
  induction m with
  | zero =>
    intro k vm vs hvs _ _
    refine ⟨vm, vs, rfl, hvs, rfl, rfl, rfl, by simp, fun _ _ => rfl, ?_⟩
    intro j c h1 h2
    omega
  | succ m ih =>
    intro k vm vs hvs hk hfresh
    have hklt : k < vs.containers.length := by omega
    have hc : vs.containers.get? k = some (vs.containers.get ⟨k, hklt⟩) := List.get?_eq_get hklt
    obtain ⟨vm', h1, h2, h3, _, h5, _⟩ := createViewIn_spec vm vs s k index _ hvs hc
    have htabs2 := placed_tabs (vs.containers.get ⟨k, hklt⟩)
      (QWidget.multiTerminalDisplay (MultiTerminalDisplay.leaf vm.nextDisplay)) index
      (k = vs.active)
    generalize (if k = vs.active then
        ((vs.containers.get ⟨k, hklt⟩).addView
          (QWidget.multiTerminalDisplay (MultiTerminalDisplay.leaf vm.nextDisplay))
          index).setCurrentWidget
            (QWidget.multiTerminalDisplay (MultiTerminalDisplay.leaf vm.nextDisplay))
       else
        (vs.containers.get ⟨k, hklt⟩).addView
          (QWidget.multiTerminalDisplay (MultiTerminalDisplay.leaf vm.nextDisplay))
          index) = c2 at h5 htabs2
    have hnc := not_contains_of_fresh vm hfresh
    have hmap' : vm'.sessionMap = vm.sessionMap ++ [(vm.nextDisplay, some s)] := by
      rw [h2, insert_of_not_contains _ _ _ hnc]
    have hfresh' : AddressesFresh vm' := by
      intro key hkey
      rw [hmap', keys_append_single, List.mem_append] at hkey
      rw [h3]
      rcases hkey with hkey | hkey
      · exact Nat.lt_succ_of_lt (hfresh key hkey)
      · have : key = vm.nextDisplay := by simpa using hkey
        rw [this]
        exact Nat.lt_succ_self _
    obtain ⟨vm1, vs1, i1, i2, i3, i4, i5, i6, i7, i8⟩ :=
      ih (k + 1) vm' _ h5 (by simp only [List.length_set]; omega) hfresh'
    refine ⟨vm1, vs1, ?_, i2, ?_, i4, ?_, ?_, ?_, ?_⟩
    · rw [List.range'_succ]
      simp only [List.foldlM_cons, Option.bind_eq_bind, h1, Option.some_bind]
      exact i1
    · rw [i3]
      simp
    · rw [i5, h3, Nat.add_assoc, Nat.add_comm 1 m]
    · rw [i6, hmap', h3, List.append_assoc]
      congr 1
      exact range_map_shift vm.nextDisplay s m
    · intro j hj
      rw [i7 j (by omega)]
      simp only [List.get?_eq_getElem?]
      exact List.getElem?_set_ne (by omega)
    · intro j c hkj hjlt hcj
      by_cases hjk : j = k
      · subst hjk
        rw [i7 j (by omega)]
        rw [hc] at hcj
        have hceq : vs.containers.get ⟨j, hklt⟩ = c := Option.some.inj hcj
        refine ⟨c2, ?_, ?_⟩
        · simp only [List.get?_eq_getElem?]
          rw [List.getElem?_set]
          simp only [if_true, hklt]
        · rw [htabs2, hceq, Nat.sub_self, rootTab_zero]
      · have hcj' : (vs.containers.set k c2).get? j = some c := by
          simp only [List.get?_eq_getElem?] at hcj ⊢
          rw [List.getElem?_set_ne (fun h => hjk h.symm)]
          exact hcj
        obtain ⟨c1, hc1, htabs⟩ := i8 j c (by omega) (by omega) hcj'
        refine ⟨c1, hc1, ?_⟩
        rw [htabs, h3, rootTab_succ]
        have : j - (k + 1) + 1 = j - k := by omega
        rw [this]

end ViewManager
end Konsole

namespace Konsole
namespace ViewManager
open QHash

/-- What `createView(session)` does to the splitter and to the session map: a first container
is made when there is none, one tab index is chosen, and every container gets one new
display, one entry and one tab. -/
theorem createView_spec (vm : ViewManager) (vs : ViewSplitter) (s : Session)
    (hvs : vm.viewSplitter = some vs)
    (hready : vs.containers.length = 0 ∨ vs.active < vs.containers.length)
    (hfresh : AddressesFresh vm) :
    ∃ vm1 vs1 index, createView vm s = some vm1 ∧ vm1.viewSplitter = some vs1 ∧
      (vm.newTabBehavior = NewTabBehavior.PutNewTabAtTheEnd → index = -1) ∧
      (vm.newTabBehavior = NewTabBehavior.PutNewTabAfterCurrentTab →
        ∀ c, (if vs.containers.length = 0 then vs.addContainer createContainer Orientation.Vertical
              else vs).activeContainer = some c → index = c.currentIndex + 1) ∧
      vs1.containers.length =
        (if vs.containers.length = 0 then vs.addContainer createContainer Orientation.Vertical
         else vs).containers.length ∧
      vs1.active =
        (if vs.containers.length = 0 then vs.addContainer createContainer Orientation.Vertical
         else vs).active ∧
      vm1.nextDisplay = vm.nextDisplay + vs1.containers.length ∧
      vm1.sessionMap =
        vm.sessionMap ++
          (List.range vs1.containers.length).map (fun j => (vm.nextDisplay + j, some s)) ∧
      (∀ j c,
        (if vs.containers.length = 0 then vs.addContainer createContainer Orientation.Vertical
         else vs).containers.get? j = some c →
        ∃ c1, vs1.containers.get? j = some c1 ∧
          c1.tabs = (c.addView (rootTab vm.nextDisplay j) index).tabs) := by
  have key : ∀ (vs0 : ViewSplitter) (index : Int),
      ∃ vm1 vs1, (List.range vs0.containers.length).foldlM
          (fun v c => createViewIn v s c index)
          { vm with log := vm.log ++ [Effect.qInfoCreateView s]
                    viewSplitter := some vs0 } = some vm1 ∧
        vm1.viewSplitter = some vs1 ∧
        vs1.containers.length = vs0.containers.length ∧ vs1.active = vs0.active ∧
        vm1.nextDisplay = vm.nextDisplay + vs1.containers.length ∧
        vm1.sessionMap =
          vm.sessionMap ++
            (List.range vs1.containers.length).map (fun j => (vm.nextDisplay + j, some s)) ∧
        (∀ j c, vs0.containers.get? j = some c →
          ∃ c1, vs1.containers.get? j = some c1 ∧
            c1.tabs = (c.addView (rootTab vm.nextDisplay j) index).tabs) := by
    intro vs0 index
    obtain ⟨vm1, vs1, h1, h2, h3, h4, h5, h6, _, h8⟩ :=
      createViewLoop_spec s index vs0.containers.length 0
        { vm with log := vm.log ++ [Effect.qInfoCreateView s]
                  viewSplitter := some vs0 } vs0 rfl (by omega) hfresh
    refine ⟨vm1, vs1, ?_, h2, h3, h4, ?_, ?_, ?_⟩
    · rw [List.range_eq_range']
      exact h1
    · rw [h3]
      exact h5
    · rw [h3]
      exact h6
    · intro j c hc
      have hj : j < vs0.containers.length := by
        rw [List.get?_eq_getElem?] at hc
        exact (List.getElem?_eq_some.mp hc).1
      exact h8 j c (Nat.zero_le _) (by omega) hc
  unfold createView
  simp only [hvs, Option.bind_eq_bind, Option.some_bind]
  by_cases hz : vs.containers.length = 0
  · have hnil : vs.containers = [] := List.length_eq_zero.mp hz
    have hac : (vs.addContainer createContainer Orientation.Vertical).activeContainer =
        some createContainer := by
      simp [ViewSplitter.addContainer, ViewSplitter.activeContainer, hnil]
    simp only [hz, if_true, hac, Option.map_some', Option.some_bind]
    by_cases hb : vm.newTabBehavior = NewTabBehavior.PutNewTabAfterCurrentTab
    · rw [if_pos hb]
      obtain ⟨vm1, vs1, h1, h2, h3, h4, h5, h6, h7⟩ :=
        key (vs.addContainer createContainer Orientation.Vertical)
          (createContainer.currentIndex + 1)
      refine ⟨vm1, vs1, _, h1, h2, fun h => ?_, fun _ c hc => ?_, h3, h4, h5, h6, h7⟩
      · rw [hb] at h
        exact absurd h (by decide)
      · rw [← Option.some.inj hc]
    · rw [if_neg hb]
      obtain ⟨vm1, vs1, h1, h2, h3, h4, h5, h6, h7⟩ :=
        key (vs.addContainer createContainer Orientation.Vertical) (-1)
      exact ⟨vm1, vs1, _, h1, h2, fun _ => rfl, fun h => absurd h hb, h3, h4, h5, h6, h7⟩
  · have hlt : vs.active < vs.containers.length := by
      rcases hready with h | h
      · exact absurd h hz
      · exact h
    have hac : vs.activeContainer = some (vs.containers.get ⟨vs.active, hlt⟩) := by
      unfold ViewSplitter.activeContainer
      rw [List.get?_eq_get hlt]
    simp only [hz, if_false, hac, Option.map_some', Option.some_bind]
    by_cases hb : vm.newTabBehavior = NewTabBehavior.PutNewTabAfterCurrentTab
    · rw [if_pos hb]
      obtain ⟨vm1, vs1, h1, h2, h3, h4, h5, h6, h7⟩ :=
        key vs ((vs.containers.get ⟨vs.active, hlt⟩).currentIndex + 1)
      refine ⟨vm1, vs1, _, h1, h2, fun h => ?_, fun _ c hc => ?_, h3, h4, h5, h6, h7⟩
      · rw [hb] at h
        exact absurd h (by decide)
      · rw [← Option.some.inj hc]
    · rw [if_neg hb]
      obtain ⟨vm1, vs1, h1, h2, h3, h4, h5, h6, h7⟩ := key vs (-1)
      exact ⟨vm1, vs1, _, h1, h2, fun _ => rfl, fun h => absurd h hb, h3, h4, h5, h6, h7⟩

end ViewManager
end Konsole

namespace Konsole
namespace ViewManager
open QHash

/-- C14, at a concrete input: in `twoTabs` a view for session 100 is created in the only
container at index 1, between the two tabs; display 52 is new to the session map. -/
theorem createViewIn_adds_one_entry_and_one_tab_witness :
    contains twoTabs.sessionMap twoTabs.nextDisplay = false ∧
    ∃ vm1 vs1 c1, createViewIn twoTabs 100 0 1 = some vm1 ∧
      vm1.sessionMap = twoTabs.sessionMap ++ [(twoTabs.nextDisplay, some 100)] ∧
      find vm1.sessionMap twoTabs.nextDisplay = some (some 100) ∧
      (∀ k, k ≠ twoTabs.nextDisplay → find vm1.sessionMap k = find twoTabs.sessionMap k) ∧
      sessionCount vm1 = sessionCount twoTabs + 1 ∧
      vm1.sessionManager.viewsOf 100 = twoTabs.sessionManager.viewsOf 100 ++ [twoTabs.nextDisplay] ∧
      vm1.viewSplitter = some vs1 ∧
      vs1.containers =
        [{ tabs := [rootTab 50 0, rootTab 50 1], currentIndex := 1 }].set 0 c1 ∧
      c1.tabs.length = [rootTab 50 0, rootTab 50 1].length + 1 ∧
      ((0 : Int) ≤ 1 → (1 : Int) ≤ [rootTab 50 0, rootTab 50 1].length →
        c1.tabs = [rootTab 50 0, rootTab 50 1].take (1 : Int).toNat ++
          QWidget.multiTerminalDisplay (MultiTerminalDisplay.leaf twoTabs.nextDisplay) ::
            [rootTab 50 0, rootTab 50 1].drop (1 : Int).toNat ∧
        c1.tabs.get? (1 : Int).toNat =
          some (QWidget.multiTerminalDisplay (MultiTerminalDisplay.leaf twoTabs.nextDisplay))) ∧
      (((1 : Int) < 0 ∨ (([rootTab 50 0, rootTab 50 1].length : Nat) : Int) < 1) →
        c1.tabs = [rootTab 50 0, rootTab 50 1] ++
          [QWidget.multiTerminalDisplay (MultiTerminalDisplay.leaf twoTabs.nextDisplay)]) :=
  ⟨by decide,
   createViewIn_adds_one_entry_and_one_tab twoTabs
    { containers := [{ tabs := [rootTab 50 0, rootTab 50 1], currentIndex := 1 }]
      active := 0
      terminalDisplays := [50, 51]
      orientation := Orientation.Vertical } 100 0 1
    { tabs := [rootTab 50 0, rootTab 50 1], currentIndex := 1 } rfl rfl (by decide)⟩

/-- C15, counterexample: in a manager split into two containers, of which the second is the
active one, `createView(200)` allocates two displays (52 and 53), registers two entries, and
also puts a new tab into the first container, which is not the active one. -/
theorem createView_adds_view_to_every_container :
    ∃ vm1 vs1, createView splitManager 200 = some vm1 ∧
      sessionCount splitManager = 2 ∧ sessionCount vm1 = 4 ∧
      vm1.sessionMap = [(50, some 100), (51, some 100), (52, some 200), (53, some 200)] ∧
      vm1.nextDisplay = splitManager.nextDisplay + 2 ∧
      vm1.viewSplitter = some vs1 ∧ vs1.active = 1 ∧
      vs1.containers.map (fun c => c.tabs) =
        [[rootTab 50 0, rootTab 52 0], [rootTab 50 1, rootTab 52 1]] := by
  refine ⟨_, _, rfl, rfl, rfl, rfl, rfl, rfl, rfl, rfl⟩

/-- C15, amended: in a manager with a live splitter (whose active index is valid unless it
has no container) and with display addresses not yet in use, `createView(s)` returns after
it made a first container when there was none and then, for EVERY container of the splitter
(not only the active one), allocated one display, registered one entry `d -> s` and inserted
the root pane of that display as one new tab, all at the same index.  With `n` containers
(at least one after the first step) `sessionCount` grows by `n`; only with a single
container is it one display, one entry and one tab. -/
theorem createView_adds_one_view_per_container (vm : ViewManager) (vs : ViewSplitter)
    (s : Session) (hvs : vm.viewSplitter = some vs)
    (hready : vs.containers.length = 0 ∨ vs.active < vs.containers.length)
    (hfresh : AddressesFresh vm) :
    ∃ vm1 vs1 index, createView vm s = some vm1 ∧ vm1.viewSplitter = some vs1 ∧
      vs1.containers.length = max 1 vs.containers.length ∧
      vm1.nextDisplay = vm.nextDisplay + max 1 vs.containers.length ∧
      vm1.sessionMap =
        vm.sessionMap ++
          (List.range (max 1 vs.containers.length)).map (fun j => (vm.nextDisplay + j, some s)) ∧
      sessionCount vm1 = sessionCount vm + max 1 vs.containers.length ∧
      (∀ j c, vs.containers.get? j = some c →
        ∃ c1, vs1.containers.get? j = some c1 ∧
          c1.tabs = (c.addView (rootTab vm.nextDisplay j) index).tabs ∧
          c1.tabs.length = c.tabs.length + 1) ∧
      (vs.containers = [] →
        ∃ c1, vs1.containers = [c1] ∧ c1.tabs = [rootTab vm.nextDisplay 0]) := by
  obtain ⟨vm1, vs1, index, h1, h2, _, _, h5, _, h7, h8, h9⟩ :=
    createView_spec vm vs s hvs hready hfresh
  have hlen : vs1.containers.length = max 1 vs.containers.length := by
    rw [h5]
    by_cases hz : vs.containers.length = 0
    · rw [if_pos hz, hz]
      have hnil : vs.containers = [] := List.length_eq_zero.mp hz
      simp [ViewSplitter.addContainer, hnil]
    · rw [if_neg hz]
      omega
  refine ⟨vm1, vs1, index, h1, h2, hlen, ?_, ?_, ?_, ?_, ?_⟩
  · rw [h7, hlen]
  · rw [h8, hlen]
  · simp [sessionCount, h8, hlen]
  · intro j c hc
    have hz : ¬ vs.containers.length = 0 := by
      intro hz
      rw [List.length_eq_zero.mp hz] at hc
      simp at hc
    have h := h9 j c (by rw [if_neg hz]; exact hc)
    obtain ⟨c1, hc1, htabs⟩ := h
    refine ⟨c1, hc1, htabs, ?_⟩
    rw [htabs, addView_tabs]
    simp only [List.length_append, List.length_cons, List.length_take, List.length_drop]
    split <;> omega
  · intro hnil
    have hz : vs.containers.length = 0 := by rw [hnil]; rfl
    have hget : (if vs.containers.length = 0 then
          vs.addContainer createContainer Orientation.Vertical else vs).containers.get? 0 =
        some createContainer := by
      rw [if_pos hz]
      simp [ViewSplitter.addContainer, hnil]
    obtain ⟨c1, hc1, htabs⟩ := h9 0 createContainer hget
    have hl1 : vs1.containers.length = 1 := by rw [hlen, hz]; rfl
    refine ⟨c1, ?_, ?_⟩
    · obtain ⟨c, hcs⟩ := List.length_eq_one.mp hl1
      rw [hcs] at hc1
      simp at hc1
      rw [hcs, hc1]
    · rw [htabs, addView_tabs]
      simp [createContainer]

/-- C15 (amended), at a concrete state: `splitManager` has two containers; `createView(200)`
allocates the displays 52 and 53 and gives each container one new tab. -/
theorem createView_adds_one_view_per_container_witness :
    splitManager.viewSplitter = some
        { containers := [{ tabs := [rootTab 50 0], currentIndex := 0 },
                         { tabs := [rootTab 50 1], currentIndex := 0 }]
          active := 1
          terminalDisplays := [50, 51] } ∧
    ∃ vm1 vs1 index, createView splitManager 200 = some vm1 ∧ vm1.viewSplitter = some vs1 ∧
      vs1.containers.length = max 1 2 ∧
      vm1.nextDisplay = splitManager.nextDisplay + max 1 2 ∧
      vm1.sessionMap =
        splitManager.sessionMap ++
          (List.range (max 1 2)).map (fun j => (splitManager.nextDisplay + j, some 200)) ∧
      sessionCount vm1 = sessionCount splitManager + max 1 2 ∧
      (∀ j c, [({ tabs := [rootTab 50 0], currentIndex := 0 } : TabbedViewContainer),
               { tabs := [rootTab 50 1], currentIndex := 0 }].get? j = some c →
        ∃ c1, vs1.containers.get? j = some c1 ∧
          c1.tabs = (c.addView (rootTab splitManager.nextDisplay j) index).tabs ∧
          c1.tabs.length = c.tabs.length + 1) ∧
      ([({ tabs := [rootTab 50 0], currentIndex := 0 } : TabbedViewContainer),
               { tabs := [rootTab 50 1], currentIndex := 0 }] = [] →
        ∃ c1, vs1.containers = [c1] ∧ c1.tabs = [rootTab splitManager.nextDisplay 0]) :=
  ⟨rfl,
   createView_adds_one_view_per_container splitManager
    { containers := [{ tabs := [rootTab 50 0], currentIndex := 0 },
                     { tabs := [rootTab 50 1], currentIndex := 0 }]
      active := 1
      terminalDisplays := [50, 51] } 200 rfl (Or.inr (by decide))
    (by intro k hk; simp [splitManager, keys] at hk; rcases hk with h | h <;> rw [h] <;> decide)⟩

end ViewManager
end Konsole

namespace Konsole
namespace ViewManager
open QHash

theorem removeContainerCalls_append (l₁ l₂ : List Effect) :
    removeContainerCalls (l₁ ++ l₂) = removeContainerCalls l₁ ++ removeContainerCalls l₂ := by
  simp [removeContainerCalls, List.filterMap_append]

theorem detachViewLoop_viewSplitter (tds : List TerminalDisplay) :
    ∀ vm : ViewManager, (detachViewLoop tds vm).1.viewSplitter = vm.viewSplitter ∧
      removeContainerCalls (detachViewLoop tds vm).1.log = removeContainerCalls vm.log := by
  induction tds with
  | nil => intro vm; exact ⟨rfl, rfl⟩
  | cons td tds ih =>
    intro vm
    unfold detachViewLoop
    cases h : (QHash.index vm.sessionMap td).2 with
    | none => simp [h]
    | some s =>
      simp only [h]
      obtain ⟨i1, i2⟩ := ih { vm with sessionMap := QHash.remove (QHash.index vm.sessionMap td).1 td
                                      log := vm.log ++ [Effect.viewDetached s] }
      refine ⟨i1, ?_⟩
      rw [i2, removeContainerCalls_append]
      simp [removeContainerCalls]

/-- The function `detachView` is `detachViewWith` called with `removeContainer`. -/
theorem detachViewWith_removeContainer (b : Bool) (vm : ViewManager) (container : Nat)
    (view : Option QWidget) :
    detachViewWith removeContainer b vm container view = detachView b vm container view := rfl

theorem closeOtherContainersLoop_calls (vs : ViewSplitter)
    (hready : vs.containers.length = 0 ∨ vs.active < vs.containers.length)
    (cs : List Nat) (hcs : ∀ c ∈ cs, c < vs.containers.length) :
    ∀ v : ViewManager, v.viewSplitter = some vs →
      (cs.foldl (fun v container =>
          if vs.activeContainer.isNone ∨ container ≠ vs.active then
            removeContainerLogged v container else v) v).viewSplitter = some vs ∧
      ∃ new, removeContainerCalls (cs.foldl (fun v container =>
          if vs.activeContainer.isNone ∨ container ≠ vs.active then
            removeContainerLogged v container else v) v).log =
          removeContainerCalls v.log ++ new ∧
        ∀ e ∈ new, 2 ≤ e.2 ∧ e.1 < e.2 ∧ e.1 ≠ vs.active := by
  induction cs with
  | nil => intro v hv; exact ⟨hv, [], by simp, by simp⟩
  | cons c cs ih =>
    intro v hv
    have hc : c < vs.containers.length := hcs c (List.mem_cons_self _ _)
    have hact : vs.active < vs.containers.length := by
      rcases hready with h | h
      · omega
      · exact h
    have hsome : vs.activeContainer.isNone = false := by
      unfold ViewSplitter.activeContainer
      rw [List.get?_eq_get hact]
      rfl
    rw [List.foldl_cons]
    by_cases hne : c ≠ vs.active
    · have hif : (if vs.activeContainer.isNone ∨ c ≠ vs.active then
          removeContainerLogged v c else v) = removeContainerLogged v c := by
        rw [if_pos (Or.inr hne)]
      rw [hif]
      obtain ⟨i1, new, i2, i3⟩ := ih (fun c hc => hcs c (List.mem_cons_of_mem _ hc))
        (removeContainerLogged v c) hv
      refine ⟨i1, (c, vs.containers.length) :: new, ?_, ?_⟩
      · rw [i2]
        simp [removeContainerLogged, removeContainer, removeContainerCalls_append,
          removeContainerCalls, containerCount, hv]
      · intro e he
        rcases List.mem_cons.mp he with h | h
        · rw [h]
          refine ⟨?_, hc, hne⟩
          show 2 ≤ vs.containers.length
          omega
        · exact i3 e h
    · have hif : (if vs.activeContainer.isNone ∨ c ≠ vs.active then
          removeContainerLogged v c else v) = v := by
        rw [if_neg]
        intro h
        rcases h with h | h
        · rw [hsome] at h
          exact Bool.noConfusion h
        · exact hne h
      rw [hif]
      exact ih (fun c hc => hcs c (List.mem_cons_of_mem _ hc)) v hv

/-- C12: in a manager with a live splitter whose active container is one of its containers
(or that has no container), every call of `removeContainer` that `closeActiveContainer`,
`closeOtherContainers` or `detachView` makes happens while the splitter has at least two
containers: the calls are recorded with the container count at the call, and every record
added by one of the three operations has a count of at least 2 (for the first two, which
always return, the target is moreover a container of the splitter, and for
`closeOtherContainers` it is not the active one).  With fewer than two containers no
function passed as `removeContainer` is called by the first two, and
`closeActiveContainer` with exactly one container returns the state unchanged. -/
theorem removeContainer_requested_only_with_two_containers (vm : ViewManager)
    (vs : ViewSplitter) (enableDetaching : Bool) (container : Nat) (view : Option QWidget)
    (hvs : vm.viewSplitter = some vs)
    (hready : vs.containers.length = 0 ∨ vs.active < vs.containers.length) :
    (∃ vm1 new, closeActiveContainerWith removeContainerLogged vm = some vm1 ∧
      removeContainerCalls vm1.log = removeContainerCalls vm.log ++ new ∧
      ∀ e ∈ new, 2 ≤ e.2 ∧ e.1 < e.2) ∧
    (∃ vm1 new, closeOtherContainersWith removeContainerLogged vm = some vm1 ∧
      removeContainerCalls vm1.log = removeContainerCalls vm.log ++ new ∧
      ∀ e ∈ new, 2 ≤ e.2 ∧ e.1 < e.2 ∧ e.1 ≠ vs.active) ∧
    (∀ vm1, detachViewWith removeContainerLogged enableDetaching vm container view = some vm1 →
      ∃ new, removeContainerCalls vm1.log = removeContainerCalls vm.log ++ new ∧
        ∀ e ∈ new, 2 ≤ e.2) ∧
    (vs.containers.length < 2 →
      ∀ rc, closeActiveContainerWith rc vm = some vm ∧
        closeOtherContainersWith rc vm = some vm) ∧
    (vs.containers.length = 1 → closeActiveContainer vm = some vm) := by
  refine ⟨?_, ?_, ?_, ?_, ?_⟩
  · unfold closeActiveContainerWith
    simp only [hvs, Option.bind_eq_bind, Option.some_bind]
    by_cases h : 1 < vs.containers.length
    · rw [if_pos h]
      have hact : vs.active < vs.containers.length := by
        rcases hready with h0 | h0
        · omega
        · exact h0
      have hn : nextContainer (removeContainerLogged vm vs.active) =
          some { vm with
            viewSplitter := some vs.activateNextContainer
            log := vm.log ++ [Effect.removeContainer vs.active vs.containers.length] } := by
        unfold nextContainer
        simp [removeContainerLogged, removeContainer, hvs, containerCount]
      refine ⟨_, [(vs.active, vs.containers.length)], hn, ?_, ?_⟩
      · simp [removeContainerCalls_append, removeContainerCalls]
      · intro e he
        rw [List.mem_singleton.mp he]
        exact ⟨h, hact⟩
    · rw [if_neg h]
      exact ⟨vm, [], rfl, by simp, by simp⟩
  · unfold closeOtherContainersWith
    simp only [hvs, Option.bind_eq_bind, Option.some_bind]
    obtain ⟨_, new, i2, i3⟩ := closeOtherContainersLoop_calls vs hready
      (List.range vs.containers.length) (fun c hc => List.mem_range.mp hc) vm hvs
    exact ⟨_, new, rfl, i2, fun e he => ⟨(i3 e he).1, (i3 e he).2.1, (i3 e he).2.2⟩⟩
  · intro vm1 h
    unfold detachViewWith at h
    split at h
    · rw [← Option.some.inj h]
      exact ⟨[], by simp, by simp⟩
    · split at h
      · rw [← Option.some.inj h]
        exact ⟨[], by simp, by simp⟩
      · rename_i viewToDetach _
        obtain ⟨f1, f2⟩ := detachViewLoop_viewSplitter
          (getTerminalDisplaysOfContainer viewToDetach) vm
        simp only at h
        split at h
        · rw [← Option.some.inj h]
          exact ⟨[], by rw [f2]; simp, by simp⟩
        · rw [f1, hvs] at h
          simp only [Option.bind_eq_bind, Option.some_bind] at h
          cases hc : vs.containers.get? container with
          | none =>
            rw [hc] at h
            exact Option.noConfusion h
          | some c =>
            rw [hc] at h
            simp only [Option.some_bind] at h
            split at h
            · rename_i hguard
              rw [← Option.some.inj h]
              refine ⟨[(container, vs.containers.length)], ?_, ?_⟩
              · simp only [removeContainerLogged, removeContainer, removeContainerCalls_append,
                  containerCount, f2, List.length_set]
                simp [removeContainerCalls]
              · intro e he
                rw [List.mem_singleton.mp he]
                have := hguard.1
                simp only [List.length_set] at this
                exact this
            · rw [← Option.some.inj h]
              refine ⟨[], ?_, by simp⟩
              simp only [removeContainerCalls_append, f2]
              simp [removeContainerCalls]
  · intro hlt rc
    constructor
    · unfold closeActiveContainerWith
      simp only [hvs, Option.bind_eq_bind, Option.some_bind]
      rw [if_neg (by omega)]
    · unfold closeOtherContainersWith
      simp only [hvs, Option.bind_eq_bind, Option.some_bind]
      rcases hready with h0 | h0
      · rw [h0]
        rfl
      · have h1 : vs.containers.length = 1 := by omega
        have ha : vs.active = 0 := by omega
        have hsome : vs.activeContainer.isNone = false := by
          unfold ViewSplitter.activeContainer
          rw [List.get?_eq_get h0]
          rfl
        rw [h1]
        simp [List.range_succ, hsome, ha]
  · intro h1
    unfold closeActiveContainer closeActiveContainerWith
    simp only [hvs, Option.bind_eq_bind, Option.some_bind]
    rw [if_neg (by omega)]

/-- C12, at a concrete state: in `threeContainers` (second container active),
`closeOtherContainers` calls `removeContainer` for the containers 0 and 2, and detaching
the only tab of container 1 calls it for container 1, each time with three containers. -/
theorem removeContainer_requested_only_with_two_containers_witness :
    (threeContainersSplitter.containers.length = 0 ∨
      threeContainersSplitter.active < threeContainersSplitter.containers.length) ∧
    (closeOtherContainersWith removeContainerLogged threeContainers).map
      (fun v => removeContainerCalls v.log) = some [(0, 3), (2, 3)] ∧
    (detachViewWith removeContainerLogged true threeContainers 1 (some (rootTab 50 1))).map
      (fun v => removeContainerCalls v.log) = some [(1, 3)] ∧
    ((∃ vm1 new, closeActiveContainerWith removeContainerLogged threeContainers = some vm1 ∧
      removeContainerCalls vm1.log = removeContainerCalls threeContainers.log ++ new ∧
      ∀ e ∈ new, 2 ≤ e.2 ∧ e.1 < e.2) ∧
    (∃ vm1 new, closeOtherContainersWith removeContainerLogged threeContainers = some vm1 ∧
      removeContainerCalls vm1.log = removeContainerCalls threeContainers.log ++ new ∧
      ∀ e ∈ new, 2 ≤ e.2 ∧ e.1 < e.2 ∧ e.1 ≠ threeContainersSplitter.active) ∧
    (∀ vm1, detachViewWith removeContainerLogged true threeContainers 1
        (some (rootTab 50 1)) = some vm1 →
      ∃ new, removeContainerCalls vm1.log = removeContainerCalls threeContainers.log ++ new ∧
        ∀ e ∈ new, 2 ≤ e.2) ∧
    (threeContainersSplitter.containers.length < 2 →
      ∀ rc, closeActiveContainerWith rc threeContainers = some threeContainers ∧
        closeOtherContainersWith rc threeContainers = some threeContainers) ∧
    (threeContainersSplitter.containers.length = 1 →
      closeActiveContainer threeContainers = some threeContainers)) :=
  ⟨Or.inr (by decide), rfl, rfl,
   removeContainer_requested_only_with_two_containers threeContainers threeContainersSplitter
    true 1 (some (rootTab 50 1)) rfl (Or.inr (by decide))⟩

end ViewManager
end Konsole

namespace Konsole
namespace ViewManager
open QHash

theorem sessionFinished_viewSplitter (vm : ViewManager) (s : Option Session) :
    (sessionFinished vm s).viewSplitter = vm.viewSplitter := by
  unfold sessionFinished
  split
  · rfl
  · simp only
    split
    · split
      · exact (sessionFinishedLoop_frame _ _ _).1
      · exact (sessionFinishedLoop_frame _ _ _).1
    · exact (sessionFinishedLoop_frame _ _ _).1

theorem controllerChanged_viewSplitter (vm vm1 : ViewManager) (c : SessionController)
    (h : controllerChanged vm c = some vm1) :
    vm1.viewSplitter = vm.viewSplitter ∧ vm1.sessionMap = vm.sessionMap ∧
      vm1.nextDisplay = vm.nextDisplay := by
  unfold controllerChanged at h
  split at h
  · rw [← Option.some.inj h]
    exact ⟨rfl, rfl, rfl⟩
  · split at h
    · exact Option.noConfusion h
    · rw [← Option.some.inj h]
      exact ⟨rfl, rfl, rfl⟩

theorem createController_viewSplitter (vm : ViewManager) (s : Session) (v : TerminalDisplay)
    (r : SessionController × ViewManager) (h : createController vm s v = some r) :
    r.2.viewSplitter = vm.viewSplitter ∧ r.2.sessionMap = vm.sessionMap ∧
      r.2.nextDisplay = vm.nextDisplay := by
  unfold createController at h
  split at h
  · simp only [Option.map_eq_some'] at h
    obtain ⟨vm1, h1, h2⟩ := h
    rw [← h2]
    exact controllerChanged_viewSplitter _ _ _ h1
  · rw [← Option.some.inj h]
    exact ⟨rfl, rfl, rfl⟩

theorem createAndSetupTerminalDisplay_viewSplitter (vm : ViewManager) (s : Option Session)
    (r : Option TerminalDisplay × ViewManager)
    (h : createAndSetupTerminalDisplay vm s = some r) :
    r.2.viewSplitter = vm.viewSplitter := by
  unfold createAndSetupTerminalDisplay at h
  split at h
  · rw [← Option.some.inj h]
  · simp only [Option.bind_eq_bind, Option.bind_eq_some] at h
    obtain ⟨r1, h1, h2⟩ := h
    rw [← Option.some.inj h2]
    exact (createController_viewSplitter _ _ _ _ h1).1

/-- Cloning a pane tree leaves the containers of the splitter, the active index and the
orientation as they are. -/
theorem cloneTree_frame (tree : MultiTerminalDisplay) :
    ∀ (vm : ViewManager) (vs : ViewSplitter) (r : MultiTerminalDisplay × ViewManager),
      vm.viewSplitter = some vs → cloneTree vm tree = some r →
      ∃ vs1, r.2.viewSplitter = some vs1 ∧ vs1.containers = vs.containers ∧
        vs1.active = vs.active ∧ vs1.orientation = vs.orientation := by
  induction tree with
  | leaf td =>
    intro vm vs r hvs h
    unfold cloneTree at h
    simp only [Option.bind_eq_bind, Option.bind_eq_some] at h
    obtain ⟨r1, h1, d, _, h3⟩ := h
    have hf := createAndSetupTerminalDisplay_viewSplitter _ _ _ h1
    rw [← Option.some.inj h3]
    simp only [hf, hvs, Option.map_some']
    exact ⟨_, rfl, rfl, rfl, rfl⟩
  | split o first second ih1 ih2 =>
    intro vm vs r hvs h
    unfold cloneTree at h
    simp only [Option.bind_eq_bind, Option.bind_eq_some] at h
    obtain ⟨r1, h1, r2, h2, h3⟩ := h
    obtain ⟨vs1, a1, a2, a3, a4⟩ := ih1 vm vs r1 hvs h1
    obtain ⟨vs2, b1, b2, b3, b4⟩ := ih2 r1.2 vs1 r2 a1 h2
    rw [← Option.some.inj h3]
    exact ⟨vs2, b1, b2.trans a2, b3.trans a3, b4.trans a4⟩

theorem splitViewLoop_frame (ws : List QWidget) :
    ∀ (container : TabbedViewContainer) (vm : ViewManager) (vs : ViewSplitter)
      (r : Option TabbedViewContainer × ViewManager),
      vm.viewSplitter = some vs → splitViewLoop ws container vm = some r →
      ∃ vs1, r.2.viewSplitter = some vs1 ∧ vs1.containers = vs.containers ∧
        vs1.active = vs.active ∧ vs1.orientation = vs.orientation := by
  induction ws with
  | nil =>
    intro container vm vs r hvs h
    unfold splitViewLoop at h
    rw [← Option.some.inj h]
    exact ⟨vs, hvs, rfl, rfl, rfl⟩
  | cons w ws ih =>
    intro container vm vs r hvs h
    unfold splitViewLoop at h
    split at h
    · rw [← Option.some.inj h]
      exact ⟨vs, hvs, rfl, rfl, rfl⟩
    · simp only [Option.bind_eq_bind, Option.bind_eq_some] at h
      obtain ⟨r1, h1, h2⟩ := h
      unfold cloneMtd at h1
      simp only [Option.bind_eq_bind, Option.bind_eq_some] at h1
      obtain ⟨r0, g1, g2⟩ := h1
      obtain ⟨vs1, a1, a2, a3, a4⟩ := cloneTree_frame _ vm vs r0 hvs g1
      have hr1 : r1.2 = r0.2 := by rw [← Option.some.inj g2]
      obtain ⟨vs2, b1, b2, b3, b4⟩ := ih r1.1 r1.2 vs1 r (by rw [hr1]; exact a1) h2
      exact ⟨vs2, b1, b2.trans a2, b3.trans a3, b4.trans a4⟩

theorem splitView_activeReady (vm vm1 : ViewManager) (o : Orientation)
    (h : splitView vm o = some vm1) (hr : ActiveReady vm) : ActiveReady vm1 := by
  obtain ⟨vs, hvs, hact⟩ := hr
  unfold splitView at h
  simp only [hvs, Option.bind_eq_bind, Option.some_bind, Option.bind_eq_some] at h
  obtain ⟨c, _, r, h2, h3⟩ := h
  obtain ⟨vs1, a1, a2, a3, _⟩ := splitViewLoop_frame _ _ vm vs r hvs h2
  split at h3
  · rw [← Option.some.inj h3]
    exact ⟨vs1, a1, by rw [a2, a3]; exact hact⟩
  · simp only [a1, Option.bind_eq_bind, Option.some_bind, Option.bind_eq_some] at h3
    obtain ⟨_, _, h4⟩ := h3
    rw [← Option.some.inj h4]
    refine ⟨_, rfl, ?_⟩
    simp [ViewSplitter.addContainer]

theorem activateNextContainer_active (vs : ViewSplitter)
    (h : vs.active < vs.containers.length) :
    vs.activateNextContainer.active < vs.activateNextContainer.containers.length := by
  unfold ViewSplitter.activateNextContainer
  rw [if_pos h]
  simp only
  split <;> omega

theorem closeActiveContainer_activeReady (vm vm1 : ViewManager)
    (h : closeActiveContainer vm = some vm1) (hr : ActiveReady vm) : ActiveReady vm1 := by
  obtain ⟨vs, hvs, hact⟩ := hr
  unfold closeActiveContainer closeActiveContainerWith at h
  simp only [hvs, Option.bind_eq_bind, Option.some_bind] at h
  split at h
  · unfold nextContainer removeContainer at h
    simp only [hvs, Option.bind_eq_bind, Option.some_bind] at h
    rw [← Option.some.inj h]
    exact ⟨_, rfl, activateNextContainer_active vs hact⟩
  · rw [← Option.some.inj h]
    exact ⟨vs, hvs, hact⟩

theorem closeOtherContainersLoop_id (p : Nat → Prop) [DecidablePred p] (cs : List Nat)
    (vm : ViewManager) :
    cs.foldl (fun v container => if p container then removeContainer v container else v) vm =
      vm := by
  induction cs with
  | nil => rfl
  | cons c cs ih =>
    rw [List.foldl_cons]
    have : (if p c then removeContainer vm c else vm) = vm := by
      split <;> rfl
    rw [this]
    exact ih

/-- As `removeContainer` does nothing, so does `closeOtherContainers`. -/
theorem closeOtherContainers_eq (vm : ViewManager) (vs : ViewSplitter)
    (hvs : vm.viewSplitter = some vs) : closeOtherContainers vm = some vm := by
  unfold closeOtherContainers closeOtherContainersWith
  simp only [hvs, Option.bind_eq_bind, Option.some_bind]
  rw [closeOtherContainersLoop_id]

theorem detachView_activeReady (b : Bool) (vm vm1 : ViewManager) (container : Nat)
    (view : Option QWidget) (h : detachView b vm container view = some vm1)
    (hr : ActiveReady vm) : ActiveReady vm1 := by
  obtain ⟨vs, hvs, hact⟩ := hr
  unfold detachView at h
  split at h
  · rw [← Option.some.inj h]
    exact ⟨vs, hvs, hact⟩
  · split at h
    · rw [← Option.some.inj h]
      exact ⟨vs, hvs, hact⟩
    · rename_i viewToDetach _
      obtain ⟨f1, _⟩ := detachViewLoop_viewSplitter
        (getTerminalDisplaysOfContainer viewToDetach) vm
      simp only at h
      split at h
      · rw [← Option.some.inj h]
        exact ⟨vs, f1.trans hvs, hact⟩
      · rw [f1, hvs] at h
        simp only [Option.bind_eq_bind, Option.some_bind, Option.bind_eq_some] at h
        obtain ⟨c, _, h2⟩ := h
        split at h2
        · rw [← Option.some.inj h2]
          refine ⟨_, rfl, ?_⟩
          simp only [List.length_set]
          exact hact
        · rw [← Option.some.inj h2]
          refine ⟨_, rfl, ?_⟩
          simp only [List.length_set]
          exact hact

/-- Every operation that returns keeps the active index inside the list of containers. -/
theorem perform_activeReady (b : Bool) (vm vm1 : ViewManager) (op : Operation)
    (h : perform b vm op = some vm1) (hr : ActiveReady vm) : ActiveReady vm1 := by
  cases op with
  | createView session =>
    obtain ⟨vm2, h2, h3, _⟩ := createView_frame vm session (activeReady_splitterReady vm hr)
    have h0 : createView vm session = some vm1 := h
    rw [h2] at h0
    rw [← Option.some.inj h0]
    exact h3
  | splitView orientation => exact splitView_activeReady vm vm1 orientation h hr
  | closeActiveContainer => exact closeActiveContainer_activeReady vm vm1 h hr
  | closeOtherContainers =>
    obtain ⟨vs, hvs, hact⟩ := hr
    have h0 : closeOtherContainers vm = some vm1 := h
    rw [closeOtherContainers_eq vm vs hvs] at h0
    rw [← Option.some.inj h0]
    exact ⟨vs, hvs, hact⟩
  | detachView container view => exact detachView_activeReady b vm vm1 container view h hr
  | sessionFinished sender =>
    have h0 : some (sessionFinished vm sender) = some vm1 := h
    rw [← Option.some.inj h0]
    exact activeReady_congr _ _ hr (sessionFinished_viewSplitter vm sender)
  | viewDestroyed display =>
    have h0 : some (viewDestroyed vm display) = some vm1 := h
    rw [← Option.some.inj h0]
    exact activeReady_congr _ _ hr (viewDestroyed_frame vm display).2

theorem performAll_activeReady (b : Bool) (ops : List Operation) :
    ∀ vm vm1 : ViewManager, performAll b vm ops = some vm1 → ActiveReady vm →
      ActiveReady vm1 := by
  induction ops with
  | nil =>
    intro vm vm1 h hr
    have h0 : some vm = some vm1 := h
    rw [← Option.some.inj h0]
    exact hr
  | cons op ops ih =>
    intro vm vm1 h hr
    unfold performAll at h
    rw [List.foldlM_cons] at h
    simp only [Option.bind_eq_bind, Option.bind_eq_some] at h
    obtain ⟨vm2, h1, h2⟩ := h
    exact ih vm2 vm1 h2 (perform_activeReady b vm vm2 op h1 hr)

theorem containerCount_of_activeReady (vm : ViewManager) (h : ActiveReady vm) :
    1 ≤ containerCount vm := by
  obtain ⟨vs, hvs, hact⟩ := h
  unfold containerCount
  rw [hvs]
  show 1 ≤ vs.containers.length
  omega

/-- C11: from a freshly constructed manager the first `createView` returns a state with at
least one container, and in every state reached from it by a sequence of `createView`,
`splitView`, `closeActiveContainer`, `closeOtherContainers`, `detachView`,
`sessionFinished` and `viewDestroyed` operations (each of which returned) the splitter is
alive and has at least one container, whether or not the session map is empty; so the
container count is at least 1 whenever the session map is non-empty. -/
theorem container_count_never_drops_to_zero (lastManagerId : Int)
    (nextDisplay : TerminalDisplay) (sm : SessionManager)
    (collection : Option KActionCollection) (s : Session)
    (enableDetaching : Bool) (ops : List Operation) (vm1 vm2 : ViewManager)
    (h1 : createView (construct lastManagerId nextDisplay sm collection).1 s = some vm1)
    (h2 : performAll enableDetaching vm1 ops = some vm2) :
    1 ≤ containerCount vm1 ∧ 1 ≤ containerCount vm2 ∧
      (vm2.sessionMap ≠ [] → 1 ≤ containerCount vm2) := by
  have hready : SplitterReady (construct lastManagerId nextDisplay sm collection).1 :=
    ⟨{}, rfl, Or.inl rfl⟩
  obtain ⟨vm3, h3, h4, _⟩ := createView_frame _ s hready
  rw [h3] at h1
  rw [← Option.some.inj h1] at h2 ⊢
  have h5 := performAll_activeReady enableDetaching ops vm3 vm2 h2 h4
  exact ⟨containerCount_of_activeReady _ h4, containerCount_of_activeReady _ h5,
    fun _ => containerCount_of_activeReady _ h5⟩

/-- C11, at a concrete run: a fresh manager, `createView(100)`, then one operation of each
kind; every step returns and two containers are left at the end. -/
theorem container_count_never_drops_to_zero_witness :
    ∃ vm1 vm2, createView (construct 0 50 twoStoredSessions none).1 100 = some vm1 ∧
      performAll true vm1
        [Operation.splitView Orientation.Vertical, Operation.closeActiveContainer,
         Operation.closeOtherContainers, Operation.detachView 0 (some (rootTab 50 0)),
         Operation.sessionFinished (some 100), Operation.viewDestroyed 51,
         Operation.createView 200] = some vm2 ∧
      vm2.sessionMap = [(50, none), (52, some 200), (53, some 200)] ∧
      containerCount vm2 = 2 ∧
      (1 ≤ containerCount vm1 ∧ 1 ≤ containerCount vm2 ∧
        (vm2.sessionMap ≠ [] → 1 ≤ containerCount vm2)) :=
  ⟨_, _, rfl, rfl, rfl, rfl,
   container_count_never_drops_to_zero 0 50 twoStoredSessions none 100 true
    [Operation.splitView Orientation.Vertical, Operation.closeActiveContainer,
     Operation.closeOtherContainers, Operation.detachView 0 (some (rootTab 50 0)),
     Operation.sessionFinished (some 100), Operation.viewDestroyed 51,
     Operation.createView 200] _ _ rfl rfl⟩

end ViewManager
end Konsole

namespace Konsole
namespace ViewManager
open QHash

theorem find_append_of_mem_keys (m new : SessionMap) (k : TerminalDisplay)
    (h : k ∈ keys m) : find (m ++ new) k = find m k := by
  unfold keys at h
  rw [List.mem_map] at h
  obtain ⟨e, he, hek⟩ := h
  unfold find
  rw [List.find?_append]
  cases hf : m.find? (fun e => e.1 == k) with
  | some x => simp
  | none =>
    have := List.find?_eq_none.mp hf e he
    simp [hek] at this

theorem sessionsOfTree_append (m new : SessionMap) (t : MultiTerminalDisplay)
    (h : ∀ td ∈ t.leaves, td ∈ keys m) : sessionsOfTree (m ++ new) t = sessionsOfTree m t := by
  induction t with
  | leaf td =>
    unfold sessionsOfTree
    rw [find_append_of_mem_keys m new td (h td (by simp [MultiTerminalDisplay.leaves]))]
  | split o a b iha ihb =>
    unfold sessionsOfTree
    rw [iha (fun td htd => h td (by simp [MultiTerminalDisplay.leaves, htd])),
      ihb (fun td htd => h td (by simp [MultiTerminalDisplay.leaves, htd]))]

theorem keys_append (m new : SessionMap) : keys (m ++ new) = keys m ++ keys new := by
  simp [keys]

/-- What `createAndSetupTerminalDisplay` does for a session that is not null. -/
theorem createAndSetupTerminalDisplay_spec (vm : ViewManager) (vs : ViewSplitter) (s : Session)
    (hvs : vm.viewSplitter = some vs) (hfresh : AddressesFresh vm) :
    ∃ vm1, createAndSetupTerminalDisplay vm (some s) = some (some vm.nextDisplay, vm1) ∧
      vm1.viewSplitter = some vs ∧
      vm1.sessionMap = vm.sessionMap ++ [(vm.nextDisplay, some s)] ∧
      vm1.nextDisplay = vm.nextDisplay + 1 := by
  have hnc := not_contains_of_fresh vm hfresh
  unfold createAndSetupTerminalDisplay createController controllerChanged
  cases hp : vm.pluggedController with
  | none =>
    simp only [hp, hvs, Option.map_some', Option.bind_eq_bind, Option.some_bind,
      reduceCtorEq, if_false]
    exact ⟨_, rfl, rfl, insert_of_not_contains _ _ _ hnc, rfl⟩
  | some pc =>
    simp only [hp, hvs, Option.bind_eq_bind, Option.some_bind]
    exact ⟨_, rfl, rfl, insert_of_not_contains _ _ _ hnc, rfl⟩

theorem addressesFresh_append (vm vm1 : ViewManager) (new : SessionMap)
    (h : AddressesFresh vm) (hmap : vm1.sessionMap = vm.sessionMap ++ new)
    (hle : vm.nextDisplay ≤ vm1.nextDisplay)
    (hnew : ∀ k ∈ keys new, k < vm1.nextDisplay) : AddressesFresh vm1 := by
  intro k hk
  rw [hmap, keys_append, List.mem_append] at hk
  rcases hk with hk | hk
  · exact Nat.lt_of_lt_of_le (h k hk) hle
  · exact hnew k hk

/-- What `cloneTree` does for a pane tree whose displays all show a session: the clone has
the same splits and shows the same sessions on new displays, and the session map only
grows. -/
theorem cloneTree_spec (tree : MultiTerminalDisplay) :
    ∀ (vm : ViewManager) (vs : ViewSplitter), vm.viewSplitter = some vs → AddressesFresh vm →
      (∀ td ∈ tree.leaves, ∃ s, find vm.sessionMap td = some (some s)) →
      ∃ clone vm1 new, cloneTree vm tree = some (clone, vm1) ∧
        vm1.sessionMap = vm.sessionMap ++ new ∧ AddressesFresh vm1 ∧
        vm.nextDisplay ≤ vm1.nextDisplay ∧
        sessionsOfTree vm1.sessionMap clone = sessionsOfTree vm.sessionMap tree ∧
        (∀ d ∈ clone.leaves, vm.nextDisplay ≤ d ∧ d ∈ keys vm1.sessionMap) := by
  induction tree with
  | leaf td =>
    intro vm vs hvs hfresh hmapped
    obtain ⟨s, hs⟩ := hmapped td (by simp [MultiTerminalDisplay.leaves])
    obtain ⟨vm1, h1, h2, h3, h4⟩ := createAndSetupTerminalDisplay_spec vm vs s hvs hfresh
    have hnone := find_eq_none_of_not_contains _ _ (not_contains_of_fresh vm hfresh)
    refine ⟨MultiTerminalDisplay.leaf vm.nextDisplay,
      { vm1 with viewSplitter := vm1.viewSplitter.map (fun vs =>
          { vs with terminalDisplays := vs.terminalDisplays ++ [vm.nextDisplay] }) },
      [(vm.nextDisplay, some s)], ?_, h3, ?_, ?_, ?_, ?_⟩
    · unfold cloneTree
      simp only [hs, Option.getD_some, h1, Option.bind_eq_bind, Option.some_bind]
    · apply addressesFresh_append vm _ [(vm.nextDisplay, some s)] hfresh h3
      · show vm.nextDisplay ≤ vm1.nextDisplay
        rw [h4]
        exact Nat.le_add_right _ _
      · intro k hk
        simp [keys] at hk
        show k < vm1.nextDisplay
        rw [h4, hk]
        exact Nat.lt_succ_self _
    · show vm.nextDisplay ≤ vm1.nextDisplay
      rw [h4]
      exact Nat.le_add_right _ _
    · show sessionsOfTree vm1.sessionMap _ = _
      unfold sessionsOfTree
      rw [h3, find_append_single, hnone, hs]
      simp
    · intro d hd
      simp [MultiTerminalDisplay.leaves] at hd
      rw [hd]
      refine ⟨Nat.le_refl _, ?_⟩
      show vm.nextDisplay ∈ keys vm1.sessionMap
      rw [h3, keys_append]
      simp [keys]
  | split o first second ih1 ih2 =>
    intro vm vs hvs hfresh hmapped
    obtain ⟨c1, vm1, new1, a1, a2, a3, a4, a5, a6⟩ := ih1 vm vs hvs hfresh
      (fun td htd => hmapped td (by simp [MultiTerminalDisplay.leaves, htd]))
    obtain ⟨vs1, f1, _⟩ := cloneTree_frame first vm vs (c1, vm1) hvs a1
    have hkeys2 : ∀ td ∈ second.leaves, td ∈ keys vm.sessionMap := by
      intro td htd
      obtain ⟨s, hs⟩ := hmapped td (by simp [MultiTerminalDisplay.leaves, htd])
      exact mem_keys_of_find _ _ _ hs
    obtain ⟨c2, vm2, new2, b1, b2, b3, b4, b5, b6⟩ := ih2 vm1 vs1 f1 a3
      (fun td htd => by
        obtain ⟨s, hs⟩ := hmapped td (by simp [MultiTerminalDisplay.leaves, htd])
        refine ⟨s, ?_⟩
        rw [a2, find_append_of_mem_keys _ _ _ (hkeys2 td htd)]
        exact hs)
    refine ⟨MultiTerminalDisplay.split o c1 c2, vm2, new1 ++ new2, ?_, ?_, b3, ?_, ?_, ?_⟩
    · unfold cloneTree
      simp only [a1, b1, Option.bind_eq_bind, Option.some_bind]
    · rw [b2, a2, List.append_assoc]
    · exact Nat.le_trans a4 b4
    · unfold sessionsOfTree
      rw [b5, b2, sessionsOfTree_append _ _ c1 (fun d hd => (a6 d hd).2), a5, a2,
        sessionsOfTree_append _ _ second hkeys2]
    · intro d hd
      simp only [MultiTerminalDisplay.leaves, List.mem_append] at hd
      rcases hd with hd | hd
      · refine ⟨(a6 d hd).1, ?_⟩
        rw [b2, keys_append]
        exact List.mem_append_left _ (a6 d hd).2
      · exact ⟨Nat.le_trans a4 (b6 d hd).1, (b6 d hd).2⟩

end ViewManager
end Konsole

namespace Konsole
namespace ViewManager
open QHash

theorem addView_last (c : TabbedViewContainer) (w : QWidget)
    (h : c.currentIndex < c.tabs.length ∧ (c.tabs ≠ [] → 0 ≤ c.currentIndex)) :
    (c.addView w (-1)).tabs = c.tabs ++ [w] ∧
      (c.addView w (-1)).currentIndex < (c.addView w (-1)).tabs.length ∧
      0 ≤ (c.addView w (-1)).currentIndex := by
  obtain ⟨h1, h2⟩ := h
  have htabs : (c.addView w (-1)).tabs = c.tabs ++ [w] := by
    rw [addView_tabs]
    simp
  refine ⟨htabs, ?_, ?_⟩
  · rw [htabs]
    unfold TabbedViewContainer.addView
    simp only [List.length_append, List.length_singleton]
    split
    · push_cast
      omega
    · split <;> (push_cast; omega)
  · unfold TabbedViewContainer.addView
    simp only
    split
    · omega
    · rename_i hlen
      have hne : c.tabs ≠ [] := fun hnil => hlen (by rw [hnil]; rfl)
      have := h2 hne
      split <;> omega

/-- What the loop of `splitView` does when every tab is a pane tree whose displays all show
a session: the new container gets one clone per tab, in tab order. -/
theorem splitViewLoop_spec (trees : List MultiTerminalDisplay) :
    ∀ (container : TabbedViewContainer) (vm : ViewManager) (vs : ViewSplitter),
      vm.viewSplitter = some vs → AddressesFresh vm →
      (∀ t ∈ trees, ∀ td ∈ t.leaves, ∃ s, find vm.sessionMap td = some (some s)) →
      (container.currentIndex < container.tabs.length ∧
        (container.tabs ≠ [] → 0 ≤ container.currentIndex)) →
      ∃ (container1 : TabbedViewContainer) (vm1 : ViewManager)
          (clones : List MultiTerminalDisplay) (new : SessionMap),
        splitViewLoop (trees.map QWidget.multiTerminalDisplay) container vm =
          some (some container1, vm1) ∧
        container1.tabs = container.tabs ++ clones.map QWidget.multiTerminalDisplay ∧
        (container1.currentIndex < container1.tabs.length ∧
          (container1.tabs ≠ [] → 0 ≤ container1.currentIndex)) ∧
        vm1.sessionMap = vm.sessionMap ++ new ∧ AddressesFresh vm1 ∧
        vm.nextDisplay ≤ vm1.nextDisplay ∧
        clones.map (sessionsOfTree vm1.sessionMap) = trees.map (sessionsOfTree vm.sessionMap) ∧
        (∀ cl ∈ clones, ∀ d ∈ cl.leaves, vm.nextDisplay ≤ d ∧ d ∈ keys vm1.sessionMap) := by
  induction trees with
  | nil =>
    intro container vm vs hvs hfresh _ hinv
    exact ⟨container, vm, [], [], rfl, by simp, hinv, by simp, hfresh, Nat.le_refl _, rfl,
      by simp⟩
  | cons t ts ih =>
    intro container vm vs hvs hfresh hmapped hinv
    obtain ⟨c, vm0, new0, a1, a2, a3, a4, a5, a6⟩ := cloneTree_spec t vm vs hvs hfresh
      (hmapped t (List.mem_cons_self _ _))
    obtain ⟨vs0, f1, _⟩ := cloneTree_frame t vm vs (c, vm0) hvs a1
    have hkeys : ∀ t0 ∈ ts, ∀ td ∈ t0.leaves, td ∈ keys vm.sessionMap := by
      intro t0 ht0 td htd
      obtain ⟨s, hs⟩ := hmapped t0 (List.mem_cons_of_mem _ ht0) td htd
      exact mem_keys_of_find _ _ _ hs
    obtain ⟨g1, g2, g3⟩ := addView_last container (QWidget.multiTerminalDisplay c) hinv
    obtain ⟨container1, vm1, clones, new1, b1, b2, b3, b4, b5, b6, b7, b8⟩ :=
      ih (container.addView (QWidget.multiTerminalDisplay c) (-1)) vm0 vs0 f1 a3
        (fun t0 ht0 td htd => by
          obtain ⟨s, hs⟩ := hmapped t0 (List.mem_cons_of_mem _ ht0) td htd
          refine ⟨s, ?_⟩
          rw [a2, find_append_of_mem_keys _ _ _ (hkeys t0 ht0 td htd)]
          exact hs)
        ⟨g2, fun _ => g3⟩
    refine ⟨container1, vm1, c :: clones, new0 ++ new1, ?_, ?_, b3, ?_, b5, ?_, ?_, ?_⟩
    · rw [List.map_cons]
      unfold splitViewLoop
      simp only [castMultiTerminalDisplay, cloneMtd, a1, Option.bind_eq_bind, Option.some_bind]
      exact b1
    · rw [b2, g1]
      simp
    · rw [b4, a2, List.append_assoc]
    · exact Nat.le_trans a4 b6
    · rw [List.map_cons, List.map_cons, b7, b4,
        sessionsOfTree_append _ _ c (fun d hd => (a6 d hd).2), a5]
      congr 1
      apply List.map_congr_left
      intro t0 ht0
      rw [a2, sessionsOfTree_append _ _ t0 (hkeys t0 ht0)]
    · intro cl hcl d hd
      rcases List.mem_cons.mp hcl with h | h
      · rw [h] at hd
        refine ⟨(a6 d hd).1, ?_⟩
        rw [b4, keys_append]
        exact List.mem_append_left _ (a6 d hd).2
      · exact ⟨Nat.le_trans a4 (b8 cl h d hd).1, (b8 cl h d hd).2⟩

/-- C13: for a manager whose active container holds `n` tabs that are all pane trees, with
every display of these trees mapped to a session and new display addresses not yet in use:
when `n >= 1`, `splitView(orientation)` returns after it appended exactly one container to
the splitter with that orientation, holding one clone per tab in tab order, each clone with
the same splits and the same sessions on new displays, the existing containers (so the tabs
of the originally active one) and the existing entries of the session map being unchanged;
when `n = 0` the new container has no current widget and `splitView` dereferences the null
pointer `container->currentWidget()`. -/
theorem splitView_clones_tabs_unless_container_is_empty (vm : ViewManager) (vs : ViewSplitter)
    (c : TabbedViewContainer) (trees : List MultiTerminalDisplay) (orientation : Orientation)
    (hvs : vm.viewSplitter = some vs) (hc : vs.activeContainer = some c)
    (htabs : c.tabs = trees.map QWidget.multiTerminalDisplay)
    (hmapped : ∀ t ∈ trees, ∀ td ∈ t.leaves, ∃ s, find vm.sessionMap td = some (some s))
    (hfresh : AddressesFresh vm) :
    (trees = [] → splitView vm orientation = none) ∧
    (trees ≠ [] →
      ∃ (vm1 : ViewManager) (vs1 : ViewSplitter) (container1 : TabbedViewContainer)
          (clones : List MultiTerminalDisplay) (new : SessionMap),
        splitView vm orientation = some vm1 ∧
        vm1.viewSplitter = some vs1 ∧
        vs1.containers = vs.containers ++ [container1] ∧
        vs1.containers.get? vs.active = some c ∧
        vs1.orientation = orientation ∧
        container1.tabs = clones.map QWidget.multiTerminalDisplay ∧
        clones.length = trees.length ∧
        clones.map (sessionsOfTree vm1.sessionMap) = trees.map (sessionsOfTree vm.sessionMap) ∧
        (∀ cl ∈ clones, ∀ d ∈ cl.leaves, vm.nextDisplay ≤ d ∧ d ∈ keys vm1.sessionMap) ∧
        vm1.sessionMap = vm.sessionMap ++ new) := by
  constructor
  · intro hnil
    rw [hnil] at htabs
    unfold splitView
    simp only [hvs, hc, htabs, List.map_nil, splitViewLoop, Option.bind_eq_bind,
      Option.some_bind]
    rfl
  · intro hne
    obtain ⟨container1, vm0, clones, new, b1, b2, b3, b4, _, _, b7, b8⟩ :=
      splitViewLoop_spec trees createContainer vm vs hvs hfresh hmapped
        ⟨by decide, fun h => absurd rfl h⟩
    obtain ⟨vs0, f1, f2, f3, _⟩ := splitViewLoop_frame _ _ vm vs _ hvs b1
    have f1 : vm0.viewSplitter = some vs0 := f1
    have hlen : clones.length = trees.length := by
      have := congrArg List.length b7
      simpa using this
    have htabs1 : container1.tabs = clones.map QWidget.multiTerminalDisplay := by
      rw [b2]
      rfl
    have hne1 : container1.tabs ≠ [] := by
      intro h
      rw [htabs1] at h
      have := congrArg List.length h
      simp only [List.length_map, List.length_nil] at this
      rw [hlen] at this
      exact hne (List.length_eq_zero.mp this)
    have hcw : ∃ w, container1.currentWidget = some w := by
      unfold TabbedViewContainer.currentWidget TabbedViewContainer.widget
      have h0 := b3.2 hne1
      rw [if_pos h0]
      have hlt : container1.currentIndex.toNat < container1.tabs.length := by
        have := b3.1
        omega
      exact ⟨_, List.get?_eq_get hlt⟩
    obtain ⟨w, hw⟩ := hcw
    have hget : vs.containers.get? vs.active = some c := hc
    refine ⟨{ vm0 with
        viewSplitter := some { vs0.addContainer container1 orientation with
          active := (vs0.addContainer container1 orientation).containers.length - 1 }
        log := vm0.log ++ [Effect.splitViewToggle
          (decide (0 < (vs0.addContainer container1 orientation).containers.length))] },
      { vs0.addContainer container1 orientation with
          active := (vs0.addContainer container1 orientation).containers.length - 1 },
      container1, clones, new, ?_, rfl, ?_, ?_, ?_, htabs1, hlen, b7, b8, b4⟩
    · unfold splitView
      simp only [hvs, hc, htabs, b1, f1, hw, Option.bind_eq_bind, Option.some_bind]
    · simp [ViewSplitter.addContainer, f2]
    · simp only [ViewSplitter.addContainer, f2]
      rw [List.get?_eq_getElem?] at hget ⊢
      rw [List.getElem?_append_left (List.getElem?_eq_some.mp hget).1]
      exact hget
    · rfl

/-- C13, at concrete states: in `emptyContainer` the active container has no tab and
`splitView` dereferences the null current widget of the new container; in `panesAndTab`
the two tabs are cloned in order into one new container. -/
theorem splitView_clones_tabs_unless_container_is_empty_witness :
    emptyContainer.viewSplitter = some { containers := [{}] } ∧
    splitView emptyContainer Orientation.Horizontal = none ∧
    (∀ t ∈ panesAndTabTrees, ∀ td ∈ t.leaves,
      ∃ s, find panesAndTab.sessionMap td = some (some s)) ∧
    AddressesFresh panesAndTab ∧
    ∃ (vm1 : ViewManager) (vs1 : ViewSplitter) (container1 : TabbedViewContainer)
        (clones : List MultiTerminalDisplay) (new : SessionMap),
      splitView panesAndTab Orientation.Horizontal = some vm1 ∧
      vm1.viewSplitter = some vs1 ∧
      vs1.containers = panesAndTabSplitter.containers ++ [container1] ∧
      vs1.containers.get? panesAndTabSplitter.active = some panesAndTabContainer ∧
      vs1.orientation = Orientation.Horizontal ∧
      container1.tabs = clones.map QWidget.multiTerminalDisplay ∧
      clones.length = panesAndTabTrees.length ∧
      clones.map (sessionsOfTree vm1.sessionMap) =
        panesAndTabTrees.map (sessionsOfTree panesAndTab.sessionMap) ∧
      (∀ cl ∈ clones, ∀ d ∈ cl.leaves,
        panesAndTab.nextDisplay ≤ d ∧ d ∈ keys vm1.sessionMap) ∧
      vm1.sessionMap = panesAndTab.sessionMap ++ new := by
  have hmapped : ∀ t ∈ panesAndTabTrees, ∀ td ∈ t.leaves,
      ∃ s, find panesAndTab.sessionMap td = some (some s) := by
    intro t ht td htd
    simp only [panesAndTabTrees, List.mem_cons, List.mem_singleton, List.not_mem_nil,
      or_false] at ht
    rcases ht with h | h
    · rw [h] at htd
      simp only [MultiTerminalDisplay.leaves, List.mem_append, List.mem_singleton] at htd
      rcases htd with h1 | h1
      · exact ⟨100, by rw [h1]; rfl⟩
      · exact ⟨200, by rw [h1]; rfl⟩
    · rw [h] at htd
      simp only [MultiTerminalDisplay.leaves, List.mem_singleton] at htd
      exact ⟨100, by rw [htd]; rfl⟩
  have hfresh : AddressesFresh panesAndTab := by
    intro k hk
    simp only [panesAndTab, keys, List.map_cons, List.map_nil, List.mem_cons,
      List.mem_singleton, List.not_mem_nil, or_false] at hk
    rcases hk with h | h | h <;> rw [h] <;> decide
  exact ⟨rfl,
    (splitView_clones_tabs_unless_container_is_empty emptyContainer { containers := [{}] } {}
      [] Orientation.Horizontal rfl rfl rfl (fun _ h => absurd h (List.not_mem_nil _))
      (fun _ h => absurd h (List.not_mem_nil _))).1 rfl,
    hmapped, hfresh,
    (splitView_clones_tabs_unless_container_is_empty panesAndTab panesAndTabSplitter
      panesAndTabContainer panesAndTabTrees Orientation.Horizontal rfl rfl rfl hmapped
      hfresh).2 (by decide)⟩

end ViewManager
end Konsole

namespace Konsole
namespace ViewManager
open QHash

theorem toInt32_of_int (x : Int) (h1 : -2147483648 ≤ x) (h2 : x < 2147483648) :
    toInt32 x = x := by
  unfold toInt32
  omega

theorem registeredObjects_construct (lastManagerId : Int) (d : TerminalDisplay)
    (sm : SessionManager) (collection : Option KActionCollection) :
    registeredObjects (construct lastManagerId d sm collection).1.log =
      [objectPath (construct lastManagerId d sm collection).1.managerId] := rfl

/-- The managers constructed from a counter value `l` up to which no overflow happens get the
ids `l + 1`, `l + 2`, ... in order. -/
theorem constructAll_spec
    (args : List (TerminalDisplay × SessionManager × Option KActionCollection)) :
    ∀ l : Int, 0 ≤ l → l + args.length < 2147483648 →
      (constructAll l args).1.map (fun vm => vm.managerId) =
        (List.range args.length).map (fun (k : Nat) => l + (k : Int) + 1) ∧
      (constructAll l args).2 = l + args.length ∧
      (constructAll l args).1.length = args.length ∧
      (∀ vm ∈ (constructAll l args).1,
        registeredObjects vm.log = [objectPath vm.managerId]) := by
  induction args with
  | nil =>
    intro l _ _
    exact ⟨rfl, by simp [constructAll], rfl, fun vm h => absurd h (List.not_mem_nil _)⟩
  | cons a rest ih =>
    intro l h0 h1
    simp only [List.length_cons, Nat.cast_add, Nat.cast_one] at h1
    have hw : toInt32 (l + 1) = l + 1 := toInt32_of_int _ (by omega) (by omega)
    have hr : (construct l a.1 a.2.1 a.2.2).2 = l + 1 := hw
    have hid : (construct l a.1 a.2.1 a.2.2).1.managerId = l + 1 := hw
    obtain ⟨i1, i2, i3, i4⟩ := ih (l + 1) (by omega) (by omega)
    refine ⟨?_, ?_, ?_, ?_⟩
    · simp only [constructAll, List.map_cons, hr, hid, i1, List.length_cons]
      rw [List.range_succ_eq_map, List.map_cons, List.map_map]
      congr 1
      · simp
      · apply List.map_congr_left
        intro k _
        simp only [Function.comp, Nat.cast_succ]
        omega
    · simp only [constructAll, hr, i2, List.length_cons, Nat.cast_add, Nat.cast_one]
      omega
    · simp only [constructAll, hr, List.length_cons, i3]
    · intro vm hvm
      simp only [constructAll, hr, List.mem_cons] at hvm
      rcases hvm with h | h
      · rw [h]
        exact registeredObjects_construct _ _ _ _
      · exact i4 vm h

/-- C21: in a process that constructs fewer than 2^31 managers (so that the `int` counter
does not overflow), starting from the static value 0 of `lastManagerId`, the managers get
the ids 1, 2, 3, ... in construction order: the k-th gets id k, each construction raises
the counter by one, no two managers share an id, and each manager registers exactly one
object, at the path `/Windows/<managerId>`. -/
theorem manager_ids_increment_and_are_unique
    (args : List (TerminalDisplay × SessionManager × Option KActionCollection))
    (h : args.length < 2147483648) :
    (constructAll 0 args).1.map (fun vm => vm.managerId) =
      (List.range args.length).map (fun (k : Nat) => (k : Int) + 1) ∧
    (constructAll 0 args).2 = args.length ∧
    ((constructAll 0 args).1.map (fun vm => vm.managerId)).Nodup ∧
    (∀ k vm, (constructAll 0 args).1.get? k = some vm →
      vm.managerId = (k : Int) + 1 ∧
      registeredObjects vm.log = ["/Windows/" ++ toString ((k : Int) + 1)]) ∧
    (∀ l d sm collection,
      (construct l d sm collection).2 = toInt32 (l + 1) ∧
      (construct l d sm collection).1.managerId = (construct l d sm collection).2) := by
  obtain ⟨i1, i2, i3, i4⟩ := constructAll_spec args 0 (Int.le_refl 0) (by omega)
  have hids : (constructAll 0 args).1.map (fun vm => vm.managerId) =
      (List.range args.length).map (fun (k : Nat) => (k : Int) + 1) := by
    rw [i1]
    apply List.map_congr_left
    intro k _
    omega
  refine ⟨hids, by rw [i2]; omega, ?_, ?_, fun _ _ _ _ => ⟨rfl, rfl⟩⟩
  · rw [hids]
    apply List.Nodup.map
    · intro a b hab
      have hab1 : (a : Int) + 1 = (b : Int) + 1 := hab
      have : (a : Int) = b := by omega
      exact_mod_cast this
    · exact List.nodup_range _
  · intro k vm hk
    have hmem : vm ∈ (constructAll 0 args).1 := by
      rw [List.get?_eq_getElem?] at hk
      obtain ⟨hlt, heq⟩ := List.getElem?_eq_some.mp hk
      rw [← heq]
      exact List.getElem_mem ..
    have hid : vm.managerId = (k : Int) + 1 := by
      have h1 : ((constructAll 0 args).1.map (fun vm => vm.managerId)).get? k =
          some vm.managerId := by
        rw [List.get?_eq_getElem?, List.getElem?_map, ← List.get?_eq_getElem?, hk]
        rfl
      rw [hids, List.get?_eq_getElem?, List.getElem?_map] at h1
      have hlt : k < args.length := by
        rw [← i3]
        rw [List.get?_eq_getElem?] at hk
        exact (List.getElem?_eq_some.mp hk).1
      rw [List.getElem?_range hlt] at h1
      exact (Option.some.inj h1).symm
    refine ⟨hid, ?_⟩
    rw [i4 vm hmem, hid]
    rfl

/-- C21, at a concrete run: three managers constructed in a row get the ids 1, 2 and 3 and
the paths `/Windows/1`, `/Windows/2` and `/Windows/3`. -/
theorem manager_ids_increment_and_are_unique_witness :
    (constructAll 0 [(50, {}, none), (60, {}, some 1), (70, {}, none)]).1.map
        (fun vm => (vm.managerId, registeredObjects vm.log)) =
      [(1, ["/Windows/1"]), (2, ["/Windows/2"]), (3, ["/Windows/3"])] ∧
    (constructAll 0 [(50, {}, none), (60, {}, some 1), (70, {}, none)]).1.map
        (fun vm => vm.managerId) =
      (List.range 3).map (fun (k : Nat) => (k : Int) + 1) :=
  ⟨by decide,
   (manager_ids_increment_and_are_unique
    [(50, {}, none), (60, {}, some 1), (70, {}, none)] (by decide)).1⟩

end ViewManager
end Konsole

namespace Konsole
namespace ViewManager
open QHash

theorem onActiveContainer_null (vm : ViewManager) (vs : ViewSplitter)
    (f : TabbedViewContainer → TabbedViewContainer)
    (hvs : vm.viewSplitter = some vs) (hc : vs.activeContainer = none) :
    onActiveContainer vm f = none := by
  unfold onActiveContainer
  simp [hvs, hc]

theorem onActiveContainer_some (vm : ViewManager) (vs : ViewSplitter)
    (f : TabbedViewContainer → TabbedViewContainer) (c : TabbedViewContainer)
    (hvs : vm.viewSplitter = some vs) (hc : vs.activeContainer = some c) :
    onActiveContainer vm f =
      some { vm with
        viewSplitter := some { vs with containers := vs.containers.set vs.active (f c) } } := by
  unfold onActiveContainer
  simp [hvs, hc]

/-- C22 (the defect): with the splitter alive but without an active container, each of
`nextView`, `previousView`, `lastView`, `moveActiveViewLeft`, `moveActiveViewRight`,
`switchToView` and `detachActiveView` dereferences the null container pointer instead of
returning early (the `Q_ASSERT` in front of the call is compiled out in a release build and
no null check follows it).  With an active container the first six return, only that
container being changed. -/
theorem navigation_slots_dereference_null_container (vm : ViewManager) (vs : ViewSplitter)
    (enableDetaching : Bool) (index : Int) (hvs : vm.viewSplitter = some vs) :
    (vs.activeContainer = none →
      nextView vm = none ∧ previousView vm = none ∧ lastView vm = none ∧
      moveActiveViewLeft vm = none ∧ moveActiveViewRight vm = none ∧
      switchToView vm index = none ∧ detachActiveView enableDetaching vm = none) ∧
    (∀ c, vs.activeContainer = some c →
      nextView vm = some { vm with viewSplitter := some { vs with
        containers := vs.containers.set vs.active c.activateNextView } } ∧
      previousView vm = some { vm with viewSplitter := some { vs with
        containers := vs.containers.set vs.active c.activatePreviousView } } ∧
      lastView vm = some { vm with viewSplitter := some { vs with
        containers := vs.containers.set vs.active c.activateLastView } } ∧
      moveActiveViewLeft vm = some { vm with viewSplitter := some { vs with
        containers := vs.containers.set vs.active
          (c.moveActiveView TabbedViewContainer.MoveDirection.MoveViewLeft) } } ∧
      moveActiveViewRight vm = some { vm with viewSplitter := some { vs with
        containers := vs.containers.set vs.active
          (c.moveActiveView TabbedViewContainer.MoveDirection.MoveViewRight) } } ∧
      switchToView vm index = some { vm with viewSplitter := some { vs with
        containers := vs.containers.set vs.active (c.setCurrentIndex index) } } ∧
      detachActiveView enableDetaching vm =
        detachView enableDetaching vm vs.active c.currentWidget) := by
  constructor
  · intro hc
    refine ⟨onActiveContainer_null vm vs _ hvs hc, onActiveContainer_null vm vs _ hvs hc,
      onActiveContainer_null vm vs _ hvs hc, onActiveContainer_null vm vs _ hvs hc,
      onActiveContainer_null vm vs _ hvs hc, onActiveContainer_null vm vs _ hvs hc, ?_⟩
    unfold detachActiveView
    simp [hvs, hc]
  · intro c hc
    refine ⟨onActiveContainer_some vm vs _ c hvs hc, onActiveContainer_some vm vs _ c hvs hc,
      onActiveContainer_some vm vs _ c hvs hc, onActiveContainer_some vm vs _ c hvs hc,
      onActiveContainer_some vm vs _ c hvs hc, onActiveContainer_some vm vs _ c hvs hc, ?_⟩
    unfold detachActiveView
    simp [hvs, hc]

/-- C22, at the failing input: a freshly constructed manager has a splitter without
containers, so no active container; each of the seven slots dereferences null.  In
`twoTabs`, with an active container, `nextView` returns and wraps to the first tab. -/
theorem navigation_slots_dereference_null_container_witness :
    freshManager.viewSplitter = some {} ∧
    (({} : ViewSplitter).activeContainer = none) ∧
    (nextView freshManager = none ∧ previousView freshManager = none ∧
      lastView freshManager = none ∧ moveActiveViewLeft freshManager = none ∧
      moveActiveViewRight freshManager = none ∧ switchToView freshManager 0 = none ∧
      detachActiveView true freshManager = none) ∧
    (nextView twoTabs).map (fun v => v.viewSplitter.map (fun s => s.containers)) =
      some (some [{ tabs := [rootTab 50 0, rootTab 50 1], currentIndex := 0 }]) :=
  ⟨rfl, rfl,
   (navigation_slots_dereference_null_container freshManager {} true 0 rfl).1 rfl,
   by decide⟩

/-- C23: when the splitter has been destroyed, `sessionFinished` returns the state it was
called in, for every sender (also a null one): the session map, the plugged controller and
every other field are unchanged and the log is the same, so no `unplugController` and no
other signal is emitted. -/
theorem sessionFinished_after_splitter_destroyed (vm : ViewManager) (session : Option Session)
    (h : vm.viewSplitter = none) :
    sessionFinished vm session = vm ∧
    (sessionFinished vm session).sessionMap = vm.sessionMap ∧
    (sessionFinished vm session).pluggedController = vm.pluggedController ∧
    (sessionFinished vm session).log = vm.log ∧
    unplugSignals (sessionFinished vm session).log = unplugSignals vm.log := by
  have heq : sessionFinished vm session = vm := by
    unfold sessionFinished
    rw [h]
  rw [heq]
  exact ⟨rfl, rfl, rfl, rfl, rfl⟩

/-- C23, at a concrete state: in `splitterDestroyed` session 100 has an entry and its
controller is plugged; `sessionFinished` for session 100 changes nothing. -/
theorem sessionFinished_after_splitter_destroyed_witness :
    splitterDestroyed.viewSplitter = none ∧
    splitterDestroyed.pluggedController = some { session := some 100, view := 50 } ∧
    find splitterDestroyed.sessionMap 50 = some (some 100) ∧
    sessionFinished splitterDestroyed (some 100) = splitterDestroyed :=
  ⟨rfl, rfl, by decide,
   (sessionFinished_after_splitter_destroyed splitterDestroyed (some 100) rfl).1⟩

theorem detachView_containerCount (b : Bool) (vm vm1 : ViewManager) (container : Nat)
    (view : Option QWidget) (h : detachView b vm container view = some vm1) :
    containerCount vm1 = containerCount vm := by
  unfold detachView at h
  split at h
  · rw [← Option.some.inj h]
  · split at h
    · rw [← Option.some.inj h]
    · rename_i viewToDetach _
      obtain ⟨f1, _⟩ := detachViewLoop_viewSplitter
        (getTerminalDisplaysOfContainer viewToDetach) vm
      simp only at h
      split at h
      · rw [← Option.some.inj h]
        unfold containerCount
        rw [f1]
      · cases hvs : vm.viewSplitter with
        | none =>
          rw [f1, hvs] at h
          exact Option.noConfusion h
        | some vs =>
          rw [f1, hvs] at h
          simp only [Option.bind_eq_bind, Option.some_bind, Option.bind_eq_some] at h
          obtain ⟨c, _, h2⟩ := h
          split at h2
          · rw [← Option.some.inj h2]
            simp [containerCount, removeContainer, hvs]
          · rw [← Option.some.inj h2]
            simp [containerCount, hvs]

/-- C24: with the splitter alive, `closeActiveContainer` and `closeOtherContainers` return
and leave the list of containers and the session map as they were: `closeOtherContainers`
changes nothing at all, and `closeActiveContainer` changes nothing with fewer than two
containers and otherwise only makes the next container the active one.  Whenever
`detachView` returns, the splitter has as many containers as before, also when the detached
view was the last tab of its container. -/
theorem containers_are_never_reclaimed (vm : ViewManager) (vs : ViewSplitter)
    (enableDetaching : Bool) (container : Nat) (view : Option QWidget)
    (hvs : vm.viewSplitter = some vs) :
    closeActiveContainer vm =
      some { vm with
        viewSplitter :=
          some (if 1 < vs.containers.length then vs.activateNextContainer else vs) } ∧
    vs.activateNextContainer.containers = vs.containers ∧
    (¬ 1 < vs.containers.length → closeActiveContainer vm = some vm) ∧
    closeOtherContainers vm = some vm ∧
    (∀ vm1, detachView enableDetaching vm container view = some vm1 →
      containerCount vm1 = containerCount vm) := by
  have h1 : closeActiveContainer vm =
      some { vm with
        viewSplitter :=
          some (if 1 < vs.containers.length then vs.activateNextContainer else vs) } := by
    unfold closeActiveContainer closeActiveContainerWith
    simp only [hvs, Option.bind_eq_bind, Option.some_bind]
    split
    · unfold nextContainer removeContainer
      simp only [hvs, Option.bind_eq_bind, Option.some_bind]
    · congr 1
      cases vm
      simp only at hvs
      rw [hvs]
  refine ⟨h1, ?_, ?_, closeOtherContainers_eq vm vs hvs,
    fun vm1 h => detachView_containerCount enableDetaching vm vm1 container view h⟩
  · unfold ViewSplitter.activateNextContainer
    split <;> rfl
  · intro hn
    rw [h1, if_neg hn]
    congr 1
    cases vm
    simp only at hvs
    rw [hvs]

/-- C24, at a concrete state: in `threeContainers` detaching the only tab of container 1
leaves three containers, the second without tabs; `closeActiveContainer` makes container 2
the active one and `closeOtherContainers` changes nothing. -/
theorem containers_are_never_reclaimed_witness :
    threeContainers.viewSplitter = some threeContainersSplitter ∧
    (detachView true threeContainers 1 (some (rootTab 50 1))).map
        (fun v => v.viewSplitter.map (fun s => s.containers.map (fun c => c.tabs))) =
      some (some [[rootTab 50 0], [], [rootTab 50 2]]) ∧
    closeActiveContainer threeContainers =
      some { threeContainers with
        viewSplitter :=
          some (if 1 < threeContainersSplitter.containers.length then
            threeContainersSplitter.activateNextContainer else threeContainersSplitter) } ∧
    (closeActiveContainer threeContainers).map
        (fun v => v.viewSplitter.map (fun s => (s.active, s.containers.length))) =
      some (some (2, 3)) ∧
    closeOtherContainers threeContainers = some threeContainers :=
  have h := containers_are_never_reclaimed threeContainers threeContainersSplitter true 1
    (some (rootTab 50 1)) rfl
  ⟨rfl, by decide, h.1, by decide, h.2.2.2.1⟩

end ViewManager
end Konsole

namespace Konsole
namespace ViewManager
open QHash

theorem controllerChanged_managerId (vm vm1 : ViewManager) (c : SessionController)
    (h : controllerChanged vm c = some vm1) :
    vm1.managerId = vm.managerId ∧ vm1.sessionManager = vm.sessionManager := by
  unfold controllerChanged at h
  split at h
  · rw [← Option.some.inj h]
    exact ⟨rfl, rfl⟩
  · split at h
    · exact Option.noConfusion h
    · rw [← Option.some.inj h]
      exact ⟨rfl, rfl⟩

theorem createController_managerId (vm : ViewManager) (s : Session) (v : TerminalDisplay)
    (r : SessionController × ViewManager) (h : createController vm s v = some r) :
    r.2.managerId = vm.managerId ∧ r.2.sessionManager = vm.sessionManager := by
  unfold createController at h
  split at h
  · simp only [Option.map_eq_some'] at h
    obtain ⟨vm1, h1, h2⟩ := h
    rw [← h2]
    exact controllerChanged_managerId _ _ _ h1
  · rw [← Option.some.inj h]
    exact ⟨rfl, rfl⟩

theorem createViewIn_managerId (vm vm1 : ViewManager) (s : Session) (container : Nat)
    (index : Int) (h : createViewIn vm s container index = some vm1) :
    vm1.managerId = vm.managerId := by
  unfold createViewIn at h
  simp only [Option.bind_eq_bind, Option.bind_eq_some] at h
  obtain ⟨r, hr, vs, _, c, _, h3⟩ := h
  rw [← Option.some.inj h3]
  exact (createController_managerId _ _ _ _ hr).1

theorem createViewLoop_managerId (s : Session) (index : Int) (cs : List Nat) :
    ∀ vm vm1 : ViewManager, cs.foldlM (fun v c => createViewIn v s c index) vm = some vm1 →
      vm1.managerId = vm.managerId := by
  induction cs with
  | nil =>
    intro vm vm1 h
    have h0 : some vm = some vm1 := h
    rw [← Option.some.inj h0]
  | cons c cs ih =>
    intro vm vm1 h
    rw [List.foldlM_cons] at h
    simp only [Option.bind_eq_bind, Option.bind_eq_some] at h
    obtain ⟨vm2, h1, h2⟩ := h
    rw [ih vm2 vm1 h2, createViewIn_managerId vm vm2 s c index h1]

/-- The overload `createView(session)` does not touch the manager id. -/
theorem createView_managerId (vm vm1 : ViewManager) (s : Session)
    (h : createView vm s = some vm1) : vm1.managerId = vm.managerId := by
  unfold createView at h
  cases hvs : vm.viewSplitter with
  | none =>
    simp [hvs] at h
  | some vs =>
    simp only [hvs, Option.bind_eq_bind, Option.some_bind] at h
    split at h
    · simp only [Option.bind_eq_some] at h
      obtain ⟨index, _, h3⟩ := h
      have h4 := createViewLoop_managerId s index _ _ vm1 h3
      exact h4
    · have h4 := createViewLoop_managerId s (-1) _ _ vm1 h
      exact h4

theorem startNewSession_managerId (vm vm1 : ViewManager) (sessionId : Session → Int)
    (session : Session) (id : Int) (h : startNewSession vm sessionId session = some (id, vm1)) :
    vm1.managerId = vm.managerId := by
  unfold startNewSession at h
  simp only [Option.bind_eq_bind, Option.bind_eq_some] at h
  obtain ⟨vm2, h2, h3⟩ := h
  have h4 := (Prod.mk.inj (Option.some.inj h3)).2
  rw [← h4]
  exact createView_managerId { vm with
    sessionManager := vm.sessionManager.addEnvironmentEntry session (dbusWindowEntry vm) }
    vm2 session h2

theorem dbusWindowEntry_eq (vm : ViewManager) :
    dbusWindowEntry vm = "KONSOLE_DBUS_WINDOW=" ++ objectPath vm.managerId := by
  unfold dbusWindowEntry objectPath
  rw [← String.append_assoc]
  rfl

theorem runIfNotRunning_environment (vm : ViewManager) (s : Session) :
    (runIfNotRunning vm s).sessionManager.environment = vm.sessionManager.environment ∧
    (runIfNotRunning vm s).sessionManager.created = vm.sessionManager.created ∧
    (runIfNotRunning vm s).managerId = vm.managerId := by
  unfold runIfNotRunning
  split
  · exact ⟨rfl, rfl, rfl⟩
  · exact ⟨rfl, rfl, rfl⟩

/-- The default-profile fallback of `restoreSessions` creates its session without adding an
environment entry. -/
theorem startDefaultProfile_environment (vm : ViewManager) (h : SplitterReady vm) :
    ∃ vm1, startDefaultProfile vm = some vm1 ∧
      vm1.sessionManager.created =
        vm.sessionManager.created ++
          [(vm.sessionManager.nextSession, vm.sessionManager.defaultProfile)] ∧
      vm1.sessionManager.environment = vm.sessionManager.environment := by
  have hready : SplitterReady
      { vm with sessionManager :=
          (vm.sessionManager.createSession vm.sessionManager.defaultProfile).2 } := h
  obtain ⟨vm1, hcv, _, _, _, _, hsm⟩ :=
    createView_frame _ vm.sessionManager.nextSession hready
  obtain ⟨e1, e2, _⟩ := runIfNotRunning_environment vm1 vm.sessionManager.nextSession
  refine ⟨runIfNotRunning vm1 vm.sessionManager.nextSession, ?_, ?_, ?_⟩
  · unfold startDefaultProfile
    simp only [SessionManager.createSession, Option.bind_eq_bind]
    simp only [SessionManager.createSession] at hcv
    rw [hcv]
    rfl
  · rw [e2, hsm]
    rfl
  · rw [e1, hsm]
    rfl

/-- What `createMultiTerminalView` does to the session registry whenever it returns. -/
theorem createMultiTerminalView_environment (vm vm1 : ViewManager)
    (currentDir : SessionController → String) (startInCurrentSessionDir : Profile → Bool)
    (orientation : Orientation)
    (h : createMultiTerminalView vm currentDir startInCurrentSessionDir orientation = some vm1) :
    vm1.sessionManager.environment =
      vm.sessionManager.environment ++ [(vm.sessionManager.nextSession, dbusWindowEntry vm)] ∧
    vm1.sessionManager.created =
      vm.sessionManager.created ++
        [(vm.sessionManager.nextSession, vm.sessionManager.defaultProfile)] ∧
    vm1.managerId = vm.managerId := by
  unfold createMultiTerminalView at h
  simp only [Option.bind_eq_bind, Option.bind_eq_some] at h
  obtain ⟨controller, _, r, hr, vs, _, c, _, h3⟩ := h
  obtain ⟨m1, m2⟩ := createController_managerId _ _ _ _ hr
  have key : r.2.sessionManager.environment =
        vm.sessionManager.environment ++
          [(vm.sessionManager.nextSession, dbusWindowEntry vm)] ∧
      r.2.sessionManager.created =
        vm.sessionManager.created ++
          [(vm.sessionManager.nextSession, vm.sessionManager.defaultProfile)] ∧
      r.2.managerId = vm.managerId := by
    rw [m1, m2]
    refine ⟨?_, ?_, rfl⟩
    · simp only [SessionManager.addView, SessionManager.addEnvironmentEntry,
        SessionManager.createSession]
      split <;> rfl
    · simp only [SessionManager.addView, SessionManager.addEnvironmentEntry,
        SessionManager.createSession]
      split <;> rfl
  split at h3
  · rw [← Option.some.inj h3]
    exact key
  · rw [← Option.some.inj h3]
    exact key

theorem createMultiTerminalView_returns (vm : ViewManager) (vs : ViewSplitter)
    (controller : SessionController) (c : TabbedViewContainer)
    (currentDir : SessionController → String) (startInCurrentSessionDir : Profile → Bool)
    (orientation : Orientation)
    (hp : vm.pluggedController = some controller) (hvs : vm.viewSplitter = some vs)
    (hc : vs.activeContainer = some c) :
    ∃ vm1, createMultiTerminalView vm currentDir startInCurrentSessionDir orientation =
      some vm1 := by
  unfold createMultiTerminalView activeViewController createController
  simp only [hp, hvs, hc, Option.bind_eq_bind, Option.some_bind]
  split
  · exact ⟨_, rfl⟩
  · exact ⟨_, rfl⟩

end ViewManager
end Konsole

namespace Konsole
namespace ViewManager
open QHash

end ViewManager
end Konsole

namespace Konsole
namespace ViewManager
open QHash

/-- C26, counterexample: a manager constructed with a null action collection has no
navigation; after `setNavigationMethod(TabbedNavigation)` the call `navigationMethod()`
still returns `NoNavigation`. -/
theorem setNavigationMethod_ignored_without_collection :
    (construct 0 50 {} none).1.actionCollection = none ∧
    (construct 0 50 {} none).1.navigationMethod = NavigationMethod.NoNavigation ∧
    (setNavigationMethod (construct 0 50 {} none).1 (fun _ => true)
      NavigationMethod.TabbedNavigation).navigationMethod = NavigationMethod.NoNavigation ∧
    (setNavigationMethod (construct 0 50 {} none).1 (fun _ => true)
      NavigationMethod.TabbedNavigation).navigationMethod ≠
        NavigationMethod.TabbedNavigation := by
  decide

/-- C26, amended: for every navigation method `m` and every manager with an action
collection, `navigationMethod()` returns `m` after `setNavigationMethod(m)`, and each of
the nine navigation actions that the collection holds is enabled exactly when `m` is not
`NoNavigation`.  For a manager whose action collection is null (in a release build)
`setNavigationMethod(m)` changes nothing: `navigationMethod()` returns what it returned
before, which is `NoNavigation` right after construction. -/
theorem setNavigationMethod_round_trip_with_collection (vm : ViewManager)
    (action : String → Bool) (method : NavigationMethod) :
    (∀ collection, vm.actionCollection = some collection →
      (setNavigationMethod vm action method).navigationMethod = method ∧
      (setNavigationMethod vm action method).log =
        vm.log ++ (navigationActions.filter action).map (fun actionName =>
          Effect.setEnabled actionName (decide (method ≠ NavigationMethod.NoNavigation))) ∧
      setNavigationMethod (setNavigationMethod vm action method) action method =
        { setNavigationMethod vm action method with
          log := (setNavigationMethod vm action method).log ++
            (navigationActions.filter action).map (fun actionName =>
              Effect.setEnabled actionName
                (decide (method ≠ NavigationMethod.NoNavigation))) }) ∧
    (vm.actionCollection = none →
      setNavigationMethod vm action method = vm ∧
      (setNavigationMethod vm action method).navigationMethod = vm.navigationMethod) ∧
    (∀ l d sm collection,
      (construct l d sm collection).1.navigationMethod = NavigationMethod.NoNavigation ∧
      (construct l d sm collection).1.actionCollection = collection) := by
  refine ⟨?_, ?_, fun _ _ _ _ => ⟨rfl, rfl⟩⟩
  · intro collection h
    have h1 : setNavigationMethod vm action method =
        { vm with
          navigationMethod := method
          log := vm.log ++ (navigationActions.filter action).map (fun actionName =>
            Effect.setEnabled actionName
              (decide (method ≠ NavigationMethod.NoNavigation))) } := by
      unfold setNavigationMethod
      rw [h]
    refine ⟨by rw [h1], by rw [h1], ?_⟩
    rw [h1]
    unfold setNavigationMethod
    simp only [h]
  · intro h
    have h1 : setNavigationMethod vm action method = vm := by
      unfold setNavigationMethod
      rw [h]
    exact ⟨h1, by rw [h1]⟩

theorem viewProperties_eq (vm : ViewManager) :
    viewProperties vm = vm.viewSplitter.map (fun _ => []) := by
  unfold viewProperties
  cases vm.viewSplitter with
  | none => rfl
  | some vs =>
    simp only [Option.bind_eq_bind, Option.some_bind, Option.map_some']
    split <;> rfl

/-- C27: while the splitter is alive (the function dereferences it), `viewProperties()`
returns the empty list, whatever the active container holds and also when there is no
active container.  In every state `containerViewsChanged` returns; it emits at most one
`viewPropertiesChanged` notification (exactly one when the splitter is alive and the
container is the active one), and that notification carries the empty list. -/
theorem viewProperties_is_always_empty (vm : ViewManager) (container : Nat) :
    viewProperties vm = vm.viewSplitter.map (fun _ => []) ∧
    (∀ vs, vm.viewSplitter = some vs → viewProperties vm = some []) ∧
    (∃ vm1, containerViewsChanged vm container = some vm1 ∧
      viewPropertiesChangedSignals vm1.log =
        viewPropertiesChangedSignals vm.log ++
          (if ∃ vs, vm.viewSplitter = some vs ∧ vs.activeContainer.isSome = true ∧
              container = vs.active then [[]] else []) ∧
      ∀ l ∈ viewPropertiesChangedSignals vm1.log,
        l ∈ viewPropertiesChangedSignals vm.log ∨ l = []) := by
  have hvp := viewProperties_eq vm
  refine ⟨hvp, fun vs hvs => by rw [hvp, hvs]; rfl, ?_⟩
  have key : ∃ vm1, containerViewsChanged vm container = some vm1 ∧
      viewPropertiesChangedSignals vm1.log =
        viewPropertiesChangedSignals vm.log ++
          (if ∃ vs, vm.viewSplitter = some vs ∧ vs.activeContainer.isSome = true ∧
              container = vs.active then [[]] else []) := by
    unfold containerViewsChanged
    cases hvs : vm.viewSplitter with
    | none =>
      refine ⟨vm, rfl, ?_⟩
      simp
    | some vs =>
      simp only
      by_cases hcond : vs.activeContainer.isSome = true ∧ container = vs.active
      · rw [if_pos hcond, hvp, hvs]
        refine ⟨_, rfl, ?_⟩
        have hex : ∃ vs0, some vs = some vs0 ∧ vs0.activeContainer.isSome = true ∧
            container = vs0.active := ⟨vs, rfl, hcond⟩
        rw [if_pos hex]
        simp [viewPropertiesChangedSignals, List.filterMap_append]
      · rw [if_neg hcond]
        refine ⟨vm, rfl, ?_⟩
        have hex : ¬ ∃ vs0, some vs = some vs0 ∧ vs0.activeContainer.isSome = true ∧
            container = vs0.active := by
          rintro ⟨vs0, h0, h1⟩
          rw [← Option.some.inj h0] at h1
          exact hcond h1
        rw [if_neg hex]
        simp
  obtain ⟨vm1, h1, h2⟩ := key
  refine ⟨vm1, h1, h2, ?_⟩
  intro l hl
  rw [h2, List.mem_append] at hl
  rcases hl with h | h
  · exact Or.inl h
  · right
    split at h
    · simpa using h
    · simp at h

end ViewManager
end Konsole

namespace Konsole
namespace ViewManager
open QHash

/-- C28: a freshly constructed manager puts new tabs at the end, and
`setNavigationBehavior` with the value 1 selects `PutNewTabAfterCurrentTab`, with the
value 0 `PutNewTabAtTheEnd`.  In a manager with a live splitter (whose active index is
valid unless it has no container) and with display addresses not yet in use,
`createView(session)` returns after it created exactly one container when the splitter had
none, chose one index, `-1` for `PutNewTabAtTheEnd` and the current index of the active
container plus 1 for `PutNewTabAfterCurrentTab`, and inserted the new tab of every
container at that index (for `-1`: as the last tab). -/
theorem createView_chooses_one_index_for_all_containers (vm : ViewManager)
    (vs : ViewSplitter) (s : Session) (hvs : vm.viewSplitter = some vs)
    (hready : vs.containers.length = 0 ∨ vs.active < vs.containers.length)
    (hfresh : AddressesFresh vm) :
    (∀ l d sm collection,
      (construct l d sm collection).1.newTabBehavior = NewTabBehavior.PutNewTabAtTheEnd) ∧
    (setNavigationBehavior vm 1).newTabBehavior = NewTabBehavior.PutNewTabAfterCurrentTab ∧
    (setNavigationBehavior vm 0).newTabBehavior = NewTabBehavior.PutNewTabAtTheEnd ∧
    (vs.containers = [] →
      (if vs.containers.length = 0 then vs.addContainer createContainer Orientation.Vertical
       else vs).containers = [createContainer]) ∧
    (vs.containers ≠ [] →
      (if vs.containers.length = 0 then vs.addContainer createContainer Orientation.Vertical
       else vs) = vs) ∧
    ∃ vm1 vs1 index, createView vm s = some vm1 ∧ vm1.viewSplitter = some vs1 ∧
      (vm.newTabBehavior = NewTabBehavior.PutNewTabAtTheEnd → index = -1) ∧
      (vm.newTabBehavior = NewTabBehavior.PutNewTabAfterCurrentTab →
        ∀ c, (if vs.containers.length = 0 then
                vs.addContainer createContainer Orientation.Vertical
              else vs).activeContainer = some c → index = c.currentIndex + 1) ∧
      vs1.containers.length = max 1 vs.containers.length ∧
      (∀ j c,
        (if vs.containers.length = 0 then vs.addContainer createContainer Orientation.Vertical
         else vs).containers.get? j = some c →
        ∃ c1, vs1.containers.get? j = some c1 ∧
          c1.tabs = (c.addView (rootTab vm.nextDisplay j) index).tabs ∧
          (index = -1 → c1.tabs = c.tabs ++ [rootTab vm.nextDisplay j]) ∧
          (0 ≤ index → index ≤ c.tabs.length →
            c1.tabs = c.tabs.take index.toNat ++ rootTab vm.nextDisplay j ::
              c.tabs.drop index.toNat)) := by
  obtain ⟨vm1, vs1, index, h1, h2, h3, h4, h5, _, _, _, h9⟩ :=
    createView_spec vm vs s hvs hready hfresh
  refine ⟨fun _ _ _ _ => rfl, rfl, rfl, ?_, ?_, vm1, vs1, index, h1, h2, h3, h4, ?_, ?_⟩
  · intro hnil
    have hz : vs.containers.length = 0 := by rw [hnil]; rfl
    rw [if_pos hz]
    simp [ViewSplitter.addContainer, hnil]
  · intro hne
    have hz : ¬ vs.containers.length = 0 := fun hz => hne (List.length_eq_zero.mp hz)
    rw [if_neg hz]
  · rw [h5]
    by_cases hz : vs.containers.length = 0
    · rw [if_pos hz, hz]
      have hnil : vs.containers = [] := List.length_eq_zero.mp hz
      simp [ViewSplitter.addContainer, hnil]
    · rw [if_neg hz]
      omega
  · intro j c hc
    obtain ⟨c1, hc1, htabs⟩ := h9 j c hc
    refine ⟨c1, hc1, htabs, ?_, ?_⟩
    · intro hi
      rw [htabs, hi, addView_tabs]
      simp
    · intro h0 hle
      have hcond : ¬ (index < 0 ∨ (c.tabs.length : Int) < index) := by omega
      rw [htabs, addView_tabs]
      simp only [hcond, if_false]

/-- C28, at a concrete state: in `firstTabCurrent` the first of two tabs is the current
one; after `setNavigationBehavior(1)` the tab of a new session goes to index 1, between the
two, and without that call it goes to the end. -/
theorem createView_chooses_one_index_for_all_containers_witness :
    (setNavigationBehavior firstTabCurrent 1).viewSplitter = some firstTabCurrentSplitter ∧
    AddressesFresh (setNavigationBehavior firstTabCurrent 1) ∧
    (createView (setNavigationBehavior firstTabCurrent 1) 300).map
        (fun v => v.viewSplitter.map (fun s => s.containers.map (fun c => c.tabs))) =
      some (some [[rootTab 50 0, rootTab 52 0, rootTab 50 1]]) ∧
    (createView firstTabCurrent 300).map
        (fun v => v.viewSplitter.map (fun s => s.containers.map (fun c => c.tabs))) =
      some (some [[rootTab 50 0, rootTab 50 1, rootTab 52 0]]) ∧
    (setNavigationBehavior (setNavigationBehavior firstTabCurrent 1) 1).newTabBehavior =
      NewTabBehavior.PutNewTabAfterCurrentTab := by
  have hfresh : AddressesFresh (setNavigationBehavior firstTabCurrent 1) := by
    intro k hk
    have hk2 : k = 50 ∨ k = 51 := by
      simpa [setNavigationBehavior, firstTabCurrent, twoTabs, keys] using hk
    rcases hk2 with h | h <;> rw [h] <;> decide
  exact ⟨rfl, hfresh, by decide, by decide,
    (createView_chooses_one_index_for_all_containers
      (setNavigationBehavior firstTabCurrent 1) firstTabCurrentSplitter 300 rfl
      (Or.inr (by decide)) hfresh).2.1⟩

end ViewManager
end Konsole

namespace Konsole
namespace KWrited

theorem find_eq_neg_one (str : QString) (c : Char) : QString.find str c = -1 ↔ c ∉ str := by
  unfold QString.find
  split
  · rename_i h
    constructor
    · intro h1
      have : (0 : Int) ≤ (List.indexOf c str : Int) := Int.ofNat_nonneg _
      omega
    · intro h1
      exact absurd h h1
  · rename_i h
    exact ⟨fun _ => h, fun _ => rfl⟩

theorem remove_at_find (str : QString) (c : Char) (h : c ∈ str) :
    QString.remove str (QString.find str c).toNat 1 = str.erase c := by
  unfold QString.find QString.remove
  rw [if_pos h, Int.toNat_ofNat, ← List.eraseIdx_eq_take_drop_succ,
    List.eraseIdx_indexOf_eq_erase]

theorem filter_erase (str : QString) (c : Char) :
    (str.erase c).filter (fun x => x != c) = str.filter (fun x => x != c) := by
  induction str with
  | nil => rfl
  | cons a l ih =>
    by_cases hac : a = c
    · rw [hac, List.erase_cons_head]
      simp
    · have hne : (a == c) = false := by simpa using hac
      rw [List.erase_cons_tail (by simpa using hac)]
      simp only [List.filter_cons]
      rw [ih]

/-- The carriage-return loop ends as soon as the fuel exceeds the number of carriage returns
in the string, and leaves the string without them. -/
theorem removeCarriageReturns_spec (fuel : Nat) :
    ∀ str : QString, str.count carriageReturn < fuel →
      removeCarriageReturns fuel str = some (str.filter (fun x => x != carriageReturn)) := by
  induction fuel with
  | zero =>
    intro str h
    exact absurd h (Nat.not_lt_zero _)
  | succ fuel ih =>
    intro str h
    unfold removeCarriageReturns
    simp only
    by_cases hmem : carriageReturn ∈ str
    · have hi : QString.find str carriageReturn ≠ -1 := fun hf =>
        (find_eq_neg_one str carriageReturn).mp hf hmem
      rw [if_pos hi, remove_at_find str carriageReturn hmem, ih, filter_erase]
      rw [List.count_erase_self]
      have hpos : 0 < str.count carriageReturn := List.count_pos_iff.mpr hmem
      omega
    · have hi : QString.find str carriageReturn = -1 :=
        (find_eq_neg_one str carriageReturn).mpr hmem
      rw [if_neg (fun hne => hne hi)]
      congr 1
      symm
      rw [List.filter_eq_self]
      intro a ha
      have hne : a ≠ carriageReturn := fun heq => hmem (heq ▸ ha)
      simpa using hne

theorem takeWhile_of_not_mem (buf : List Nat) (h : 0 ∉ buf) :
    buf.takeWhile (fun b => b != 0) = buf := by
  rw [List.takeWhile_eq_self_iff]
  intro b hb
  have hne : b ≠ 0 := fun heq => h (heq ▸ hb)
  simpa using hne

theorem length_takeWhile_of_mem (buf : List Nat) (h : 0 ∈ buf) :
    (buf.takeWhile (fun b => b != 0)).length < buf.length := by
  induction buf with
  | nil => exact absurd h (List.not_mem_nil _)
  | cons a l ih =>
    by_cases ha : a = 0
    · rw [List.takeWhile_cons_of_neg (by simp [ha])]
      simp
    · rw [List.takeWhile_cons_of_pos (by simpa using ha)]
      have hl : 0 ∈ l := by
        rcases List.mem_cons.mp h with h1 | h1
        · exact absurd h1.symm ha
        · exact h1
      have := ih hl
      simp only [List.length_cons]
      omega

theorem cString_append_zero (buf : List Nat) (h : 0 ∉ buf) : cString (buf ++ [0]) = buf := by
  unfold cString
  rw [List.takeWhile_append_of_pos]
  · simp
  · intro b hb
    have hne : b ≠ 0 := fun heq => h (heq ▸ hb)
    simpa using hne

/-- Without a zero byte in the chunk the assignment `text[len] = 0` lies inside the array
and the string read is the chunk. -/
theorem text_of_chunk_without_zero (rangeChecked : Bool) (buf : List Nat) (h : 0 ∉ buf) :
    ∃ text, setAt rangeChecked (qCString buf (buf.length + 1)) buf.length 0 = some text ∧
      cString text = buf := by
  have hq : qCString buf (buf.length + 1) = buf ++ [0] := by
    unfold qCString
    rw [Nat.add_sub_cancel, List.take_length, takeWhile_of_not_mem buf h]
  have hset : (buf ++ [0]).set buf.length 0 = buf ++ [0] := by
    rw [List.set_append_right _ _ (Nat.le_refl _)]
    simp
  refine ⟨buf ++ [0], ?_, cString_append_zero buf h⟩
  unfold setAt
  rw [hq, if_pos (by simp), hset]

/-- With a zero byte in the chunk the array is shorter than `len + 1` and the assignment
`text[len] = 0` lies outside it. -/
theorem text_of_chunk_with_zero (buf : List Nat) (h : 0 ∈ buf) :
    setAt false (qCString buf (buf.length + 1)) buf.length 0 = none ∧
    ∃ text, setAt true (qCString buf (buf.length + 1)) buf.length 0 = some text ∧
      cString text = [] := by
  have hlen : ¬ buf.length < (qCString buf (buf.length + 1)).length := by
    unfold qCString
    rw [Nat.add_sub_cancel, List.take_length, List.length_append, List.length_singleton]
    have := length_takeWhile_of_mem buf h
    omega
  constructor
  · unfold setAt
    rw [if_neg hlen]
    rfl
  · refine ⟨(qCString buf (buf.length + 1)).set 0 0, ?_, ?_⟩
    · unfold setAt
      rw [if_neg hlen]
      rfl
    · unfold cString qCString
      cases hq : List.takeWhile (fun b => b != 0) (List.take (buf.length + 1 - 1) buf) with
      | nil => simp
      | cons a l => simp

/-- C29 (what holds, and the defect): for a chunk without zero byte the text that
`block_in` inserts is the decoded chunk with every carriage return removed and the other
characters kept in their order; the removal loop ends for every string (one evaluation of
its condition more than there are carriage returns suffices), and the inserted text has no
carriage return.  For a chunk that contains a zero byte the `QCString` ends at that byte
and is shorter than `len + 1` bytes, so the assignment `text[len] = 0` lies outside its
array: a library without range checks writes out of bounds, and a range-checked library
redirects the write to index 0, which empties the string, so that nothing of the chunk is
inserted.  A failed read inserts nothing. -/
theorem block_in_writes_outside_text_for_zero_byte (fromLocal8Bit : List Nat → QString)
    (buf : List Nat) (wid : Window) :
    (0 ∉ buf → ∀ rangeChecked fuel, (fromLocal8Bit buf).count carriageReturn < fuel →
      block_in fromLocal8Bit rangeChecked fuel (some buf) wid =
        some { inserted := wid.inserted ++
                 [(fromLocal8Bit buf).filter (fun x => x != carriageReturn)]
               shown := true }) ∧
    (0 ∉ buf → ∀ rangeChecked,
      block_in fromLocal8Bit rangeChecked ((fromLocal8Bit buf).length + 1) (some buf) wid =
        some { inserted := wid.inserted ++
                 [(fromLocal8Bit buf).filter (fun x => x != carriageReturn)]
               shown := true }) ∧
    (0 ∈ buf → ∀ fuel, block_in fromLocal8Bit false fuel (some buf) wid = none) ∧
    (0 ∈ buf → ∀ fuel, (fromLocal8Bit []).count carriageReturn < fuel →
      block_in fromLocal8Bit true fuel (some buf) wid =
        some { inserted := wid.inserted ++
                 [(fromLocal8Bit []).filter (fun x => x != carriageReturn)]
               shown := true }) ∧
    (∀ str : QString,
      removeCarriageReturns (str.length + 1) str =
        some (str.filter (fun x => x != carriageReturn)) ∧
      carriageReturn ∉ str.filter (fun x => x != carriageReturn) ∧
      (str.filter (fun x => x != carriageReturn)).Sublist str) ∧
    (∀ rangeChecked fuel, block_in fromLocal8Bit rangeChecked fuel none wid = some wid) := by
  have key : 0 ∉ buf → ∀ rangeChecked fuel, (fromLocal8Bit buf).count carriageReturn < fuel →
      block_in fromLocal8Bit rangeChecked fuel (some buf) wid =
        some { inserted := wid.inserted ++
                 [(fromLocal8Bit buf).filter (fun x => x != carriageReturn)]
               shown := true } := by
    intro h0 rangeChecked fuel hfuel
    obtain ⟨text, h1, h2⟩ := text_of_chunk_without_zero rangeChecked buf h0
    unfold block_in
    simp only [h1, h2, Option.bind_eq_bind, Option.some_bind]
    rw [removeCarriageReturns_spec fuel _ hfuel]
    rfl
  refine ⟨key, fun h0 rangeChecked => key h0 rangeChecked _
    (Nat.lt_succ_of_le (List.count_le_length _ _)), ?_, ?_, ?_, fun _ _ => rfl⟩
  · intro h0 fuel
    unfold block_in
    simp only [(text_of_chunk_with_zero buf h0).1, Option.bind_eq_bind, Option.none_bind]
  · intro h0 fuel hfuel
    obtain ⟨text, h1, h2⟩ := (text_of_chunk_with_zero buf h0).2
    unfold block_in
    simp only [h1, h2, Option.bind_eq_bind, Option.some_bind]
    rw [removeCarriageReturns_spec fuel _ hfuel]
    rfl
  · intro str
    refine ⟨removeCarriageReturns_spec _ str (Nat.lt_succ_of_le (List.count_le_length _ _)),
      ?_, List.filter_sublist _⟩
    intro hmem
    have := (List.mem_filter.mp hmem).2
    simp at this

/-- C29, at the failing input: with a Latin-1 locale and the chunk `a`, zero byte, `b`, a
library without range checks writes outside the two-byte `QCString`, and a range-checked
one inserts the empty text; for the chunk `a`, carriage return, `b` the text `ab` is
inserted. -/
theorem block_in_writes_outside_text_for_zero_byte_witness :
    qCString [97, 0, 98] 4 = [97, 0] ∧
    block_in latin1 false 4 (some [97, 0, 98]) {} = none ∧
    block_in latin1 true 4 (some [97, 0, 98]) {} = some { inserted := [[]], shown := true } ∧
    block_in latin1 false 4 (some [97, 13, 98]) {} =
      some { inserted := [[Char.ofNat 97, Char.ofNat 98]], shown := true } :=
  ⟨by decide,
   (block_in_writes_outside_text_for_zero_byte latin1 [97, 0, 98] {}).2.2.1 (by decide) 4,
   by decide, by decide⟩

end KWrited

namespace KonsoleBookmarkHandler

/-- C30: for a local-file base URL whose path is the home directory path followed by
`rest`, `currentTitle` is `~` followed by `rest` (so `~` for the bare home directory); for a
local-file URL whose path does not start with the home directory path it is the path
unchanged; for a URL that is not a local file it is the pretty form of the URL. -/
theorem currentTitle_abbreviates_home_directory (baseURL : KURL) (homeDirPath : QString) :
    (baseURL.isLocalFile = true → ∀ rest, baseURL.path = homeDirPath ++ rest →
      currentTitle baseURL homeDirPath = "~".toList ++ rest) ∧
    (baseURL.isLocalFile = true → baseURL.path = homeDirPath →
      currentTitle baseURL homeDirPath = "~".toList) ∧
    (baseURL.isLocalFile = true → (∀ rest, baseURL.path ≠ homeDirPath ++ rest) →
      currentTitle baseURL homeDirPath = baseURL.path) ∧
    (baseURL.isLocalFile = false → currentTitle baseURL homeDirPath = baseURL.prettyURL) := by
  have h1 : baseURL.isLocalFile = true → ∀ rest, baseURL.path = homeDirPath ++ rest →
      currentTitle baseURL homeDirPath = "~".toList ++ rest := by
    intro hl rest hp
    unfold currentTitle QString.startsWith QString.replace
    simp only [hl, if_true, hp, List.take_left, decide_True, List.take_zero, List.nil_append,
      Nat.zero_add, List.drop_left]
  refine ⟨h1, ?_, ?_, ?_⟩
  · intro hl hp
    have := h1 hl [] (by rw [hp, List.append_nil])
    rw [this, List.append_nil]
  · intro hl hn
    unfold currentTitle QString.startsWith
    have hne : ¬ baseURL.path.take homeDirPath.length = homeDirPath := by
      intro heq
      apply hn (baseURL.path.drop homeDirPath.length)
      conv_lhs => rw [← List.take_append_drop homeDirPath.length baseURL.path]
      rw [heq]
    simp only [hl, if_true, hne, decide_False, Bool.false_eq_true, if_false]
  · intro hl
    unfold currentTitle
    simp [hl]

end KonsoleBookmarkHandler
end Konsole

namespace Konsole
namespace ViewManager
open QHash

theorem createViewIn_views (vm vm1 : ViewManager) (s : Session) (container : Nat)
    (index : Int) (h : createViewIn vm s container index = some vm1) :
    vm1.sessionManager = vm.sessionManager.addView s vm.nextDisplay ∧
    vm1.nextDisplay = vm.nextDisplay + 1 := by
  unfold createViewIn at h
  simp only [Option.bind_eq_bind, Option.bind_eq_some] at h
  obtain ⟨r, hr, vs, _, c, _, h3⟩ := h
  obtain ⟨_, m2⟩ := createController_managerId _ _ _ _ hr
  obtain ⟨_, _, n3⟩ := createController_viewSplitter _ _ _ _ hr
  rw [← Option.some.inj h3]
  exact ⟨by rw [m2], n3⟩

theorem createViewLoop_views (s : Session) (index : Int) (cs : List Nat) :
    ∀ vm vm1 : ViewManager, cs.foldlM (fun v c => createViewIn v s c index) vm = some vm1 →
      vm1.sessionManager.views =
        vm.sessionManager.views ++
          (List.range cs.length).map (fun j => (s, vm.nextDisplay + j)) := by
  induction cs with
  | nil =>
    intro vm vm1 h
    have h0 : some vm = some vm1 := h
    rw [← Option.some.inj h0]
    simp
  | cons c cs ih =>
    intro vm vm1 h
    rw [List.foldlM_cons] at h
    simp only [Option.bind_eq_bind, Option.bind_eq_some] at h
    obtain ⟨vm2, h1, h2⟩ := h
    obtain ⟨v1, v2⟩ := createViewIn_views vm vm2 s c index h1
    rw [ih vm2 vm1 h2, v1, v2, List.length_cons, List.range_succ_eq_map, List.map_cons,
      List.map_map]
    simp only [SessionManager.addView, List.append_assoc, List.singleton_append,
      Nat.add_zero]
    congr 2
    apply List.map_congr_left
    intro j _
    simp only [Function.comp]
    rw [Nat.add_assoc, Nat.add_comm 1 j]

/-- The views that `createView(session)` attaches to the session. -/
theorem createView_views (vm vm1 : ViewManager) (vs : ViewSplitter) (s : Session)
    (hvs : vm.viewSplitter = some vs) (h : createView vm s = some vm1) :
    vm1.sessionManager.views =
      vm.sessionManager.views ++
        (List.range (if vs.containers.length = 0 then
            vs.addContainer createContainer Orientation.Vertical
          else vs).containers.length).map (fun j => (s, vm.nextDisplay + j)) := by
  unfold createView at h
  simp only [hvs, Option.bind_eq_bind, Option.some_bind] at h
  split at h
  · simp only [Option.bind_eq_some] at h
    obtain ⟨index, _, h3⟩ := h
    have h4 := createViewLoop_views s index _ _ vm1 h3
    rw [List.length_range] at h4
    exact h4
  · have h4 := createViewLoop_views s (-1) _ _ vm1 h
    rw [List.length_range] at h4
    exact h4

/-- In a manager with a live splitter (whose active index is valid unless it has no
container) and with display addresses not yet in use, `createView(session)` returns and
creates one view per container. -/
theorem createView_viewCreated (vm : ViewManager) (vs : ViewSplitter) (s : Session)
    (hvs : vm.viewSplitter = some vs)
    (hready : vs.containers.length = 0 ∨ vs.active < vs.containers.length)
    (hfresh : AddressesFresh vm) :
    ∃ vm1, createView vm s = some vm1 ∧ ViewCreated vm s vm1 := by
  obtain ⟨vm1, vs1, index, h1, h2, _, _, h5, _, h7, h8, h9⟩ :=
    createView_spec vm vs s hvs hready hfresh
  have hviews := createView_views vm vm1 vs s hvs h1
  have hstart : (if vs.containers.length = 0 then
      vs.addContainer createContainer Orientation.Vertical else vs).containers.length =
      max 1 vs.containers.length := by
    by_cases hz : vs.containers.length = 0
    · rw [if_pos hz, hz]
      have hnil : vs.containers = [] := List.length_eq_zero.mp hz
      simp [ViewSplitter.addContainer, hnil]
    · rw [if_neg hz]
      omega
  have hlen : vs1.containers.length = max 1 vs.containers.length := h5.trans hstart
  refine ⟨vm1, h1, vs, vs1, index, hvs, h2, hlen, ?_, ?_, ?_, ?_, ?_⟩
  · rw [h7, hlen]
  · rw [h8, hlen]
  · rw [hviews, hstart]
  · intro j c hc
    have hz : ¬ vs.containers.length = 0 := by
      intro hz
      rw [List.length_eq_zero.mp hz] at hc
      simp at hc
    obtain ⟨c1, hc1, htabs⟩ := h9 j c (by rw [if_neg hz]; exact hc)
    refine ⟨c1, hc1, htabs, ?_⟩
    rw [htabs, addView_tabs]
    simp only [List.length_append, List.length_cons, List.length_take, List.length_drop]
    split <;> omega
  · intro hnil
    have hz : vs.containers.length = 0 := by rw [hnil]; rfl
    have hget : (if vs.containers.length = 0 then
          vs.addContainer createContainer Orientation.Vertical else vs).containers.get? 0 =
        some createContainer := by
      rw [if_pos hz]
      simp [ViewSplitter.addContainer, hnil]
    obtain ⟨c1, hc1, htabs⟩ := h9 0 createContainer hget
    have hl1 : vs1.containers.length = 1 := by rw [hlen, hz]; rfl
    refine ⟨c1, ?_, ?_⟩
    · obtain ⟨c, hcs⟩ := List.length_eq_one.mp hl1
      rw [hcs] at hc1
      simp at hc1
      rw [hcs, hc1]
    · rw [htabs, addView_tabs]
      simp [createContainer]

theorem viewCreated_congr (vm vm0 vm1 vm2 : ViewManager) (s : Session)
    (h : ViewCreated vm s vm1)
    (e1 : vm0.viewSplitter = vm.viewSplitter) (e2 : vm0.sessionMap = vm.sessionMap)
    (e3 : vm0.nextDisplay = vm.nextDisplay)
    (e4 : vm0.sessionManager.views = vm.sessionManager.views)
    (f1 : vm2.viewSplitter = vm1.viewSplitter) (f2 : vm2.sessionMap = vm1.sessionMap)
    (f3 : vm2.nextDisplay = vm1.nextDisplay)
    (f4 : vm2.sessionManager.views = vm1.sessionManager.views) :
    ViewCreated vm0 s vm2 := by
  obtain ⟨vs, vs1, index, a1, a2, a3, a4, a5, a6, a7, a8⟩ := h
  refine ⟨vs, vs1, index, e1.trans a1, f1.trans a2, a3, ?_, ?_, ?_, ?_, ?_⟩
  · rw [f3, e3]
    exact a4
  · rw [f2, e2, e3]
    exact a5
  · rw [f4, e4, e3]
    exact a6
  · rw [e3]
    exact a7
  · rw [e3]
    exact a8

/-- The common end of the `newSession` overloads creates one view of the session per
container. -/
theorem startNewSession_viewCreated (vm : ViewManager) (sessionId : Session → Int)
    (session : Session) (hready : SplitterReady vm) (hfresh : AddressesFresh vm)
    (id : Int) (vm1 : ViewManager)
    (h : startNewSession vm sessionId session = some (id, vm1)) :
    ViewCreated vm session vm1 := by
  obtain ⟨vs, hvs, hact⟩ := hready
  have hvs0 : ({ vm with sessionManager :=
      vm.sessionManager.addEnvironmentEntry session (dbusWindowEntry vm) } :
      ViewManager).viewSplitter = some vs := hvs
  have hfresh0 : AddressesFresh { vm with sessionManager :=
      vm.sessionManager.addEnvironmentEntry session (dbusWindowEntry vm) } := hfresh
  obtain ⟨vm2, c1, c2⟩ := createView_viewCreated _ vs session hvs0 hact hfresh0
  unfold startNewSession at h
  simp only [Option.bind_eq_bind, c1, Option.some_bind] at h
  have h4 := (Prod.mk.inj (Option.some.inj h)).2
  rw [← h4]
  exact viewCreated_congr _ vm vm2 _ session c2 rfl rfl rfl rfl rfl rfl rfl rfl

theorem runIfNotRunning_views (vm : ViewManager) (s : Session) :
    (runIfNotRunning vm s).viewSplitter = vm.viewSplitter ∧
    (runIfNotRunning vm s).sessionMap = vm.sessionMap ∧
    (runIfNotRunning vm s).nextDisplay = vm.nextDisplay ∧
    (runIfNotRunning vm s).sessionManager.views = vm.sessionManager.views := by
  unfold runIfNotRunning
  split
  · exact ⟨rfl, rfl, rfl, rfl⟩
  · exact ⟨rfl, rfl, rfl, rfl⟩

/-- The default-profile fallback of `restoreSessions` creates one view of the new session
per container. -/
theorem startDefaultProfile_viewCreated (vm vm1 : ViewManager) (hready : SplitterReady vm)
    (hfresh : AddressesFresh vm) (h : startDefaultProfile vm = some vm1) :
    ViewCreated vm vm.sessionManager.nextSession vm1 := by
  obtain ⟨vs, hvs, hact⟩ := hready
  have hvs0 : ({ vm with sessionManager :=
      (vm.sessionManager.createSession vm.sessionManager.defaultProfile).2 } :
      ViewManager).viewSplitter = some vs := hvs
  have hfresh0 : AddressesFresh { vm with sessionManager :=
      (vm.sessionManager.createSession vm.sessionManager.defaultProfile).2 } := hfresh
  obtain ⟨vm2, c1, c2⟩ :=
    createView_viewCreated _ vs vm.sessionManager.nextSession hvs0 hact hfresh0
  unfold startDefaultProfile at h
  simp only [SessionManager.createSession, Option.bind_eq_bind] at h c1
  rw [c1] at h
  have h4 : runIfNotRunning vm2 vm.sessionManager.nextSession = vm1 := Option.some.inj h
  obtain ⟨r1, r2, r3, r4⟩ := runIfNotRunning_views vm2 vm.sessionManager.nextSession
  rw [← h4]
  exact viewCreated_congr _ vm vm2 _ _ c2 rfl rfl rfl rfl r1 r2 r3 r4

end ViewManager
end Konsole

namespace Konsole
namespace ViewManager
open QHash

theorem addressesFresh_freshManager : AddressesFresh freshManager :=
  fun _ h => absurd h (List.not_mem_nil _)

/-- C19: `newSession(profile)` and `newSession(profile, directory)` (in a manager whose
splitter is ready) create the session with the first profile of the profile list whose name
is `profile`, and with the default profile when no listed profile has that name; both call
`createView` once for the new session, run it, and return its session id; the second also
sets the directory the session starts in.  The view is there afterwards: when the addresses
of new displays are not yet in use, every container (a first one is made when there is
none) has one new tab with a new display that is mapped to the new session and attached to
it. -/
theorem newSession_uses_named_profile_or_default (vm : ViewManager)
    (allProfiles : List (Profile × String)) (sessionId : Session → Int) (profile : String)
    (directory : String) (hready : SplitterReady vm) :
    (∀ pre i post, allProfiles = pre ++ i :: post → i.2 = profile →
      (∀ j ∈ pre, j.2 ≠ profile) →
      profileNamed allProfiles profile vm.sessionManager.defaultProfile = i.1) ∧
    ((∀ j ∈ allProfiles, j.2 ≠ profile) →
      profileNamed allProfiles profile vm.sessionManager.defaultProfile =
        vm.sessionManager.defaultProfile) ∧
    (∃ vm1, newSessionWithProfile vm allProfiles sessionId profile =
        some (sessionId vm.sessionManager.nextSession, vm1) ∧
      vm1.sessionManager.created =
        vm.sessionManager.created ++
          [(vm.sessionManager.nextSession,
            profileNamed allProfiles profile vm.sessionManager.defaultProfile)] ∧
      createViewCalls vm1.log = createViewCalls vm.log ++ [vm.sessionManager.nextSession] ∧
      runCalls vm1.log = runCalls vm.log ++ [vm.sessionManager.nextSession] ∧
      vm1.sessionManager.isRunning vm.sessionManager.nextSession = true ∧
      (AddressesFresh vm → ViewCreated vm vm.sessionManager.nextSession vm1)) ∧
    (∃ vm1, newSessionInDirectory vm allProfiles sessionId profile directory =
        some (sessionId vm.sessionManager.nextSession, vm1) ∧
      vm1.sessionManager.created =
        vm.sessionManager.created ++
          [(vm.sessionManager.nextSession,
            profileNamed allProfiles profile vm.sessionManager.defaultProfile)] ∧
      createViewCalls vm1.log = createViewCalls vm.log ++ [vm.sessionManager.nextSession] ∧
      runCalls vm1.log = runCalls vm.log ++ [vm.sessionManager.nextSession] ∧
      vm1.sessionManager.isRunning vm.sessionManager.nextSession = true ∧
      vm1.sessionManager.initialWorkingDirectory =
        vm.sessionManager.initialWorkingDirectory ++
          [(vm.sessionManager.nextSession, directory)] ∧
      (AddressesFresh vm → ViewCreated vm vm.sessionManager.nextSession vm1)) := by
  refine ⟨?_, ?_, ?_, ?_⟩
  · intro pre i post hsplit hi hpre
    rw [hsplit]
    exact profileNamed_first pre i post profile _ hi hpre
  · intro hall
    exact profileNamed_none allProfiles profile _ hall
  · have hready1 : SplitterReady { vm with
        sessionManager := (vm.sessionManager.createSession
          (profileNamed allProfiles profile vm.sessionManager.defaultProfile)).2 } := hready
    obtain ⟨vm1, h1, h2, h3, h4, h5, _⟩ :=
      startNewSession_spec _ sessionId vm.sessionManager.nextSession hready1
    refine ⟨vm1, h1, h4, h2, h3, h5, fun hfresh => ?_⟩
    have hfresh1 : AddressesFresh { vm with
        sessionManager := (vm.sessionManager.createSession
          (profileNamed allProfiles profile vm.sessionManager.defaultProfile)).2 } := hfresh
    have hv := startNewSession_viewCreated _ sessionId vm.sessionManager.nextSession hready1
      hfresh1 _ vm1 h1
    exact viewCreated_congr _ vm vm1 vm1 _ hv rfl rfl rfl rfl rfl rfl rfl rfl
  · have hready1 : SplitterReady { vm with
        sessionManager := ((vm.sessionManager.createSession
          (profileNamed allProfiles profile vm.sessionManager.defaultProfile)).2).setInitialWorkingDirectory
            vm.sessionManager.nextSession directory } := hready
    obtain ⟨vm1, h1, h2, h3, h4, h5, _, h7⟩ :=
      startNewSession_spec _ sessionId vm.sessionManager.nextSession hready1
    refine ⟨vm1, h1, h4, h2, h3, h5, h7, fun hfresh => ?_⟩
    have hfresh1 : AddressesFresh { vm with
        sessionManager := ((vm.sessionManager.createSession
          (profileNamed allProfiles profile vm.sessionManager.defaultProfile)).2).setInitialWorkingDirectory
            vm.sessionManager.nextSession directory } := hfresh
    have hv := startNewSession_viewCreated _ sessionId vm.sessionManager.nextSession hready1
      hfresh1 _ vm1 h1
    exact viewCreated_congr _ vm vm1 vm1 _ hv rfl rfl rfl rfl rfl rfl rfl rfl

/-- C19, at a concrete input: two listed profiles are named `b`; the session is created with
the first of them, profile 2, its id is returned, and display 50 shows it in the only tab. -/
theorem newSession_uses_named_profile_or_default_witness :
    SplitterReady freshManager ∧ AddressesFresh freshManager ∧
    ∃ vm1, newSessionWithProfile freshManager [(1, "a"), (2, "b"), (3, "b")]
        (fun s => (s : Int) + 1) "b" = some (301, vm1) ∧
      vm1.sessionManager.created = [(300, 2)] ∧
      ViewCreated freshManager 300 vm1 ∧
      (newSessionWithProfile freshManager [(1, "a"), (2, "b"), (3, "b")]
        (fun s => (s : Int) + 1) "b").map
          (fun r => (r.2.sessionMap, r.2.sessionManager.views,
            r.2.viewSplitter.map (fun s => s.containers.map (fun c => c.tabs)))) =
        some ([(50, some 300)], [(300, 50)], some [[rootTab 50 0]]) := by
  refine ⟨splitterReady_freshManager, addressesFresh_freshManager, ?_⟩
  obtain ⟨_, _, ⟨vm1, h1, h2, _, _, _, h6⟩, _⟩ :=
    newSession_uses_named_profile_or_default freshManager [(1, "a"), (2, "b"), (3, "b")]
      (fun s => (s : Int) + 1) "b" "" splitterReady_freshManager
  refine ⟨vm1, h1, ?_, h6 addressesFresh_freshManager, rfl⟩
  rw [h2]
  decide

end ViewManager
end Konsole

namespace Konsole
namespace ViewManager
open QHash

/-- C25 (what holds, and the defect): the entry given to new sessions is
`KONSOLE_DBUS_WINDOW=` followed by the object path `/Windows/<managerId>`, the path that
the constructor registers.  In a manager whose splitter is ready, each of the three
`newSession` overloads returns after it gave exactly this entry to the session it created,
and `createMultiTerminalView` does so whenever it returns (it returns when a controller is
plugged and there is an active container); none of them changes the manager id.  The
default-profile fallback of `restoreSessions` creates its session, gives it its views and
runs it like `newSession()`, but leaves the environment as it was: the session that the
manager created there gets no `KONSOLE_DBUS_WINDOW` entry. -/
theorem restoreSessions_fallback_omits_dbus_window_entry (vm : ViewManager)
    (allProfiles : List (Profile × String)) (sessionId : Session → Int)
    (profile directory : String) (currentDir : SessionController → String)
    (startInCurrentSessionDir : Profile → Bool) (orientation : Orientation)
    (group : KConfigGroup) (hready : SplitterReady vm) :
    dbusWindowEntry vm = "KONSOLE_DBUS_WINDOW=" ++ objectPath vm.managerId ∧
    (∀ l d sm collection,
      registeredObjects (construct l d sm collection).1.log =
        [objectPath (construct l d sm collection).1.managerId]) ∧
    (∃ vm1, newSession vm sessionId = some (sessionId vm.sessionManager.nextSession, vm1) ∧
      vm1.sessionManager.environment =
        vm.sessionManager.environment ++
          [(vm.sessionManager.nextSession, dbusWindowEntry vm)] ∧
      vm1.managerId = vm.managerId) ∧
    (∃ vm1, newSessionWithProfile vm allProfiles sessionId profile =
        some (sessionId vm.sessionManager.nextSession, vm1) ∧
      vm1.sessionManager.environment =
        vm.sessionManager.environment ++
          [(vm.sessionManager.nextSession, dbusWindowEntry vm)] ∧
      vm1.managerId = vm.managerId) ∧
    (∃ vm1, newSessionInDirectory vm allProfiles sessionId profile directory =
        some (sessionId vm.sessionManager.nextSession, vm1) ∧
      vm1.sessionManager.environment =
        vm.sessionManager.environment ++
          [(vm.sessionManager.nextSession, dbusWindowEntry vm)] ∧
      vm1.managerId = vm.managerId) ∧
    (∀ vm1, createMultiTerminalView vm currentDir startInCurrentSessionDir orientation =
        some vm1 →
      vm1.sessionManager.environment =
        vm.sessionManager.environment ++
          [(vm.sessionManager.nextSession, dbusWindowEntry vm)] ∧
      vm1.sessionManager.created =
        vm.sessionManager.created ++
          [(vm.sessionManager.nextSession, vm.sessionManager.defaultProfile)] ∧
      vm1.managerId = vm.managerId) ∧
    (∀ vs controller c, vm.pluggedController = some controller →
      vm.viewSplitter = some vs → vs.activeContainer = some c →
      ∃ vm1, createMultiTerminalView vm currentDir startInCurrentSessionDir orientation =
        some vm1) ∧
    ((group.sessions = none ∨ group.sessions = some []) →
      ∃ vm1, restoreSessions vm group = some vm1 ∧
        vm1.sessionManager.created =
          vm.sessionManager.created ++
            [(vm.sessionManager.nextSession, vm.sessionManager.defaultProfile)] ∧
        vm1.sessionManager.isRunning vm.sessionManager.nextSession = true ∧
        (AddressesFresh vm → ViewCreated vm vm.sessionManager.nextSession vm1) ∧
        vm1.sessionManager.environment = vm.sessionManager.environment ∧
        ((∀ e ∈ vm.sessionManager.environment, e.1 ≠ vm.sessionManager.nextSession) →
          ∀ e ∈ vm1.sessionManager.environment, e.1 ≠ vm.sessionManager.nextSession)) := by
  refine ⟨dbusWindowEntry_eq vm, fun l d sm collection => registeredObjects_construct l d sm
    collection, ?_, ?_, ?_, ?_, ?_, ?_⟩
  · have hready1 : SplitterReady { vm with
        sessionManager :=
          (vm.sessionManager.createSession vm.sessionManager.defaultProfile).2 } := hready
    obtain ⟨vm1, h1, _, _, _, _, h6, _⟩ :=
      startNewSession_spec _ sessionId vm.sessionManager.nextSession hready1
    have hm := startNewSession_managerId _ vm1 sessionId _ _ h1
    exact ⟨vm1, h1, h6, hm⟩
  · have hready1 : SplitterReady { vm with
        sessionManager := (vm.sessionManager.createSession
          (profileNamed allProfiles profile vm.sessionManager.defaultProfile)).2 } := hready
    obtain ⟨vm1, h1, _, _, _, _, h6, _⟩ :=
      startNewSession_spec _ sessionId vm.sessionManager.nextSession hready1
    have hm := startNewSession_managerId _ vm1 sessionId _ _ h1
    exact ⟨vm1, h1, h6, hm⟩
  · have hready1 : SplitterReady { vm with
        sessionManager := ((vm.sessionManager.createSession
          (profileNamed allProfiles profile vm.sessionManager.defaultProfile)).2).setInitialWorkingDirectory
            vm.sessionManager.nextSession directory } := hready
    obtain ⟨vm1, h1, _, _, _, _, h6, _⟩ :=
      startNewSession_spec _ sessionId vm.sessionManager.nextSession hready1
    have hm := startNewSession_managerId _ vm1 sessionId _ _ h1
    exact ⟨vm1, h1, h6, hm⟩
  · intro vm1 h
    exact createMultiTerminalView_environment vm vm1 currentDir startInCurrentSessionDir
      orientation h
  · intro vs controller c hp hvs hc
    exact createMultiTerminalView_returns vm vs controller c currentDir
      startInCurrentSessionDir orientation hp hvs hc
  · intro hgroup
    obtain ⟨vm1, h1, h2, _, _, h5, _⟩ := startDefaultProfile_spec vm hready
    obtain ⟨vm2, g1, _, g3⟩ := startDefaultProfile_environment vm hready
    rw [h1] at g1
    have hv : vm2 = vm1 := (Option.some.inj g1).symm
    rw [hv] at g3
    refine ⟨vm1, ?_, h2, h5, fun hfresh => startDefaultProfile_viewCreated vm vm1 hready
      hfresh h1, g3, fun hall e he => ?_⟩
    · rw [restoreSessions_of_no_ids vm group hgroup, h1]
    · rw [g3] at he
      exact hall e he

/-- C25, at the failing input: the fresh manager has id 1 and registered `/Windows/1`;
`newSession()` gives session 300 the entry `KONSOLE_DBUS_WINDOW=/Windows/1`, while
`restoreSessions` on a group without stored sessions creates session 300, shows it in a tab
and runs it without any environment entry.  In `twoTabs` (manager id 0), with the
controller of display 51 plugged, `createMultiTerminalView` splits the pane of that display
and gives session 300 the entry `KONSOLE_DBUS_WINDOW=/Windows/0`. -/
theorem restoreSessions_fallback_omits_dbus_window_entry_witness :
    SplitterReady freshManager ∧
    registeredObjects freshManager.log = ["/Windows/1"] ∧
    (∃ vm1, newSession freshManager (fun s => (s : Int)) = some (300, vm1) ∧
      vm1.sessionManager.environment = [(300, "KONSOLE_DBUS_WINDOW=/Windows/1")]) ∧
    (∃ vm1, restoreSessions freshManager {} = some vm1 ∧
      vm1.sessionManager.created = [(300, 7)] ∧
      vm1.sessionMap = [(50, some 300)] ∧
      vm1.sessionManager.running = [300] ∧
      vm1.sessionManager.environment = []) ∧
    (createMultiTerminalView
        { twoTabs with pluggedController := some { session := some 200, view := 51 } }
        (fun _ => "/tmp") (fun _ => true) Orientation.Horizontal).map
      (fun v => (v.sessionManager.environment,
        v.viewSplitter.map (fun s => s.containers.map (fun c => c.tabs)))) =
      some ([(300, "KONSOLE_DBUS_WINDOW=/Windows/0")],
        some [[rootTab 50 0,
          QWidget.multiTerminalDisplay (MultiTerminalDisplay.split Orientation.Horizontal
            (MultiTerminalDisplay.leaf 51) (MultiTerminalDisplay.leaf 52))]]) := by
  obtain ⟨_, _, ⟨vm1, h1, h2, _⟩, _⟩ :=
    restoreSessions_fallback_omits_dbus_window_entry freshManager [] (fun s => (s : Int)) ""
      "" (fun _ => "") (fun _ => true) Orientation.Horizontal {} splitterReady_freshManager
  refine ⟨splitterReady_freshManager, by decide, ⟨vm1, h1, ?_⟩, ⟨_, rfl, rfl, rfl, rfl, rfl⟩,
    ?_⟩
  · rw [h2]
    decide
  · decide

end ViewManager
end Konsole
